import Mathlib

/-!
# gofind: crawl loop, dynamic-attribute parsing and CSV serialisation

A shallow embedding of the Go scrapers of the repository.  Every Go file is a
separate `package main`, so each file gets its own namespace below.

Modelling conventions
* A Go `string` holding text taken from a parsed HTML document is a Lean `String`,
  a sequence of Unicode code points (the text is taken to be valid UTF-8).
* A Go `map[string]string` is an association list (`GoMap`); the first binding of a
  key is the one a lookup sees, so every list denotes a map and every map is
  denoted by a list.
* The Go language leaves the iteration order of `for k := range m` over a map
  unspecified, and it may differ between two `range` statements over the same
  map.  Each execution of such a statement therefore takes a `RangeOrder`, which
  fixes the order in which the keys are visited.
* Network fetches and HTML queries are inputs: a page is given by the texts the
  selectors return, and a failed request or parse by `none` (or by a `Fetch` error where
  the function returns the error).  Printing and logging are not modelled; of sleeping,
  only the duration handed to `time.Sleep`, in nanoseconds.
* `log.Fatal` ends the process: a `main` returns a `ProcessOutcome`.
* A Go `string` that holds arbitrary bytes (base64 data) is a list of `Byte`.
* Library functions (`strings`, `encoding/base64`, `math/rand`, float64 arithmetic) are
  modelled from their documented behaviour.
-/

namespace GoFind

/-! ## Go maps and map iteration -/

/-- A Go `map[string]string`. -/
abbrev GoMap := List (String × String)

namespace GoMap

/-- The lookup `v, ok := m[k]`: `some v` when `ok`, `none` otherwise. -/
def get : GoMap → String → Option String
  | [], _ => none
  | (k', v) :: rest, k => if k' = k then some v else get rest k

/-- The assignment `m[k] = v`. -/
def set : GoMap → String → String → GoMap
  | [], k, v => [(k, v)]
  | (k', v') :: rest, k, v => if k' = k then (k, v) :: rest else (k', v') :: set rest k v

/-- The key set of the map, every key once. -/
def keys (m : GoMap) : List String := (m.map Prod.fst).dedup

end GoMap

/-- A Go `map[string]bool` that only ever receives `true`: the set of its keys. -/
abbrev KeySet := List String

/-- The assignment `s[k] = true`. -/
def KeySet.add (s : KeySet) (k : String) : KeySet := if k ∈ s then s else s ++ [k]

/-- The order in which one execution of `for k := range m` visits the keys of a map:
some rearrangement of the key set, every key exactly once. -/
structure RangeOrder where
  visit : List String → List String
  perm : ∀ ks, (visit ks).Perm ks

/-- The iteration that visits the keys in the order they are stored. -/
def RangeOrder.stored : RangeOrder := ⟨fun ks => ks, fun ks => List.Perm.refl ks⟩

/-- The iteration that visits the keys in the opposite order. -/
def RangeOrder.reversed : RangeOrder := ⟨fun ks => ks.reverse, fun ks => List.reverse_perm ks⟩

/-- The records handed to `csv.Writer.Write`, in order: the header, then the data rows. -/
structure CsvOutput where
  header : List String
  rows : List (List String)
deriving DecidableEq, Repr

/-- The body `row = append(row, v)` / `row = append(row, "")` of the loops that
fill the dynamic cells of a row from a map. -/
def appendCell (m : GoMap) (row : List String) (k : String) : List String :=
  match m.get k with
  | some v => row ++ [v]
  | none => row ++ [""]

/-- The value of the Go expression `m[k]`: the stored value, or the empty string
when the key is absent. -/
def GoMap.index (m : GoMap) (k : String) : String :=
  match m.get k with
  | some v => v
  | none => ""

/-- The number of distinct keys occurring in a family of maps. -/
def distinctKeys (ms : List GoMap) : Nat := ((ms.map GoMap.keys).flatten.dedup).length

/-! ## Go strings: `strings.TrimSpace`, `strings.TrimSuffix` -/

/-- The predicate `unicode.IsSpace`: the Latin-1 spaces and the code points with the
Unicode White_Space property. -/
def isSpace (c : Char) : Bool :=
  let n := c.toNat
  n = 0x09 || n = 0x0A || n = 0x0B || n = 0x0C || n = 0x0D || n = 0x20 || n = 0x85 ||
  n = 0xA0 || n = 0x1680 || (0x2000 ≤ n && n ≤ 0x200A) || n = 0x2028 || n = 0x2029 ||
  n = 0x202F || n = 0x205F || n = 0x3000

/-- Trimming of leading and trailing white space, on the code points of a string. -/
def trimChars (l : List Char) : List Char :=
  ((l.dropWhile isSpace).reverse.dropWhile isSpace).reverse

/-- The function `strings.TrimSpace`. -/
def TrimSpace (s : String) : String := ⟨trimChars s.data⟩

/-- The function `strings.HasSuffix`. -/
def HasSuffix (s suffix : String) : Bool := suffix.data.isSuffixOf s.data

/-- The function `strings.TrimSuffix`: `s` without the trailing `suffix`, or `s` itself
when it does not end with `suffix`. -/
def TrimSuffix (s suffix : String) : String :=
  if HasSuffix s suffix then ⟨s.data.take (s.data.length - suffix.data.length)⟩ else s

/-- No white space at the start of the string. -/
def NoLeadingSpace (s : String) : Prop := ∀ c, s.data.head? = some c → isSpace c = false

/-- No white space at the end of the string. -/
def NoTrailingSpace (s : String) : Prop := ∀ c, s.data.getLast? = some c → isSpace c = false

/-- The string ends with a colon. -/
def EndsWithColon (s : String) : Prop := s.data.getLast? = some ':'

/-! ## Crawl loops -/

/-- Go `int` arithmetic on a 64-bit platform: the result wraps around. -/
def wrapInt (n : Int) : Int := (n + 2 ^ 63) % 2 ^ 64 - 2 ^ 63

/-- What a crawl loop leaves behind: the accumulated records and the page numbers
for which `scrapePage` was called, in call order. -/
structure CrawlResult (α : Type) where
  tractors : List α
  fetched : List Int
deriving DecidableEq, Repr

/-- The loop `for page := 1; ; page++` of `main` in aggriafaires.go, main2.go, mainurls.go
and mainurls2.go, from the state at the top of an iteration.  `scrapePage p` is what the
call of `scrapePage` for page `p` returns (`nil` and the empty slice both have length 0);
`fuel` bounds the number of iterations, `none` meaning the loop is still running. -/
def crawlUntilEmpty {α : Type} (scrapePage : Int → List α) :
    Nat → Int → List α → List Int → Option (CrawlResult α)
  | 0, _, _, _ => none
  | fuel + 1, page, tractors, fetched =>
    let newTractors := scrapePage page
    if newTractors.length = 0 then
      some { tractors := tractors, fetched := fetched ++ [page] }
    else
      crawlUntilEmpty scrapePage fuel (wrapInt (page + 1)) (tractors ++ newTractors)
        (fetched ++ [page])

/-- The loop `for page := 1; ; page++` of `main` in agriaffaires1.2.go and agriaffaires2.go.
`scrapePage p` is the triple returned for page `p`: an error, or the listings and
whether a next-page control was found. -/
def crawlUntilLast {α : Type} (scrapePage : Int → Except String (List α × Bool)) :
    Nat → Int → List α → List Int → Option (CrawlResult α)
  | 0, _, _, _ => none
  | fuel + 1, page, allTractors, fetched =>
    match scrapePage page with
    | .error _ => some { tractors := allTractors, fetched := fetched ++ [page] }
    | .ok (pageTractors, hasNextPage) =>
      let allTractors := allTractors ++ pageTractors
      if pageTractors.length = 0 || !hasNextPage then
        some { tractors := allTractors, fetched := fetched ++ [page] }
      else
        crawlUntilLast scrapePage fuel (wrapInt (page + 1)) allTractors (fetched ++ [page])

/-- The listings of pages `first, first + 1, ..., first + n - 1`, concatenated in page order. -/
def listingsOf {α : Type} (scrapePage : Int → List α) (first : Int) (n : Nat) : List α :=
  ((List.range n).map (fun (i : Nat) => scrapePage (first + (i : Int)))).flatten

/-- The page numbers `first, first + 1, ..., first + n - 1`. -/
def pagesFrom (first : Int) (n : Nat) : List Int :=
  (List.range n).map (fun (i : Nat) => first + (i : Int))

/-! ## Detail pages -/

/-- What the selectors of `scrapeDetailedPage` return on a parsed detail page: the text
of `#description_original`, and for every `.table--specs tr` the texts of its
`td:first-child` and `td:last-child`. -/
structure DetailDocument where
  description : String
  specRows : List (String × String)
deriving DecidableEq, Repr

/-- The callback of `doc.Find(".table--specs tr").Each` on one row. -/
def specRow (details : GoMap) (row : String × String) : GoMap :=
  let key := TrimSpace row.1
  let value := TrimSpace row.2
  if key ≠ "" ∧ value ≠ "" then details.set key value else details

/-! ## aggriafaires.go -/

namespace Aggriafaires

structure Tractor where
  Title : String
  Price : String
  Location : String
  Dealer : String
  ImageURL : String
  DetailURL : String
  Description : String
  Details : GoMap
deriving DecidableEq, Repr

/-- The iteration orders taken by the map `range` statements of one run of `saveToCsv`:
over the `Details` of the `i`-th record (line 156), over `detailKeys` for the header
(line 163) and over `detailKeys` for the row of the `i`-th record (line 181). -/
structure Schedule where
  collect : Nat → RangeOrder
  header : RangeOrder
  row : Nat → RangeOrder

/-- Lines 154-159: collect all detail keys, starting at record number `i`. -/
def collectKeys (sched : Schedule) : Nat → List Tractor → KeySet → KeySet
  | _, [], detailKeys => detailKeys
  | i, tractor :: rest, detailKeys =>
    collectKeys sched (i + 1) rest
      (((sched.collect i).visit tractor.Details.keys).foldl KeySet.add detailKeys)

/-- Lines 162-165: the header. -/
def buildHeader (order : RangeOrder) (detailKeys : KeySet) : List String :=
  (order.visit detailKeys).foldl (fun header k => header ++ [k])
    ["Title", "Price", "Location", "Dealer", "Image URL", "Detail URL", "Description"]

/-- Lines 172-187: the row of one record. -/
def buildRow (order : RangeOrder) (detailKeys : KeySet) (tractor : Tractor) : List String :=
  (order.visit detailKeys).foldl (appendCell tractor.Details)
    [tractor.Title, tractor.Price, tractor.Location, tractor.Dealer, tractor.ImageURL,
      tractor.DetailURL, tractor.Description]

/-- Lines 171-191: the data rows, starting at record number `i`. -/
def buildRows (sched : Schedule) (detailKeys : KeySet) : Nat → List Tractor → List (List String)
  | _, [] => []
  | i, tractor :: rest =>
    buildRow (sched.row i) detailKeys tractor :: buildRows sched detailKeys (i + 1) rest

/-- The function `saveToCsv`, with the directory and the file created successfully. -/
def saveToCsv (sched : Schedule) (tractors : List Tractor) : CsvOutput :=
  let detailKeys := collectKeys sched 0 tractors []
  { header := buildHeader sched.header detailKeys
    rows := buildRows sched detailKeys 0 tractors }

end Aggriafaires

/-! ## agriaffaires1.2.go -/

namespace Agriaffaires1_2

structure Tractor where
  Title : String
  Price : String
  ReferencePrice : String
  ReferenceCurrency : String
  DisplayedCurrency : String
  PriceType : String
  Location : String
  Dealer : String
  ImageURL : String
  DetailURL : String
  Description : String
  Details : GoMap
deriving DecidableEq, Repr

/-- The iteration orders of the map `range` statements of `saveToCsv` (lines 243, 250, 272). -/
structure Schedule where
  collect : Nat → RangeOrder
  header : RangeOrder
  row : Nat → RangeOrder

/-- Lines 241-246. -/
def collectKeys (sched : Schedule) : Nat → List Tractor → KeySet → KeySet
  | _, [], detailKeys => detailKeys
  | i, tractor :: rest, detailKeys =>
    collectKeys sched (i + 1) rest
      (((sched.collect i).visit tractor.Details.keys).foldl KeySet.add detailKeys)

/-- Lines 249-252. -/
def buildHeader (order : RangeOrder) (detailKeys : KeySet) : List String :=
  (order.visit detailKeys).foldl (fun header k => header ++ [k])
    ["Title", "Price", "Reference Price", "Reference Currency", "Displayed Currency",
      "Price Type", "Location", "Dealer", "Image URL", "Detail URL", "Description"]

/-- Lines 259-278. -/
def buildRow (order : RangeOrder) (detailKeys : KeySet) (tractor : Tractor) : List String :=
  (order.visit detailKeys).foldl (appendCell tractor.Details)
    [tractor.Title, tractor.Price, tractor.ReferencePrice, tractor.ReferenceCurrency,
      tractor.DisplayedCurrency, tractor.PriceType, tractor.Location, tractor.Dealer,
      tractor.ImageURL, tractor.DetailURL, tractor.Description]

/-- Lines 258-282. -/
def buildRows (sched : Schedule) (detailKeys : KeySet) : Nat → List Tractor → List (List String)
  | _, [] => []
  | i, tractor :: rest =>
    buildRow (sched.row i) detailKeys tractor :: buildRows sched detailKeys (i + 1) rest

/-- The function `saveToCsv`, with the directory and the file created successfully. -/
def saveToCsv (sched : Schedule) (tractors : List Tractor) : CsvOutput :=
  let detailKeys := collectKeys sched 0 tractors []
  { header := buildHeader sched.header detailKeys
    rows := buildRows sched detailKeys 0 tractors }

end Agriaffaires1_2

namespace Aggriafaires

/-- The function `scrapeDetailedPage`; `page` is `none` when `http.Get` or the parse of
the response fails, and the record is then left as it is. -/
def scrapeDetailedPage (tractor : Tractor) (page : Option DetailDocument) : Tractor :=
  match page with
  | none => tractor
  | some doc =>
    { tractor with
      Description := TrimSpace doc.description
      Details := doc.specRows.foldl specRow tractor.Details }

/-- The crawl loop of `main` (lines 37-49), run for at most `fuel` iterations. -/
def crawl (scrapePage : Int → List Tractor) (fuel : Nat) : Option (CrawlResult Tractor) :=
  crawlUntilEmpty scrapePage fuel 1 [] []

end Aggriafaires

namespace Agriaffaires1_2

/-- The function `scrapeDetailedPage`; `page` is `none` when the request or the parse of
the response fails. -/
def scrapeDetailedPage (tractor : Tractor) (page : Option DetailDocument) : Tractor :=
  match page with
  | none => tractor
  | some doc =>
    { tractor with
      Description := TrimSpace doc.description
      Details := doc.specRows.foldl specRow tractor.Details }

/-- The crawl loop of `main` (lines 85-105), run for at most `fuel` iterations. -/
def crawl (scrapePage : Int → Except String (List Tractor × Bool)) (fuel : Nat) :
    Option (CrawlResult Tractor) :=
  crawlUntilLast scrapePage fuel 1 [] []

end Agriaffaires1_2

/-! ## main2.go -/

namespace Main2

structure Tractor where
  Title : String
  Price : String
  OriginalPrice : String
  PriceExclVAT : String
  HP : String
  Year : String
  WorkingHours : String
  Dealer : String
  Location : String
  ImageURL : String
  Details : String
deriving DecidableEq, Repr

/-- The crawl loop of `main` (lines 35-45), run for at most `fuel` iterations. -/
def crawl (scrapePage : Int → List Tractor) (fuel : Nat) : Option (CrawlResult Tractor) :=
  crawlUntilEmpty scrapePage fuel 1 [] []

end Main2

/-! ## mainurls.go -/

namespace Mainurls

structure Tractor where
  Title : String
  Price : String
  OriginalPrice : String
  PriceExclVAT : String
  HP : String
  Year : String
  WorkingHours : String
  Dealer : String
  Location : String
  ImageURL : String
  Details : String
  DetailURL : String
  Description : String
  Equipment : List String
  Specifications : GoMap
deriving DecidableEq, Repr

/-- The crawl loop of `main` (lines 44-56), run for at most `fuel` iterations. -/
def crawl (scrapePage : Int → List Tractor) (fuel : Nat) : Option (CrawlResult Tractor) :=
  crawlUntilEmpty scrapePage fuel 1 [] []

end Mainurls

/-! ## mainurls2.go -/

namespace Mainurls2

structure Tractor where
  Title : String
  Price : String
  OriginalPrice : String
  PriceExclVAT : String
  HP : String
  Year : String
  WorkingHours : String
  Dealer : String
  Location : String
  ImageURL : String
  Details : String
  DetailURL : String
  Description : String
  Equipment : GoMap
  Specifications : GoMap
deriving DecidableEq, Repr

/-- The crawl loop of `main` (lines 44-56), run for at most `fuel` iterations. -/
def crawl (scrapePage : Int → List Tractor) (fuel : Nat) : Option (CrawlResult Tractor) :=
  crawlUntilEmpty scrapePage fuel 1 [] []

/-- The iteration orders of the map `range` statements of `saveToCsv`: over the
`Equipment` and the `Specifications` of the `i`-th record (lines 185, 188), over
`equipmentKeys` and `specKeys` for the header (lines 196, 199) and for the row of the
`i`-th record (lines 223, 230). -/
structure Schedule where
  collectEquipment : Nat → RangeOrder
  collectSpec : Nat → RangeOrder
  headerEquipment : RangeOrder
  headerSpec : RangeOrder
  rowEquipment : Nat → RangeOrder
  rowSpec : Nat → RangeOrder

/-- Lines 182-191: collect the equipment keys and the specification keys, starting at
record number `i`. -/
def collectKeys (sched : Schedule) : Nat → List Tractor → KeySet × KeySet → KeySet × KeySet
  | _, [], keys => keys
  | i, tractor :: rest, (equipmentKeys, specKeys) =>
    collectKeys sched (i + 1) rest
      (((sched.collectEquipment i).visit tractor.Equipment.keys).foldl KeySet.add equipmentKeys,
        ((sched.collectSpec i).visit tractor.Specifications.keys).foldl KeySet.add specKeys)

/-- Lines 194-201: the header. -/
def buildHeader (sched : Schedule) (equipmentKeys specKeys : KeySet) : List String :=
  let header := ["Title", "Price", "Original Price", "Price Excl. VAT", "HP", "Year",
    "Working Hours", "Dealer", "Location", "Image URL", "Details", "Detail URL", "Description"]
  let header := (sched.headerEquipment.visit equipmentKeys).foldl
    (fun header k => header ++ ["Equipment: " ++ k]) header
  (sched.headerSpec.visit specKeys).foldl (fun header k => header ++ ["Spec: " ++ k]) header

/-- Lines 208-236: the row of record number `i`. -/
def buildRow (sched : Schedule) (equipmentKeys specKeys : KeySet) (i : Nat) (tractor : Tractor) :
    List String :=
  let row := [tractor.Title, tractor.Price, tractor.OriginalPrice, tractor.PriceExclVAT,
    tractor.HP, tractor.Year, tractor.WorkingHours, tractor.Dealer, tractor.Location,
    tractor.ImageURL, tractor.Details, tractor.DetailURL, tractor.Description]
  let row := ((sched.rowEquipment i).visit equipmentKeys).foldl (appendCell tractor.Equipment) row
  ((sched.rowSpec i).visit specKeys).foldl (appendCell tractor.Specifications) row

/-- Lines 207-240: the data rows, starting at record number `i`. -/
def buildRows (sched : Schedule) (equipmentKeys specKeys : KeySet) :
    Nat → List Tractor → List (List String)
  | _, [] => []
  | i, tractor :: rest =>
    buildRow sched equipmentKeys specKeys i tractor ::
      buildRows sched equipmentKeys specKeys (i + 1) rest

/-- The function `saveToCsv`, with the directory and the file created successfully. -/
def saveToCsv (sched : Schedule) (tractors : List Tractor) : CsvOutput :=
  let keys := collectKeys sched 0 tractors ([], [])
  { header := buildHeader sched keys.1 keys.2
    rows := buildRows sched keys.1 keys.2 0 tractors }

end Mainurls2

/-! ## agriaffaires2.go -/

namespace Agriaffaires2

structure Tractor where
  Title : String
  Price : String
  OriginalPrice : String
  PriceExclVAT : String
  ReferencePrice : String
  ReferenceCurrency : String
  DisplayedCurrency : String
  PriceType : String
  HP : String
  Year : String
  WorkingHours : String
  Location : String
  Dealer : String
  PhoneNumbers : String
  ImageURL : String
  DetailURL : String
  Description : String
  Details : GoMap
  Equipment : GoMap
  Specifications : GoMap
deriving DecidableEq, Repr

/-- The crawl loop of `main` (lines 93-113), run for at most `fuel` iterations. -/
def crawl (scrapePage : Int → Except String (List Tractor × Bool)) (fuel : Nat) :
    Option (CrawlResult Tractor) :=
  crawlUntilLast scrapePage fuel 1 [] []

/-- The iteration orders of the map `range` statements of `saveToCsv`: lines 289 and 292
(record `i`), 305 and 308 (header), 321, 336 and 345 (row of record `i`). -/
structure Schedule where
  collectEquipment : Nat → RangeOrder
  collectSpec : Nat → RangeOrder
  headerEquipment : RangeOrder
  headerSpec : RangeOrder
  rowDetails : Nat → RangeOrder
  rowEquipment : Nat → RangeOrder
  rowSpec : Nat → RangeOrder

/-- Lines 286-295. -/
def collectKeys (sched : Schedule) : Nat → List Tractor → KeySet × KeySet → KeySet × KeySet
  | _, [], keys => keys
  | i, tractor :: rest, (equipmentKeys, specKeys) =>
    collectKeys sched (i + 1) rest
      (((sched.collectEquipment i).visit tractor.Equipment.keys).foldl KeySet.add equipmentKeys,
        ((sched.collectSpec i).visit tractor.Specifications.keys).foldl KeySet.add specKeys)

/-- Lines 298-310: the columns. -/
def buildColumns (sched : Schedule) (equipmentKeys specKeys : KeySet) : List String :=
  let columns := ["Title", "Price", "Original Price", "Price Excl. VAT", "Reference Price",
    "Reference Currency", "Displayed Currency", "Price Type", "HP", "Year", "Working Hours",
    "Location", "Dealer", "Phone Numbers", "Image URL", "Details", "Detail URL", "Description"]
  let columns := (sched.headerEquipment.visit equipmentKeys).foldl
    (fun columns k => columns ++ ["Equipment: " ++ k]) columns
  (sched.headerSpec.visit specKeys).foldl (fun columns k => columns ++ ["Spec: " ++ k]) columns

/-- Lines 320-323: the details of a record concatenated into one string. -/
def concatDetails (order : RangeOrder) (m : GoMap) : String :=
  (order.visit m.keys).foldl (fun details k => details ++ (k ++ ": " ++ m.index k ++ "; ")) ""

/-- Lines 319-351: the row of record number `i`. -/
def buildRow (sched : Schedule) (equipmentKeys specKeys : KeySet) (i : Nat) (tractor : Tractor) :
    List String :=
  let details := concatDetails (sched.rowDetails i) tractor.Details
  let row := [tractor.Title, tractor.Price, tractor.OriginalPrice, tractor.PriceExclVAT,
    tractor.ReferencePrice, tractor.ReferenceCurrency, tractor.DisplayedCurrency,
    tractor.PriceType, tractor.HP, tractor.Year, tractor.WorkingHours, tractor.Location,
    tractor.Dealer, tractor.PhoneNumbers, tractor.ImageURL, details, tractor.DetailURL,
    tractor.Description]
  let row := ((sched.rowEquipment i).visit equipmentKeys).foldl (appendCell tractor.Equipment) row
  ((sched.rowSpec i).visit specKeys).foldl (appendCell tractor.Specifications) row

/-- Lines 318-357: the data rows, starting at record number `i`. -/
def buildRows (sched : Schedule) (equipmentKeys specKeys : KeySet) :
    Nat → List Tractor → List (List String)
  | _, [] => []
  | i, tractor :: rest =>
    buildRow sched equipmentKeys specKeys i tractor ::
      buildRows sched equipmentKeys specKeys (i + 1) rest

/-- The function `saveToCsv`, with the directory and the file created successfully. -/
def saveToCsv (sched : Schedule) (tractors : List Tractor) : CsvOutput :=
  let keys := collectKeys sched 0 tractors ([], [])
  { header := buildColumns sched keys.1 keys.2
    rows := buildRows sched keys.1 keys.2 0 tractors }

end Agriaffaires2

/-! ## agriaffaires1.7test.go -/

namespace Agriaffaires1_7test

/-- The `Details` written by the callback of `doc.Find("table tbody tr").Each` on one row
(lines 109-114), the row given by the texts of its first and last `td`.  The `switch`
that follows copies `value` into named fields and leaves `Details` alone. -/
def tableRow (details : GoMap) (row : String × String) : GoMap :=
  let key := TrimSpace row.1
  let key := TrimSuffix key ":"
  let value := TrimSpace row.2
  details.set key value

/-- The `Details` of the record after the table loop, from the empty map of line 104. -/
def scrapeTable (rows : List (String × String)) : GoMap := rows.foldl tableRow []

end Agriaffaires1_7test

/-! ## agriaffaires1.8test.go -/

namespace Agriaffaires1_8test

/-- The `Details` written by the callback of `doc.Find("table tbody tr").Each` on one row
(lines 105-110); the assignment comes before the `Price excl. VAT` test and the `switch`,
which leave `Details` alone. -/
def tableRow (details : GoMap) (row : String × String) : GoMap :=
  let key := TrimSpace row.1
  let key := TrimSuffix key ":"
  let value := TrimSpace row.2
  details.set key value

/-- The `Details` of the record after the table loop, from the empty map of line 100. -/
def scrapeTable (rows : List (String × String)) : GoMap := rows.foldl tableRow []

end Agriaffaires1_8test

/-! ## agriaffaires1.11test.go -/

namespace Agriaffaires1_11test

/-- The key computed by the table callback from the text of the first cell
(lines 100 and 104). -/
def rowKey (first : String) : String :=
  let key := TrimSpace first
  TrimSpace (TrimSuffix key ":")

/-- The `Details` written by the callback of `doc.Find("table tbody tr").Each` on one row
(lines 100-112); the `switch` that follows leaves `Details` alone. -/
def tableRow (details : GoMap) (row : String × String) : GoMap :=
  let value := TrimSpace row.2
  let key := rowKey row.1
  if key = "" ∨ value = "" then details else details.set key value

/-- The `Details` of the record after the table loop, from the empty map of line 96. -/
def scrapeTable (rows : List (String × String)) : GoMap := rows.foldl tableRow []

end Agriaffaires1_11test

/-! ## agriaffaires1.13test.go -/

namespace Agriaffaires1_13test

structure Tractor where
  URL : String
  Details : GoMap
  Category : String
  AdType : String
  Reference : String
  Make : String
  Model : String
  Status : String
  Power : String
  FrontTireDimension : String
  FrontTireWear : String
  RearTireWear : String
  SparePartsAvailability : String
  PriceExclVAT : String
  DisplayedPrice : String
  ReferencePrice : String
  ReferenceCurrency : String
  PriceAdditionalInfo : String
  VATInfo : String
  Dealer : String
  Location : String
  PhoneNumber : String
  Comments : String
  URLs : List String
deriving DecidableEq, Repr

/-- The key computed by the table callback from the text of the first cell
(lines 144 and 148). -/
def rowKey (first : String) : String :=
  let key := TrimSpace first
  TrimSpace (TrimSuffix key ":")

/-- The `Details` written by the callback of `doc.Find("table tbody tr").Each` on one row
(lines 144-156); the `switch` that follows leaves `Details` alone. -/
def tableRow (details : GoMap) (row : String × String) : GoMap :=
  let value := TrimSpace row.2
  let key := rowKey row.1
  if key = "" ∨ value = "" then details else details.set key value

/-- The `Details` of the record after the table loop, from the empty map of line 139. -/
def scrapeTable (rows : List (String × String)) : GoMap := rows.foldl tableRow []

/-- Lines 246-251: the header. -/
def headers : List String :=
  ["URLs", "URL", "Category", "Type of ad", "Reference", "Make", "Model", "Status", "Power",
    "Front Tire Dimension", "Front Tire Wear", "Rear Tire Wear", "Spare Parts Availability",
    "Price (excl. VAT)", "Displayed Price", "Reference Price", "Reference Currency",
    "VAT Info", "Dealer", "Location", "Phone Number", "Comments"]

/-- Lines 258-263: the record of one tractor; `strings.Join(tractor.URLs, "|")` comes first. -/
def buildRecord (tractor : Tractor) : List String :=
  ["|".intercalate tractor.URLs, tractor.URL, tractor.Category, tractor.AdType,
    tractor.Reference, tractor.Make, tractor.Model, tractor.Status, tractor.Power,
    tractor.FrontTireDimension, tractor.FrontTireWear, tractor.RearTireWear,
    tractor.SparePartsAvailability, tractor.PriceExclVAT, tractor.DisplayedPrice,
    tractor.ReferencePrice, tractor.ReferenceCurrency, tractor.VATInfo, tractor.Dealer,
    tractor.Location, tractor.PhoneNumber, tractor.Comments]

/-- The function `saveToCSV`, with the directory and the file created and every write
successful.  The slice holds the records `scrapePage` returned without error, so no
pointer in it is nil and the records themselves stand for the pointers. -/
def saveToCSV (tractors : List Tractor) : CsvOutput :=
  { header := headers
    rows := tractors.map buildRecord }

end Agriaffaires1_13test

/-! ## Listing pages, `main`, delays, URLs -/

/-- The function `strings.HasPrefix`. -/
def HasPrefix (s pre : String) : Bool := pre.data.isPrefixOf s.data

/-- The function `strings.Contains`: `substr` occurs somewhere in `s`. -/
def Contains (s substr : String) : Bool := s.data.tails.any (fun t => substr.data.isPrefixOf t)

/-- The method `Selection.Text` of goquery on the result of a `Find`: the text of the
matched elements, and the empty string when nothing matched (`none`). -/
def textOf (selection : Option String) : String :=
  match selection with
  | some text => text
  | none => ""

/-- The method `Selection.Attr` of goquery, its second result dropped as the callers do:
the value of the attribute on the first matched element, and the empty string when
nothing matched or the attribute is absent (`none`). -/
def attrOf (attr : Option String) : String :=
  match attr with
  | some value => value
  | none => ""

/-- The verb `%d` of `fmt.Sprintf` on an `int`: the decimal digits, with a minus sign for
a negative number. -/
def formatInt (n : Int) : String :=
  match n with
  | Int.ofNat m => Nat.repr m
  | Int.negSucc m => "-" ++ Nat.repr (m + 1)

/-- How a run of `main` ends: `log.Fatal` has terminated the process, or `main` has
reached its output step with the value `out`. -/
inductive ProcessOutcome (α : Type) where
  | fatal : ProcessOutcome α
  | finished (out : α) : ProcessOutcome α
deriving DecidableEq, Repr

/-- The loop `for i := range tractors` that calls `scrapeDetailedPage(&tractors[i])` on
every record, from record number `i`; `detail i` is the page fetched for record `i`. -/
def detailLoop {α Doc : Type} (scrapeDetailedPage : α → Option Doc → α)
    (detail : Nat → Option Doc) : Nat → List α → List α
  | _, [] => []
  | i, tractor :: rest =>
    scrapeDetailedPage tractor (detail i) :: detailLoop scrapeDetailedPage detail (i + 1) rest

/-! ### IEEE-754 double precision, as far as `delay` needs it -/

/-- Rounding to the nearest double, ties to even, of the non-negative number `n / 2 ^ e`
with `e ≤ 1074`, below the overflow threshold, given and returned as the numerator over
the same `2 ^ e`: a numerator of at most 53 bits is exact (the number is then a double, a
subnormal one included), a longer one is rounded at its 53rd bit. -/
def roundFloat64 (n : Nat) : Nat :=
  if Nat.size n ≤ 53 then n
  else
    let s := Nat.size n - 53
    let q := n / 2 ^ s
    let r := n % 2 ^ s
    if r < 2 ^ (s - 1) then q * 2 ^ s
    else if 2 ^ (s - 1) < r then (q + 1) * 2 ^ s
    else if q % 2 = 0 then q * 2 ^ s
    else (q + 1) * 2 ^ s

/-- The expression `baseDelay + time.Duration(float64(jitter)*rand.Float64())` in
nanoseconds, for the draw `rand.Float64() = m / 2 ^ e`.  Every double `r` with `0 ≤ r < 1`
is `m / 2 ^ e` for some `m < 2 ^ 53` and `e ≤ 1074` with `m < 2 ^ e`; `float64(jitter)` is
exact for `jitter < 2 ^ 53`; the product `jitter * m / 2 ^ e` is rounded once, to the
nearest double, and the conversion to `time.Duration` drops the fraction. -/
def delayNanos (baseDelay jitter m e : Nat) : Nat :=
  baseDelay + roundFloat64 (jitter * m) / 2 ^ e

namespace Aggriafaires

/-- What the selectors of `scrapePage` return on one `.listing-block.listing-block--classified`
element: the text found by each `Find` (`none` when it matches nothing), the `src` of the
picture and the `href` of the link (`none` when there is no such element or attribute),
and the text of every `.listing-block__description span`, in document order. -/
structure ListingBlock where
  title : Option String
  price : Option String
  localisation : Option String
  category : Option String
  pictureSrc : Option String
  linkHref : Option String
  descriptionSpans : List String
deriving DecidableEq, Repr

/-- A parsed listing page: its listing blocks in document order. -/
structure ListingDocument where
  blocks : List ListingBlock
deriving DecidableEq, Repr

/-- Lines 95-102: the callback on one description span. -/
def scrapeSpan (details : GoMap) (span : String) : GoMap :=
  let text := TrimSpace span
  if Contains text "hp" then details.set "Power" text
  else if Contains text "Year" then details.set "Year" text
  else details

/-- Lines 81-104: the record built from one listing block. -/
def scrapeBlock (s : ListingBlock) : Tractor :=
  let href := attrOf s.linkHref
  { Title := TrimSpace (textOf s.title)
    Price := TrimSpace (textOf s.price)
    Location := TrimSpace (textOf s.localisation)
    Dealer := TrimSpace (textOf s.category)
    ImageURL := attrOf s.pictureSrc
    DetailURL := if !HasPrefix href "http" then "https://www.agriaffaires.co.uk" ++ href else href
    Description := ""
    Details := s.descriptionSpans.foldl scrapeSpan [] }

/-- The function `scrapePage`: `page` is what `http.Get(url)` and the parse give, `none`
when either fails; the URL itself only goes into the request and the log. -/
def scrapePage (_url : String) (page : Option ListingDocument) : List Tractor :=
  match page with
  | none => []
  | some doc => doc.blocks.map scrapeBlock

/-- Line 34. -/
def baseURL : String :=
  "https://www.agriaffaires.co.uk/used/farm-tractor/1/16730/fordson-major.html"

/-- Line 38: `fmt.Sprintf("%s?page=%d", baseURL, page)`. -/
def pageURL (page : Int) : String := baseURL ++ "?page=" ++ formatInt page

/-- The function `main` with at most `fuel` iterations of the crawl loop: `listing p` is
the page served for page number `p`, `detail i` the detail page served for record `i`,
`sched` the iteration orders inside `saveToCsv`.  The result is what `saveToCsv` writes. -/
def main (listing : Int → Option ListingDocument) (detail : Nat → Option DetailDocument)
    (sched : Schedule) (fuel : Nat) : Option (ProcessOutcome CsvOutput) :=
  match crawl (fun page => scrapePage (pageURL page) (listing page)) fuel with
  | none => none
  | some r =>
    some (ProcessOutcome.finished (saveToCsv sched (detailLoop scrapeDetailedPage detail 0 r.tractors)))

/-- Lines 28-31, in nanoseconds. -/
def baseDelay : Nat := 2 * 1000000000

/-- Lines 28-31, in nanoseconds. -/
def jitter : Nat := 2 * 1000000000

/-- The duration `delay` passes to `time.Sleep`, for the random draw `m / 2 ^ e`. -/
def delay (m e : Nat) : Nat := delayNanos baseDelay jitter m e

end Aggriafaires

/-- What a request for a page and the parse of the response give, in the functions that
return the error: the error of the request, the error of the parse, or the document. -/
inductive Fetch (Doc : Type) where
  | requestFailed (err : String) : Fetch Doc
  | parseFailed (err : String) : Fetch Doc
  | parsed (doc : Doc) : Fetch Doc
deriving DecidableEq, Repr

/-- The `scrapePage` of main2.go, mainurls.go and mainurls2.go as far as its control flow
goes: `nil` when `http.Get(url)` or the parse fails (`none`), else the records the
selectors extract from the document; the extraction is taken as given (`extract`), and
the URL only goes into the request and the log. -/
def scrapePageOrNil {Doc α : Type} (extract : Doc → List α) (_url : String)
    (page : Option Doc) : List α :=
  match page with
  | none => []
  | some doc => extract doc

/-- The `scrapeDetailedPage` of mainurls.go, mainurls2.go and agriaffaires2.go as far as
its control flow goes: an early `return` that leaves the record as it is when the request
or the parse fails (`none`), else the record updated from the document; the update is
taken as given (`enrich`). -/
def scrapeDetailedPageOrSkip {Doc α : Type} (enrich : α → Doc → α) (tractor : α)
    (page : Option Doc) : α :=
  match page with
  | none => tractor
  | some doc => enrich tractor doc

/-- The `scrapePage` of the single-page scrapers agriaffaires1.5test.go, 1.7test.go,
1.8test.go and 1.11test.go as far as its control flow goes: the error of the request or
of the parse wrapped by `fmt.Errorf`, else the record the selectors extract. -/
def scrapePageOrError {Doc α : Type} (extract : Doc → α) (page : Fetch Doc) : Except String α :=
  match page with
  | .requestFailed err => .error ("error fetching page: " ++ err)
  | .parseFailed err => .error ("error parsing page: " ++ err)
  | .parsed doc => .ok (extract doc)

/-- The `main` of the single-page scrapers agriaffaires1.5test.go, 1.7test.go, 1.8test.go
and 1.11test.go: `log.Fatalf` when `scrapePage` returns an error, else the record goes to
the output. -/
def singlePageMain {Doc α : Type} (extract : Doc → α) (page : Fetch Doc) : ProcessOutcome α :=
  match scrapePageOrError extract page with
  | .error _ => ProcessOutcome.fatal
  | .ok tractor => ProcessOutcome.finished tractor

/-! ## main.go and main1.go -/

namespace Main

structure Tractor where
  Title : String
  Price : String
  HP : String
  Year : String
  WorkingHours : String
  Dealer : String
  Location : String
  ImageURL : String
deriving DecidableEq, Repr

/-- The function `main`: `log.Fatal` when `http.Get` (lines 26-29) or the parse (lines
32-35) fails (`none`), else the records extracted from the document are printed; the
extraction is taken as given. -/
def main {Doc : Type} (extract : Doc → List Tractor) (page : Option Doc) :
    ProcessOutcome (List Tractor) :=
  match page with
  | none => ProcessOutcome.fatal
  | some doc => ProcessOutcome.finished (extract doc)

end Main

namespace Main1

/-- The function `main`: `log.Fatal` when `http.Get` (lines 32-35) or the parse (lines
38-41) fails (`none`), else the records extracted from the document are written to the
results file; the extraction is taken as given. -/
def main {Doc α : Type} (extract : Doc → List α) (page : Option Doc) :
    ProcessOutcome (List α) :=
  match page with
  | none => ProcessOutcome.fatal
  | some doc => ProcessOutcome.finished (extract doc)

end Main1

/-! ## agriaffaires1.2test.go -/

namespace Agriaffaires1_2test

/-- The function `scrapePage` (lines 85-125): `log.Fatalf` when the request or the parse
fails, else it prints what it finds and returns. -/
def scrapePage {Doc : Type} (page : Option Doc) : ProcessOutcome Unit :=
  match page with
  | none => ProcessOutcome.fatal
  | some _ => ProcessOutcome.finished ()

/-- The function `main` (lines 176-187): `scrapePage`, then `saveToCsv` on the slice
`allTractors`, which is still empty; the result is that slice. -/
def main {Doc : Type} (page : Option Doc) : ProcessOutcome (List Agriaffaires1_2.Tractor) :=
  match scrapePage page with
  | ProcessOutcome.fatal => ProcessOutcome.fatal
  | ProcessOutcome.finished _ => ProcessOutcome.finished []

end Agriaffaires1_2test

/-! ## The `main` of the crawlers and their URLs -/

namespace Main2

/-- Line 31. -/
def baseURL : String := "https://www.landwirt.com/en/used-farm-machinery/tractors.html"

/-- Line 36: `fmt.Sprintf("%s?offset=%d", baseURL, (page-1)*20)`, in `int` arithmetic. -/
def pageURL (page : Int) : String :=
  baseURL ++ "?offset=" ++ formatInt (wrapInt (wrapInt (page - 1) * 20))

/-- The function `main` with at most `fuel` iterations of the crawl loop; the result is
the slice handed to `saveToCsv`. -/
def main {Doc : Type} (extract : Doc → List Tractor) (listing : Int → Option Doc) (fuel : Nat) :
    Option (ProcessOutcome (List Tractor)) :=
  match crawl (fun page => scrapePageOrNil extract (pageURL page) (listing page)) fuel with
  | none => none
  | some r => some (ProcessOutcome.finished r.tractors)

end Main2

namespace Mainurls

/-- Line 41. -/
def baseURL : String :=
  "https://www.landwirt.com/en/used-farm-machinery/used-McCormick-tractors.html"

/-- Line 45: `fmt.Sprintf("%s?offset=%d", baseURL, (page-1)*20)`, in `int` arithmetic. -/
def pageURL (page : Int) : String :=
  baseURL ++ "?offset=" ++ formatInt (wrapInt (wrapInt (page - 1) * 20))

/-- The function `main` with at most `fuel` iterations of the crawl loop; the result is
the slice handed to `saveToCsv`. -/
def main {Doc Det : Type} (extract : Doc → List Tractor) (enrich : Tractor → Det → Tractor)
    (listing : Int → Option Doc) (detail : Nat → Option Det) (fuel : Nat) :
    Option (ProcessOutcome (List Tractor)) :=
  match crawl (fun page => scrapePageOrNil extract (pageURL page) (listing page)) fuel with
  | none => none
  | some r =>
    some (ProcessOutcome.finished
      (detailLoop (scrapeDetailedPageOrSkip enrich) detail 0 r.tractors))

/-- Lines 35-38, in nanoseconds. -/
def baseDelay : Nat := 3 * 1000000000

/-- Lines 35-38, in nanoseconds. -/
def jitter : Nat := 2 * 1000000000

/-- The duration `delay` passes to `time.Sleep`, for the random draw `m / 2 ^ e`. -/
def delay (m e : Nat) : Nat := delayNanos baseDelay jitter m e

end Mainurls

namespace Mainurls2

/-- Line 41. -/
def baseURL : String :=
  "https://www.landwirt.com/en/used-farm-machinery/used-McCormick-tractors.html"

/-- Line 45: `fmt.Sprintf("%s?offset=%d", baseURL, (page-1)*20)`, in `int` arithmetic. -/
def pageURL (page : Int) : String :=
  baseURL ++ "?offset=" ++ formatInt (wrapInt (wrapInt (page - 1) * 20))

/-- The function `main` with at most `fuel` iterations of the crawl loop; the result is
what `saveToCsv` writes. -/
def main {Doc Det : Type} (extract : Doc → List Tractor) (enrich : Tractor → Det → Tractor)
    (listing : Int → Option Doc) (detail : Nat → Option Det) (sched : Schedule) (fuel : Nat) :
    Option (ProcessOutcome CsvOutput) :=
  match crawl (fun page => scrapePageOrNil extract (pageURL page) (listing page)) fuel with
  | none => none
  | some r =>
    some (ProcessOutcome.finished
      (saveToCsv sched (detailLoop (scrapeDetailedPageOrSkip enrich) detail 0 r.tractors)))

/-- Lines 35-38, in nanoseconds. -/
def baseDelay : Nat := 2 * 1000000000

/-- Lines 35-38, in nanoseconds. -/
def jitter : Nat := 2 * 1000000000

/-- The duration `delay` passes to `time.Sleep`, for the random draw `m / 2 ^ e`. -/
def delay (m e : Nat) : Nat := delayNanos baseDelay jitter m e

end Mainurls2

namespace Agriaffaires1_2

/-- Line 80. -/
def baseURL : String :=
  "https://www.agriaffaires.co.uk/used/farm-tractor/1/16730/fordson-major.html"

/-- Line 86: `fmt.Sprintf("%s?page=%d", baseURL, page)`. -/
def pageURL (page : Int) : String := baseURL ++ "?page=" ++ formatInt page

/-- The function `scrapePage` as far as its control flow goes (lines 129-139 and 191):
the error of the request or of the parse wrapped by `fmt.Errorf`, else the records and
the next-page flag extracted from the document; the extraction is taken as given. -/
def scrapePage {Doc : Type} (extract : Doc → List Tractor × Bool) (url : String)
    (page : Fetch Doc) : Except String (List Tractor × Bool) :=
  match page with
  | .requestFailed err => .error ("error fetching page " ++ url ++ ": " ++ err)
  | .parseFailed err => .error ("error parsing page " ++ url ++ ": " ++ err)
  | .parsed doc => .ok (extract doc)

/-- The function `main` with at most `fuel` iterations of the crawl loop; the result is
what `saveToCsv` writes. -/
def main {Doc : Type} (extract : Doc → List Tractor × Bool) (listing : Int → Fetch Doc)
    (detail : Nat → Option DetailDocument) (sched : Schedule) (fuel : Nat) :
    Option (ProcessOutcome CsvOutput) :=
  match crawl (fun page => scrapePage extract (pageURL page) (listing page)) fuel with
  | none => none
  | some r =>
    some (ProcessOutcome.finished
      (saveToCsv sched (detailLoop scrapeDetailedPage detail 0 r.tractors)))

end Agriaffaires1_2

namespace Agriaffaires2

/-- What the selectors of `scrapePage` return on one `.listing-block.listing-block--classified`
element `s`.  A text is `none` when the `Find` matches nothing, an attribute is `none` when
there is no such element or attribute.  `priceToChange`, `referencePrice`,
`referenceCurrency`, `currencyToChange` and `vatText` are found inside `s.Find(".price")`;
`dealerName` and `dealerLocation` inside
`s.Find(".block--contact-desktop .item-fluid.item-center")`; `phones` holds the text of
every `#js-dropdown-phone-2 li a`, in document order. -/
structure ListingBlock where
  title : Option String
  listingPrice : Option String
  localisation : Option String
  category : Option String
  pictureSrc : Option String
  linkHref : Option String
  priceToChange : Option String
  referencePrice : Option String
  referenceCurrency : Option String
  currencyToChange : Option String
  vatText : Option String
  descriptionSpans : List String
  dealerName : Option String
  dealerLocation : Option String
  phones : List String
deriving DecidableEq, Repr

/-- A parsed listing page: its listing blocks and the text of every `.pagination__link`,
both in document order. -/
structure ListingDocument where
  blocks : List ListingBlock
  paginationLinks : List String
deriving DecidableEq, Repr

/-- Lines 180-189: the callback on one description span. -/
def scrapeSpan (tractor : Tractor) (span : String) : Tractor :=
  let text := TrimSpace span
  if Contains text "hp" then { tractor with HP := text }
  else if Contains text "Year" then { tractor with Year := text }
  else if Contains text "h" then { tractor with WorkingHours := text }
  else tractor

/-- Lines 152-205: the record built from one listing block. -/
def scrapeBlock (s : ListingBlock) : Tractor :=
  let tractor : Tractor :=
    { Title := "", Price := "", OriginalPrice := "", PriceExclVAT := "", ReferencePrice := "",
      ReferenceCurrency := "", DisplayedCurrency := "", PriceType := "", HP := "", Year := "",
      WorkingHours := "", Location := "", Dealer := "", PhoneNumbers := "", ImageURL := "",
      DetailURL := "", Description := "", Details := [], Equipment := [], Specifications := [] }
  let tractor := { tractor with Title := TrimSpace (textOf s.title) }
  let tractor := { tractor with Price := TrimSpace (textOf s.listingPrice) }
  let tractor := { tractor with Location := TrimSpace (textOf s.localisation) }
  let tractor := { tractor with Dealer := TrimSpace (textOf s.category) }
  let tractor := { tractor with ImageURL := attrOf s.pictureSrc }
  let tractor := { tractor with DetailURL := attrOf s.linkHref }
  let tractor :=
    if !HasPrefix tractor.DetailURL "http" then
      { tractor with DetailURL := "https://www.agriaffaires.co.uk" ++ tractor.DetailURL }
    else tractor
  let tractor := { tractor with Price := TrimSpace (textOf s.priceToChange) }
  let tractor := { tractor with ReferencePrice := attrOf s.referencePrice }
  let tractor := { tractor with ReferenceCurrency := attrOf s.referenceCurrency }
  let tractor := { tractor with DisplayedCurrency := TrimSpace (textOf s.currencyToChange) }
  let vatText := TrimSpace (textOf s.vatText)
  let tractor := { tractor with PriceType := vatText }
  let tractor := s.descriptionSpans.foldl scrapeSpan tractor
  let tractor := { tractor with Dealer := TrimSpace (textOf s.dealerName) }
  let tractor := { tractor with Location := TrimSpace (textOf s.dealerLocation) }
  let phoneNumbers := s.phones.foldl (fun phoneNumbers phone => phoneNumbers ++ (TrimSpace phone ++ "; ")) ""
  { tractor with PhoneNumbers := TrimSpace phoneNumbers }

/-- Lines 210-215: whether some pagination link contains `Next`. -/
def hasNextPage (doc : ListingDocument) : Bool :=
  doc.paginationLinks.foldl (fun found text => if Contains text "Next" then true else found) false

/-- Lines 41-46. -/
def userAgents : List String :=
  ["Mozilla/5.0 (Windows NT 10.0; Win64; x64) AppleWebKit/537.36 (KHTML, like Gecko) Chrome/91.0.4472.124 Safari/537.36",
   "Mozilla/5.0 (Macintosh; Intel Mac OS X 10_15_7) AppleWebKit/605.1.15 (KHTML, like Gecko) Version/14.1.1 Safari/605.1.15",
   "Mozilla/5.0 (Windows NT 10.0; Win64; x64; rv:89.0) Gecko/20100101 Firefox/89.0"]

/-- The function `getRandomUserAgent`, for the draw `rand.Intn(len(userAgents))`. -/
def getRandomUserAgent (draw : Fin 3) : String :=
  match userAgents[draw.val]? with
  | some agent => agent
  | none => ""

/-- The request `makeRequest(url)` sends: the URL and the `User-Agent` header, which is
drawn at random. -/
structure Request where
  url : String
  userAgent : String
deriving DecidableEq, Repr

/-- The function `scrapePage`: `serve` is what the network and the parser answer to the
request; `draw` is the random draw of `getRandomUserAgent`. -/
def scrapePage (url : String) (draw : Fin 3) (serve : Request → Fetch ListingDocument) :
    Except String (List Tractor × Bool) :=
  match serve { url := url, userAgent := getRandomUserAgent draw } with
  | .requestFailed err => .error ("error fetching page " ++ url ++ ": " ++ err)
  | .parseFailed err => .error ("error parsing page " ++ url ++ ": " ++ err)
  | .parsed doc => .ok (doc.blocks.map scrapeBlock, hasNextPage doc)

/-- Line 88. -/
def baseURL : String :=
  "https://www.agriaffaires.co.uk/used/farm-tractor/1/16730/fordson-major.html"

/-- Line 94: `fmt.Sprintf("%s?page=%d", baseURL, page)`. -/
def pageURL (page : Int) : String := baseURL ++ "?page=" ++ formatInt page

/-- The function `main` with at most `fuel` iterations of the crawl loop: `draws p` is the
user agent drawn for page `p`, `serve p` what is answered to the request for page `p`,
`detail i` the detail page served for record `i`; the update of a record from its detail
page is taken as given (`enrich`).  The result is what `saveToCsv` writes. -/
def main {Det : Type} (enrich : Tractor → Det → Tractor) (draws : Int → Fin 3)
    (serve : Int → Request → Fetch ListingDocument) (detail : Nat → Option Det)
    (sched : Schedule) (fuel : Nat) : Option (ProcessOutcome CsvOutput) :=
  match crawl (fun page => scrapePage (pageURL page) (draws page) (serve page)) fuel with
  | none => none
  | some r =>
    some (ProcessOutcome.finished
      (saveToCsv sched (detailLoop (scrapeDetailedPageOrSkip enrich) detail 0 r.tractors)))

end Agriaffaires2

namespace Agriaffaires1_13test

/-- Lines 89-92: the number of seconds `randomDelay` sleeps, `rng.Intn(2) + 2`, for the
draw `rng.Intn(2)`. -/
def randomDelaySeconds (draw : Fin 2) : Nat := draw.val + 2

/-- The duration `randomDelay` passes to `time.Sleep`, in nanoseconds:
`time.Duration(delay) * time.Second`. -/
def randomDelay (draw : Fin 2) : Nat := randomDelaySeconds draw * 1000000000

end Agriaffaires1_13test

namespace Agriaffaires1_5test

/-- The function `main` (lines 163-184): `log.Fatalf` when `scrapePage` returns an error
(lines 166-169), else the record is printed. -/
def main {Doc α : Type} (extract : Doc → α) (page : Fetch Doc) : ProcessOutcome α :=
  singlePageMain extract page

end Agriaffaires1_5test

namespace Agriaffaires1_7test

/-- The function `main` (lines 204-233): `log.Fatalf` when `scrapePage` returns an error
(lines 207-210), else the record is printed. -/
def main {Doc α : Type} (extract : Doc → α) (page : Fetch Doc) : ProcessOutcome α :=
  singlePageMain extract page

end Agriaffaires1_7test

namespace Agriaffaires1_8test

/-- The function `main` (lines 198-231): `log.Fatalf` when `scrapePage` returns an error
(lines 201-204), else the record is printed. -/
def main {Doc α : Type} (extract : Doc → α) (page : Fetch Doc) : ProcessOutcome α :=
  singlePageMain extract page

end Agriaffaires1_8test

namespace Agriaffaires1_11test

/-- The function `main` (lines 235-246): `log.Fatalf` when `scrapePage` returns an error
(lines 238-241), else the record goes to `saveToCSV`. -/
def main {Doc α : Type} (extract : Doc → α) (page : Fetch Doc) : ProcessOutcome α :=
  singlePageMain extract page

end Agriaffaires1_11test

/-! ## Byte strings and `encoding/base64` -/

/-- A byte of a Go string. -/
abbrev Byte := Fin 256

/-- The bytes of a string of ASCII characters. -/
def asciiBytes (s : String) : List Byte := s.data.map (fun c => Fin.ofNat c.toNat)

/-- The alphabet `encodeStd` of `base64.StdEncoding`. -/
def encodeStd : List Byte :=
  asciiBytes "ABCDEFGHIJKLMNOPQRSTUVWXYZabcdefghijklmnopqrstuvwxyz0123456789+/"

/-- The padding character `=` of `base64.StdEncoding`. -/
def padChar : Byte := 61

/-- The table `enc.encode`: the character of a 6-bit value. -/
def encodeSextet (v : Nat) : Byte :=
  match encodeStd[v]? with
  | some c => c
  | none => 0

/-- The table `enc.decodeMap`: the 6-bit value of an alphabet character, `none` (0xff in
the table) for every other byte. -/
def decodeMap (c : Byte) : Option Nat :=
  if c ∈ encodeStd then some (encodeStd.indexOf c) else none

/-- The method `EncodeToString` of `base64.StdEncoding`: three bytes give four characters,
a remainder of one or two bytes gives two or three characters and padding. -/
def EncodeToString : List Byte → List Byte
  | [] => []
  | [a] =>
    let val := a.val * 65536
    [encodeSextet (val / 262144 % 64), encodeSextet (val / 4096 % 64), padChar, padChar]
  | [a, b] =>
    let val := a.val * 65536 + b.val * 256
    [encodeSextet (val / 262144 % 64), encodeSextet (val / 4096 % 64),
      encodeSextet (val / 64 % 64), padChar]
  | a :: b :: c :: rest =>
    let val := a.val * 65536 + b.val * 256 + c.val
    [encodeSextet (val / 262144 % 64), encodeSextet (val / 4096 % 64),
      encodeSextet (val / 64 % 64), encodeSextet (val % 64)] ++ EncodeToString rest

/-- The characters `\n` and `\r`, which the decoder skips. -/
def isNewline (c : Byte) : Bool := c.val = 10 || c.val = 13

/-- The end of `decodeQuantum`: the 6-bit values collected in `dbuf` (missing ones count
as 0) packed into 24 bits, of which the first `len(dbuf) - 1` bytes are output.  The
decoder of `StdEncoding` is not strict: the unused low bits are not checked.  The 6-bit
fields do not overlap, so the bitwise or of the shifted values is their sum. -/
def quantumBytes (dbuf : List Nat) : List Byte :=
  let val := dbuf.getD 0 0 * 262144 + dbuf.getD 1 0 * 4096 + dbuf.getD 2 0 * 64 + dbuf.getD 3 0
  ([val / 65536 % 256, val / 256 % 256, val % 256].map Fin.ofNat).take (dbuf.length - 1)

/-- The method `DecodeString` of `base64.StdEncoding` from the position where `src` starts,
with the 6-bit values of the current quantum in `dbuf`: `none` for a `CorruptInputError`,
else the decoded bytes.  Alphabet characters fill the quantum; `\r` and `\n` are skipped;
`=` is accepted only as the third and fourth or as the fourth character of the last
quantum, followed by nothing but `\r` and `\n`; the input must end on a full quantum. -/
def decodeFrom : List Byte → List Nat → Option (List Byte)
  | [], dbuf => if dbuf.length = 0 then some [] else none
  | c :: src, dbuf =>
    match decodeMap c with
    | some out =>
      if (dbuf ++ [out]).length = 4 then
        match decodeFrom src [] with
        | some decoded => some (quantumBytes (dbuf ++ [out]) ++ decoded)
        | none => none
      else decodeFrom src (dbuf ++ [out])
    | none =>
      if isNewline c then decodeFrom src dbuf
      else if c ≠ padChar then none
      else if dbuf.length = 2 then
        match src.dropWhile isNewline with
        | [] => none
        | c2 :: src2 =>
          if c2 ≠ padChar then none
          else if (src2.dropWhile isNewline).isEmpty then some (quantumBytes dbuf)
          else none
      else if dbuf.length = 3 then
        if (src.dropWhile isNewline).isEmpty then some (quantumBytes dbuf) else none
      else none

/-- The call `base64.StdEncoding.DecodeString(s)`: `none` when it returns an error. -/
def DecodeString (s : List Byte) : Option (List Byte) := decodeFrom s []

/-- A string is valid standard padded base64 when it is the standard encoding of some
byte string. -/
def IsStdBase64 (s : List Byte) : Prop := ∃ data : List Byte, s = EncodeToString data

/-- The call `strings.SplitN(s, " ", 2)`: the string itself when it holds no space, else
the part before the first space and the part after it. -/
def SplitN2 (s : List Byte) : List (List Byte) :=
  match s.span (fun c => c ≠ 32) with
  | (_, []) => [s]
  | (before, _ :: after) => [before, after]

/-! ## agriaffaires1.5test.go -/

namespace Agriaffaires1_5test

/-- The function `decodePhoneNumber` (the same in agriaffaires1.7test.go and
agriaffaires1.8test.go), on the bytes of its argument. -/
def decodePhoneNumber (encoded : List Byte) : List Byte :=
  match DecodeString encoded with
  | none => encoded
  | some decodedStr =>
    let parts := SplitN2 decodedStr
    if parts.length > 1 then
      match parts[1]? with
      | some part => part
      | none => decodedStr
    else decodedStr

end Agriaffaires1_5test

/-! ## More of package `strings` -/

/-- The function `strings.TrimPrefix`: `s` without the leading `pre`, or `s` itself when
it does not start with `pre`. -/
def TrimPrefix (s pre : String) : String :=
  if HasPrefix s pre then ⟨s.data.drop pre.data.length⟩ else s

/-- Splitting at every occurrence of the one-character separator `sep`: the pieces
between the separators, in order. -/
def splitChars (sep : Char) : List Char → List (List Char)
  | [] => [[]]
  | c :: cs =>
    if c = sep then [] :: splitChars sep cs
    else
      match splitChars sep cs with
      | [] => [[c]]
      | piece :: pieces => (c :: piece) :: pieces

/-- The call `strings.Split(s, sep)` for a separator of one character. -/
def Split (s : String) (sep : Char) : List String := (splitChars sep s.data).map String.mk

/-- The characters before the first occurrence of `sep` (not empty), all of them when
`sep` does not occur. -/
def beforeFirst (sep : List Char) : List Char → List Char
  | [] => []
  | c :: cs => if sep.isPrefixOf (c :: cs) then [] else c :: beforeFirst sep cs

/-- The expression `strings.Split(s, sep)[0]` for a separator that is not empty. -/
def SplitHead (s sep : String) : String := ⟨beforeFirst sep.data s.data⟩

/-- The call `strings.ReplaceAll(s, ",", "")`: `s` without its commas. -/
def removeCommas (s : String) : String := ⟨s.data.filter (fun c => c ≠ ',')⟩

/-! ## mainurls.go: the listing page -/

namespace Mainurls

/-- What the selectors of `scrapePage` return on one `.row.gmmtreffer` element: the text
found by each `Find` (`none` when it matches nothing), the `href` of the link and the `src`
of the image (`none` when there is no such element or attribute), and the text of every
`.gmmlistcatfield li`, in document order. -/
structure ListingBlock where
  title : Option String
  linkHref : Option String
  price : Option String
  originalPrice : Option String
  priceExclVAT : Option String
  imageSrc : Option String
  details : Option String
  items : List String
  address : Option String
deriving DecidableEq, Repr

/-- A parsed listing page: its `.row.gmmtreffer` elements in document order. -/
structure ListingDocument where
  blocks : List ListingBlock
deriving DecidableEq, Repr

/-- Lines 103-112: the callback on one `li`. -/
def scrapeItem (tractor : Tractor) (li : String) : Tractor :=
  let text := TrimSpace li
  if HasPrefix text "hp/kW:" then { tractor with HP := TrimPrefix text "hp/kW:" }
  else if HasPrefix text "Year of construction:" then
    { tractor with Year := TrimPrefix text "Year of construction:" }
  else if HasPrefix text "Working hours:" then
    { tractor with WorkingHours := TrimPrefix text "Working hours:" }
  else tractor

/-- Lines 114-119: dealer and location from the address text. -/
def scrapeAddress (tractor : Tractor) (dealerInfo : String) : Tractor :=
  match Split dealerInfo '-' with
  | [dealer, location] =>
    { tractor with Dealer := TrimSpace dealer, Location := TrimSpace location }
  | _ => tractor

/-- Lines 90-121: the record built from one `.row.gmmtreffer` element. -/
def scrapeBlock (s : ListingBlock) : Tractor :=
  let href := attrOf s.linkHref
  let tractor : Tractor :=
    { Title := TrimSpace (textOf s.title)
      DetailURL := if !HasPrefix href "http" then "https://www.landwirt.com" ++ href else href
      Price := TrimSpace (textOf s.price)
      OriginalPrice := TrimSpace (textOf s.originalPrice)
      PriceExclVAT := TrimSpace (textOf s.priceExclVAT)
      ImageURL := attrOf s.imageSrc
      Details := TrimSpace (textOf s.details)
      HP := "", Year := "", WorkingHours := "", Dealer := "", Location := ""
      Description := "", Equipment := [], Specifications := [] }
  scrapeAddress (s.items.foldl scrapeItem tractor) (textOf s.address)

/-- Lines 87-124: the records of a parsed page, one for each element in document order. -/
def scrapeListing (doc : ListingDocument) : List Tractor := doc.blocks.map scrapeBlock

/-- The function `scrapePage` (lines 73-125): `page` is what `http.Get(url)` and the
parse give, `none` when either fails. -/
def scrapePage (url : String) (page : Option ListingDocument) : List Tractor :=
  scrapePageOrNil scrapeListing url page

end Mainurls

/-! ## The detail pages of the test programs: prices -/

/-- The calls into `strconv` and `math` of agriaffaires1.5test.go (lines 97-101), over
whatever type `F` stands for `float64`: `ParseFloat(s, 64)` with `none` for an error,
`math.Round`, and `FormatFloat(f, 'f', 0, 64)`. -/
structure FloatOps (F : Type) where
  ParseFloat : String → Option F
  Round : F → F
  FormatFloat : F → String

/-- The value of a string of decimal digits. -/
def digitsValue (s : String) : Nat := s.data.foldl (fun n c => 10 * n + (c.toNat - 48)) 0

/-- The three calls on the numerals a `float64` holds exactly: a string of one to fifteen
decimal digits parses to its value, `math.Round` leaves a whole number as it is, and
`FormatFloat(f, 'f', 0, 64)` writes its digits.  Any other string is left out of this table
(`none`), so it serves pages whose price is such a numeral. -/
def wholeNumbers : FloatOps Nat :=
  { ParseFloat := fun s =>
      if s.data ≠ [] ∧ s.data.length ≤ 15 ∧ s.data.all Char.isDigit then some (digitsValue s)
      else none
    Round := fun n => n
    FormatFloat := fun n => Nat.repr n }

namespace Agriaffaires1_5test

/-- What the selectors of lines 89-113 return on a parsed page: the text of every
`.js-priceToChange` element, in document order, and the text of the first
`.js-currencyToChange` element (`none` when there is none). -/
structure PriceElements where
  priceTexts : List String
  currencyText : Option String
deriving DecidableEq, Repr

/-- Lines 96-102: the thousand separators removed, and the number rounded and written
without decimals when the text parses as one. -/
def normalisePrice {F : Type} (ops : FloatOps F) (price : String) : String :=
  let price := removeCommas price
  match ops.ParseFloat price with
  | some priceFloat => ops.FormatFloat (ops.Round priceFloat)
  | none => price

/-- Lines 106-110: the callback on one `.js-priceToChange` element. -/
def firstNonEmpty (displayedPrice : String) (text : String) : String :=
  if displayedPrice = "" then TrimSpace text else displayedPrice

/-- The field `DisplayedPrice` of the record `scrapePage` returns (lines 89-118; no later
line writes it). -/
def displayedPrice {F : Type} (ops : FloatOps F) (page : PriceElements) : String :=
  let price := TrimSpace (textOf page.priceTexts.head?)
  let currency := TrimSpace (textOf page.currencyText)
  let price := normalisePrice ops price
  let displayedPrice := price ++ " " ++ currency
  let displayedPrice := page.priceTexts.foldl firstNonEmpty displayedPrice
  let displayedCurrency := TrimSpace (textOf page.currencyText)
  if displayedPrice ≠ "" ∧ displayedCurrency ≠ "" then
    displayedPrice ++ " " ++ displayedCurrency
  else displayedPrice

end Agriaffaires1_5test

namespace Agriaffaires1_7test

/-- What the selectors of lines 151-168 return on a parsed page: the text of the first
`.js-priceToChange` and of the first `.js-currencyToChange` element, the two data
attributes of the former, and the text of the first `.price .h3-like.u-bold` element
(`none` when there is no such element or attribute). -/
structure PriceElements where
  priceText : Option String
  currencyText : Option String
  referencePrice : Option String
  referenceCurrency : Option String
  vatText : Option String
deriving DecidableEq, Repr

/-- The field `DisplayedPrice` of the record `scrapePage` returns (lines 151-181). -/
def displayedPrice (page : PriceElements) : String :=
  let displayedPrice := TrimSpace (textOf page.priceText)
  let displayedCurrency := TrimSpace (textOf page.currencyText)
  let displayedPrice :=
    if displayedPrice ≠ "" ∧ displayedCurrency ≠ "" then
      displayedPrice ++ (" " ++ displayedCurrency)
    else displayedPrice
  let referencePrice := attrOf page.referencePrice
  let referenceCurrency := attrOf page.referenceCurrency
  let vatInfo := TrimSpace (textOf page.vatText)
  let displayedPrice :=
    if vatInfo ≠ "" then displayedPrice ++ (" " ++ vatInfo) else displayedPrice
  if displayedPrice = "" then
    let displayedPrice := referencePrice ++ " " ++ referenceCurrency
    if vatInfo ≠ "" then displayedPrice ++ (" " ++ vatInfo) else displayedPrice
  else displayedPrice

end Agriaffaires1_7test

namespace Agriaffaires1_11test

/-- What the selectors of lines 149-161 return inside `.price`: the text of the first
`.js-priceToChange`, of the first `.js-currencyToChange` and of the first
`.h3-like.u-bold` element (`none` when there is none). -/
structure PriceElements where
  priceText : Option String
  currencyText : Option String
  vatText : Option String
deriving DecidableEq, Repr

/-- The field `DisplayedPrice` of the record `scrapePage` returns (lines 152-174). -/
def displayedPrice (page : PriceElements) : String :=
  let displayedPrice := TrimSpace (textOf page.priceText)
  let currencySymbol := TrimSpace (textOf page.currencyText)
  let result := displayedPrice ++ " " ++ currencySymbol
  let vatInfo := TrimSpace (textOf page.vatText)
  let result := result ++ (" " ++ vatInfo)
  if vatInfo ≠ "" then result ++ (" " ++ vatInfo) else result

end Agriaffaires1_11test

namespace Agriaffaires1_13test

/-- What the selectors of lines 187-204 return inside `.block--all.block--price`: the
text of the `.js-priceToChange`, of the `.js-currencyToChange` and of the
`.h3-like.u-bold` elements (`none` when there is none). -/
structure PriceElements where
  priceText : Option String
  currencyText : Option String
  vatText : Option String
deriving DecidableEq, Repr

/-- The field `DisplayedPrice` of the record `scrapePage` returns (lines 190-208). -/
def displayedPrice (page : PriceElements) : String :=
  let displayedPrice := TrimSpace (textOf page.priceText)
  let currencySymbol := TrimSpace (textOf page.currencyText)
  let result := displayedPrice ++ " " ++ currencySymbol
  let vatInfo := TrimSpace (textOf page.vatText)
  result ++ (" " ++ vatInfo)

end Agriaffaires1_13test

/-! ## agriaffaires1.8test.go: the record of a detail page -/

namespace Agriaffaires1_8test

structure Tractor where
  DisplayedPrice : String
  PriceType : String
  Dealer : String
  Location : String
  PhoneNumber : String
  DebugInfo : GoMap
  Category : String
  AdType : String
  Reference : String
  Make : String
  Model : String
  Status : String
  Power : String
  FrontTireDimension : String
  FrontTireWear : String
  RearTireWear : String
  SparePartsAvailability : String
  PriceExclVAT : String
  Comments : String
  ReferencePrice : String
  ReferenceCurrency : String
  VATInfo : String
  Details : GoMap
deriving DecidableEq, Repr

/-- What the selectors of `scrapePage` return on a parsed page: for every
`table tbody tr` the texts of its first and last `td`, in document order, then the text
of the first `.js-priceToChange` and `.js-currencyToChange` elements, the two data
attributes of the former, the text of the first `.price .h3-like.u-bold`, of the first
`.block--contact-desktop .u-bold.h3-like.man` and of the last
`.block--contact-desktop .u-bold` element, and the attribute `data-pdisplay` of the first
`.js-hi-t` element (`none` when there is no such element or attribute). -/
structure DetailPage where
  rows : List (String × String)
  priceText : Option String
  currencyText : Option String
  referencePrice : Option String
  referenceCurrency : Option String
  vatText : Option String
  dealerText : Option String
  locationText : Option String
  phoneDisplay : Option String
deriving DecidableEq, Repr

/-- The key computed by the table callback from the text of the first cell
(lines 105-106). -/
def rowKey (first : String) : String := TrimSuffix (TrimSpace first) ":"

/-- Lines 104-146: the callback of `doc.Find("table tbody tr").Each` on one row. -/
def scrapeRow (tractor : Tractor) (row : String × String) : Tractor :=
  let key := TrimSpace row.1
  let key := TrimSuffix key ":"
  let value := TrimSpace row.2
  let tractor := { tractor with Details := tractor.Details.set key value }
  if key = "Price excl. VAT" then tractor
  else if key = "Category" then { tractor with Category := value }
  else if key = "Type of ad" then { tractor with AdType := value }
  else if key = "Reference" then { tractor with Reference := value }
  else if key = "Make" then { tractor with Make := value }
  else if key = "Model" then { tractor with Model := value }
  else if key = "Status" then { tractor with Status := value }
  else if key = "Power" then { tractor with Power := TrimSpace (SplitHead value "hp") }
  else if key = "Dimension of front tires" then { tractor with FrontTireDimension := value }
  else if key = "Wear of front tires" then { tractor with FrontTireWear := value }
  else if key = "Wear of rear tires" then { tractor with RearTireWear := value }
  else if key = "Period of availability of spare parts" then
    { tractor with SparePartsAvailability := value }
  else if key = "Comments" then { tractor with Comments := value }
  else tractor

/-- Lines 99-101: the record before the table loop. -/
def emptyTractor : Tractor :=
  { DisplayedPrice := "", PriceType := "", Dealer := "", Location := "", PhoneNumber := ""
    DebugInfo := [], Category := "", AdType := "", Reference := "", Make := "", Model := ""
    Status := "", Power := "", FrontTireDimension := "", FrontTireWear := ""
    RearTireWear := "", SparePartsAvailability := "", PriceExclVAT := "", Comments := ""
    ReferencePrice := "", ReferenceCurrency := "", VATInfo := "", Details := [] }

/-- Lines 148-179: the fields read outside the table. -/
def scrapeContact (tractor : Tractor) (page : DetailPage) : Tractor :=
  let displayedPrice := TrimSpace (textOf page.priceText)
  let displayedCurrency := TrimSpace (textOf page.currencyText)
  let vatInfo := TrimSpace (textOf page.vatText)
  let combined := displayedPrice ++ " " ++ displayedCurrency
  { tractor with
    DisplayedPrice := if vatInfo ≠ "" then combined ++ (" " ++ vatInfo) else combined
    ReferencePrice := attrOf page.referencePrice
    ReferenceCurrency := attrOf page.referenceCurrency
    VATInfo := vatInfo
    Dealer := TrimSpace (textOf page.dealerText)
    Location := TrimSpace (textOf page.locationText)
    PhoneNumber := attrOf page.phoneDisplay }

/-- Lines 99-181: the record `scrapePage` returns for a parsed page. -/
def scrapeDocument (page : DetailPage) : Tractor :=
  scrapeContact (page.rows.foldl scrapeRow emptyTractor) page

/-- The function `scrapePage`. -/
def scrapePage (page : Fetch DetailPage) : Except String Tractor :=
  scrapePageOrError scrapeDocument page

/-- The page without the rows whose key is `Price excl. VAT`. -/
def withoutPriceExclVAT (page : DetailPage) : DetailPage :=
  { page with rows := page.rows.filter (fun row => rowKey row.1 ≠ "Price excl. VAT") }

end Agriaffaires1_8test

namespace Agriaffaires1_8test

/-- The record with its `Details` emptied: what is left are the named fields. -/
def namedFields (tractor : Tractor) : Tractor := { tractor with Details := [] }

end Agriaffaires1_8test

/-! ## The `main` of agriaffaires1.13test.go and of test.go -/

/-- How a run of `main` ends in agriaffaires1.13test.go and test.go: in a `panic`, by
`main` returning before its output step, or with the output step reached and `out`
written. -/
inductive MainEnd (α : Type) where
  | panicked : MainEnd α
  | returned : MainEnd α
  | output (out : α) : MainEnd α
deriving DecidableEq, Repr

namespace Agriaffaires1_13test

/-- The function `scrapeListing` (lines 95-121): the error of the request or of the parse
wrapped by `fmt.Errorf`, else the URLs of the links; a parsed listing page is given by its
`.listing-block__link` elements in document order, each by its `href` (`none` when the
element has no such attribute, and the element is then passed over). -/
def scrapeListing (page : Fetch (List (Option String))) : Except String (List String) :=
  match page with
  | .requestFailed err => .error ("error fetching listing page: " ++ err)
  | .parseFailed err => .error ("error parsing listing page: " ++ err)
  | .parsed links =>
    .ok (links.filterMap (fun href => href.map (fun h => "https://www.agriaffaires.co.uk" ++ h)))

/-- The order in which `main` receives the records the goroutines send on the channel
`results` (lines 284-305): some rearrangement of them. -/
structure Arrival where
  order : List Tractor → List Tractor
  perm : ∀ ts, (order ts).Perm ts

/-- The records sent on the channel (lines 284-295): for the URL number `i` the goroutine
calls `scrapePage(url)`, whose request and parse give `detail i`, and sends the record
unless `scrapePage` returned an error; the extraction from a parsed page is taken as
given (`extract`). -/
def sentRecords {Doc : Type} (extract : String → Doc → Tractor) (detail : Nat → Fetch Doc)
    (urls : List String) : List Tractor :=
  urls.enum.filterMap (fun iu =>
    match scrapePageOrError (extract iu.2) (detail iu.1) with
    | .ok tractor => some tractor
    | .error _ => none)

/-- The function `main` (lines 273-311): it returns when `scrapeListing` gives an error
(lines 276-279), else the records received go to `saveToCSV`. -/
def main {Doc : Type} (extract : String → Doc → Tractor) (listing : Fetch (List (Option String)))
    (detail : Nat → Fetch Doc) (arrival : Arrival) : MainEnd CsvOutput :=
  match scrapeListing listing with
  | .error _ => MainEnd.returned
  | .ok tractorURLs =>
    MainEnd.output (saveToCSV (arrival.order (sentRecords extract detail tractorURLs)))

end Agriaffaires1_13test

/-! ## test.go -/

namespace Test

/-- The element `page.QuerySelector(".js-priceToChange")` returns: the result of
`InnerText()` (an error message or the text) and the two attributes read from it. -/
structure Element where
  innerText : Except String String
  referencePrice : String
  referenceCurrency : String

/-- What the Playwright calls of `main` return, in the order of the calls: the error of
`playwright.Run`, `Launch`, `NewPage`, `Goto`, `WaitForLoadState` and `QuerySelector`
(`none` for a nil error), and the element found (`none` for a nil handle). -/
structure Session where
  runErr : Option String
  launchErr : Option String
  newPageErr : Option String
  gotoErr : Option String
  waitErr : Option String
  queryErr : Option String
  priceElement : Option Element

/-- The function `main` (lines 8-62): every error ends in `panic(err)`, and so does the
call of `InnerText` on a nil handle; else the three lines are printed. -/
def main (s : Session) : MainEnd (List String) :=
  if s.runErr.isSome then MainEnd.panicked
  else if s.launchErr.isSome then MainEnd.panicked
  else if s.newPageErr.isSome then MainEnd.panicked
  else if s.gotoErr.isSome then MainEnd.panicked
  else if s.waitErr.isSome then MainEnd.panicked
  else if s.queryErr.isSome then MainEnd.panicked
  else
    match s.priceElement with
    | none => MainEnd.panicked
    | some priceElement =>
      match priceElement.innerText with
      | .error _ => MainEnd.panicked
      | .ok displayedPrice =>
        MainEnd.output
          ["Reference Price: " ++ priceElement.referencePrice ++ "\n",
            "Reference Currency: " ++ priceElement.referenceCurrency ++ "\n",
            "Displayed Price: " ++ displayedPrice ++ "\n"]

end Test

/-! # Theorems -/

/-! ## Maps, key sets and appended cells -/

theorem GoMap.mem_keys_iff (m : GoMap) (k : String) : k ∈ m.keys ↔ (m.get k).isSome = true := by
  induction m with
  | nil => simp [GoMap.keys, GoMap.get]
  | cons p rest ih =>
    obtain ⟨k', v⟩ := p
    simp only [GoMap.keys, List.map_cons, List.mem_dedup, List.mem_cons, GoMap.get] at ih ⊢
    by_cases h : k' = k
    · simp [h]
    · have h' : ¬ k = k' := fun e => h e.symm
      simp [h, h', ih]

theorem KeySet.mem_add (s : KeySet) (k x : String) : x ∈ s.add k ↔ x ∈ s ∨ x = k := by
  unfold KeySet.add
  by_cases h : k ∈ s
  · simp only [h, if_true]
    constructor
    · exact Or.inl
    · rintro (h1 | h1)
      · exact h1
      · exact h1 ▸ h
  · simp [h]

theorem KeySet.nodup_add (s : KeySet) (k : String) (hs : s.Nodup) : (s.add k).Nodup := by
  unfold KeySet.add
  by_cases h : k ∈ s
  · simpa [h] using hs
  · simp only [h, if_false]
    rw [List.nodup_append]
    refine ⟨hs, List.nodup_singleton k, ?_⟩
    intro a ha hb
    simp only [List.mem_singleton] at hb
    exact h (hb ▸ ha)

theorem KeySet.mem_foldl_add (ks : List String) (s : KeySet) (x : String) :
    x ∈ ks.foldl KeySet.add s ↔ x ∈ s ∨ x ∈ ks := by
  induction ks generalizing s with
  | nil => simp
  | cons k rest ih =>
    simp only [List.foldl_cons, ih, KeySet.mem_add, List.mem_cons]
    tauto

theorem KeySet.nodup_foldl_add (ks : List String) (s : KeySet) (hs : s.Nodup) :
    (ks.foldl KeySet.add s).Nodup := by
  induction ks generalizing s with
  | nil => simpa using hs
  | cons k rest ih => exact ih _ (KeySet.nodup_add s k hs)

theorem foldl_append_key (ks : List String) (init : List String) :
    ks.foldl (fun header k => header ++ [k]) init = init ++ ks := by
  induction ks generalizing init with
  | nil => simp
  | cons k rest ih => simp [ih]

theorem foldl_appendCell (m : GoMap) (ks : List String) (init : List String) :
    ks.foldl (appendCell m) init = init ++ ks.map m.index := by
  induction ks generalizing init with
  | nil => simp
  | cons k rest ih =>
    simp only [List.foldl_cons, ih, List.map_cons]
    unfold appendCell GoMap.index
    cases m.get k <;> simp

theorem KeySet.length_eq_distinctKeys (dk : KeySet) (ms : List GoMap) (hnd : dk.Nodup)
    (hmem : ∀ x, x ∈ dk ↔ ∃ m ∈ ms, x ∈ m.keys) : dk.length = distinctKeys ms := by
  unfold distinctKeys
  apply List.Perm.length_eq
  rw [List.perm_ext_iff_of_nodup hnd (List.nodup_dedup _)]
  intro x
  rw [hmem x, List.mem_dedup, List.mem_flatten]
  constructor
  · rintro ⟨m, hm, hx⟩
    exact ⟨m.keys, List.mem_map.2 ⟨m, hm, rfl⟩, hx⟩
  · rintro ⟨l, hl, hx⟩
    obtain ⟨m, hm, rfl⟩ := List.mem_map.1 hl
    exact ⟨m, hm, hx⟩

theorem RangeOrder.mem_visit (order : RangeOrder) (ks : List String) (x : String) :
    x ∈ order.visit ks ↔ x ∈ ks := (order.perm ks).mem_iff

theorem RangeOrder.length_visit (order : RangeOrder) (ks : List String) :
    (order.visit ks).length = ks.length := (order.perm ks).length_eq

/-! ## aggriafaires.go: `saveToCsv` -/

namespace Aggriafaires

theorem agg_mem_collectKeys (sched : Schedule) (ts : List Tractor) (i : Nat) (dk : KeySet)
    (x : String) :
    x ∈ collectKeys sched i ts dk ↔ x ∈ dk ∨ ∃ t ∈ ts, x ∈ t.Details.keys := by
  induction ts generalizing i dk with
  | nil => simp [collectKeys]
  | cons t rest ih =>
    simp only [collectKeys, ih, KeySet.mem_foldl_add, RangeOrder.mem_visit, List.mem_cons,
      exists_eq_or_imp]
    tauto

theorem agg_nodup_collectKeys (sched : Schedule) (ts : List Tractor) (i : Nat) (dk : KeySet)
    (h : dk.Nodup) : (collectKeys sched i ts dk).Nodup := by
  induction ts generalizing i dk with
  | nil => simpa [collectKeys] using h
  | cons t rest ih => exact ih _ _ (KeySet.nodup_foldl_add _ _ h)

theorem agg_buildHeader_eq (order : RangeOrder) (dk : KeySet) :
    buildHeader order dk =
      ["Title", "Price", "Location", "Dealer", "Image URL", "Detail URL", "Description"] ++
        order.visit dk := by
  unfold buildHeader
  rw [foldl_append_key]

theorem agg_buildRow_eq (order : RangeOrder) (dk : KeySet) (t : Tractor) :
    buildRow order dk t =
      [t.Title, t.Price, t.Location, t.Dealer, t.ImageURL, t.DetailURL, t.Description] ++
        (order.visit dk).map t.Details.index := by
  unfold buildRow
  rw [foldl_appendCell]

theorem agg_length_buildRows (sched : Schedule) (dk : KeySet) (i : Nat) (ts : List Tractor) :
    (buildRows sched dk i ts).length = ts.length := by
  induction ts generalizing i with
  | nil => rfl
  | cons t rest ih => simp [buildRows, ih]

theorem agg_getElem?_buildRows (sched : Schedule) (dk : KeySet) (i : Nat) (ts : List Tractor)
    (n : Nat) :
    (buildRows sched dk i ts)[n]? = (ts[n]?).map (buildRow (sched.row (i + n)) dk) := by
  induction ts generalizing i n with
  | nil => simp [buildRows]
  | cons t rest ih =>
    cases n with
    | zero => simp [buildRows]
    | succ n =>
      simp only [buildRows, List.getElem?_cons_succ, ih]
      rw [show i + 1 + n = i + (n + 1) by omega]

theorem agg_mem_buildRows (sched : Schedule) (dk : KeySet) (i : Nat) (ts : List Tractor)
    (row : List String) (h : row ∈ buildRows sched dk i ts) :
    ∃ order t, t ∈ ts ∧ row = buildRow order dk t := by
  induction ts generalizing i with
  | nil => simp [buildRows] at h
  | cons t rest ih =>
    simp only [buildRows, List.mem_cons] at h
    rcases h with h | h
    · exact ⟨sched.row i, t, List.mem_cons_self _ _, h⟩
    · obtain ⟨o, t', ht', e⟩ := ih _ h
      exact ⟨o, t', List.mem_cons_of_mem _ ht', e⟩

theorem agg_length_collectKeys (sched : Schedule) (ts : List Tractor) :
    (collectKeys sched 0 ts []).length = distinctKeys (ts.map (fun t => t.Details)) := by
  apply KeySet.length_eq_distinctKeys _ _ (agg_nodup_collectKeys sched ts 0 [] List.nodup_nil)
  intro x
  simp [agg_mem_collectKeys]

end Aggriafaires

/-! ## agriaffaires1.2.go: `saveToCsv` -/

namespace Agriaffaires1_2

theorem a12_mem_collectKeys (sched : Schedule) (ts : List Tractor) (i : Nat) (dk : KeySet)
    (x : String) :
    x ∈ collectKeys sched i ts dk ↔ x ∈ dk ∨ ∃ t ∈ ts, x ∈ t.Details.keys := by
  induction ts generalizing i dk with
  | nil => simp [collectKeys]
  | cons t rest ih =>
    simp only [collectKeys, ih, KeySet.mem_foldl_add, RangeOrder.mem_visit, List.mem_cons,
      exists_eq_or_imp]
    tauto

theorem a12_buildHeader_eq (order : RangeOrder) (dk : KeySet) :
    buildHeader order dk =
      ["Title", "Price", "Reference Price", "Reference Currency", "Displayed Currency",
        "Price Type", "Location", "Dealer", "Image URL", "Detail URL", "Description"] ++
        order.visit dk := by
  unfold buildHeader
  rw [foldl_append_key]

end Agriaffaires1_2

/-! ## mainurls2.go and agriaffaires2.go: `saveToCsv` -/

theorem foldl_append_prefixed (pre : String) (ks : List String) (init : List String) :
    ks.foldl (fun header k => header ++ [pre ++ k]) init = init ++ ks.map (fun k => pre ++ k) := by
  induction ks generalizing init with
  | nil => simp
  | cons k rest ih => simp [ih]

namespace Mainurls2

theorem mu2_mem_collectKeys (sched : Schedule) (ts : List Tractor) (i : Nat) (ek sk : KeySet)
    (x : String) :
    (x ∈ (collectKeys sched i ts (ek, sk)).1 ↔ x ∈ ek ∨ ∃ t ∈ ts, x ∈ t.Equipment.keys) ∧
    (x ∈ (collectKeys sched i ts (ek, sk)).2 ↔ x ∈ sk ∨ ∃ t ∈ ts, x ∈ t.Specifications.keys) := by
  induction ts generalizing i ek sk with
  | nil => simp [collectKeys]
  | cons t rest ih =>
    simp only [collectKeys, ih, KeySet.mem_foldl_add, RangeOrder.mem_visit, List.mem_cons,
      exists_eq_or_imp]
    tauto

theorem mu2_nodup_collectKeys (sched : Schedule) (ts : List Tractor) (i : Nat) (ek sk : KeySet)
    (he : ek.Nodup) (hs : sk.Nodup) :
    (collectKeys sched i ts (ek, sk)).1.Nodup ∧ (collectKeys sched i ts (ek, sk)).2.Nodup := by
  induction ts generalizing i ek sk with
  | nil => exact ⟨he, hs⟩
  | cons t rest ih =>
    exact ih _ _ _ (KeySet.nodup_foldl_add _ _ he) (KeySet.nodup_foldl_add _ _ hs)

theorem mu2_length_collectKeys (sched : Schedule) (ts : List Tractor) :
    (collectKeys sched 0 ts ([], [])).1.length = distinctKeys (ts.map (fun t => t.Equipment)) ∧
    (collectKeys sched 0 ts ([], [])).2.length =
      distinctKeys (ts.map (fun t => t.Specifications)) := by
  have hnd := mu2_nodup_collectKeys sched ts 0 [] [] List.nodup_nil List.nodup_nil
  constructor
  · apply KeySet.length_eq_distinctKeys _ _ hnd.1
    intro x
    simp [(mu2_mem_collectKeys sched ts 0 [] [] x).1]
  · apply KeySet.length_eq_distinctKeys _ _ hnd.2
    intro x
    simp [(mu2_mem_collectKeys sched ts 0 [] [] x).2]

theorem mu2_length_buildHeader (sched : Schedule) (ek sk : KeySet) :
    (buildHeader sched ek sk).length = 13 + ek.length + sk.length := by
  simp only [buildHeader, foldl_append_prefixed, List.length_append, List.length_map,
    RangeOrder.length_visit, List.length_cons, List.length_nil]

theorem mu2_length_buildRow (sched : Schedule) (ek sk : KeySet) (i : Nat) (t : Tractor) :
    (buildRow sched ek sk i t).length = 13 + ek.length + sk.length := by
  simp only [buildRow, foldl_appendCell, List.length_append, List.length_map,
    RangeOrder.length_visit, List.length_cons, List.length_nil]

theorem mu2_mem_buildRows (sched : Schedule) (ek sk : KeySet) (i : Nat) (ts : List Tractor)
    (row : List String) (h : row ∈ buildRows sched ek sk i ts) :
    ∃ j t, t ∈ ts ∧ row = buildRow sched ek sk j t := by
  induction ts generalizing i with
  | nil => simp [buildRows] at h
  | cons t rest ih =>
    simp only [buildRows, List.mem_cons] at h
    rcases h with h | h
    · exact ⟨i, t, List.mem_cons_self _ _, h⟩
    · obtain ⟨j, t', ht', e⟩ := ih _ h
      exact ⟨j, t', List.mem_cons_of_mem _ ht', e⟩

end Mainurls2

namespace Agriaffaires2

theorem a2_mem_collectKeys (sched : Schedule) (ts : List Tractor) (i : Nat) (ek sk : KeySet)
    (x : String) :
    (x ∈ (collectKeys sched i ts (ek, sk)).1 ↔ x ∈ ek ∨ ∃ t ∈ ts, x ∈ t.Equipment.keys) ∧
    (x ∈ (collectKeys sched i ts (ek, sk)).2 ↔ x ∈ sk ∨ ∃ t ∈ ts, x ∈ t.Specifications.keys) := by
  induction ts generalizing i ek sk with
  | nil => simp [collectKeys]
  | cons t rest ih =>
    simp only [collectKeys, ih, KeySet.mem_foldl_add, RangeOrder.mem_visit, List.mem_cons,
      exists_eq_or_imp]
    tauto

theorem a2_nodup_collectKeys (sched : Schedule) (ts : List Tractor) (i : Nat) (ek sk : KeySet)
    (he : ek.Nodup) (hs : sk.Nodup) :
    (collectKeys sched i ts (ek, sk)).1.Nodup ∧ (collectKeys sched i ts (ek, sk)).2.Nodup := by
  induction ts generalizing i ek sk with
  | nil => exact ⟨he, hs⟩
  | cons t rest ih =>
    exact ih _ _ _ (KeySet.nodup_foldl_add _ _ he) (KeySet.nodup_foldl_add _ _ hs)

theorem a2_length_collectKeys (sched : Schedule) (ts : List Tractor) :
    (collectKeys sched 0 ts ([], [])).1.length = distinctKeys (ts.map (fun t => t.Equipment)) ∧
    (collectKeys sched 0 ts ([], [])).2.length =
      distinctKeys (ts.map (fun t => t.Specifications)) := by
  have hnd := a2_nodup_collectKeys sched ts 0 [] [] List.nodup_nil List.nodup_nil
  constructor
  · apply KeySet.length_eq_distinctKeys _ _ hnd.1
    intro x
    simp [(a2_mem_collectKeys sched ts 0 [] [] x).1]
  · apply KeySet.length_eq_distinctKeys _ _ hnd.2
    intro x
    simp [(a2_mem_collectKeys sched ts 0 [] [] x).2]

theorem a2_length_buildColumns (sched : Schedule) (ek sk : KeySet) :
    (buildColumns sched ek sk).length = 18 + ek.length + sk.length := by
  simp only [buildColumns, foldl_append_prefixed, List.length_append, List.length_map,
    RangeOrder.length_visit, List.length_cons, List.length_nil]

theorem a2_length_buildRow (sched : Schedule) (ek sk : KeySet) (i : Nat) (t : Tractor) :
    (buildRow sched ek sk i t).length = 18 + ek.length + sk.length := by
  simp only [buildRow, foldl_appendCell, List.length_append, List.length_map,
    RangeOrder.length_visit, List.length_cons, List.length_nil]

theorem a2_mem_buildRows (sched : Schedule) (ek sk : KeySet) (i : Nat) (ts : List Tractor)
    (row : List String) (h : row ∈ buildRows sched ek sk i ts) :
    ∃ j t, t ∈ ts ∧ row = buildRow sched ek sk j t := by
  induction ts generalizing i with
  | nil => simp [buildRows] at h
  | cons t rest ih =>
    simp only [buildRows, List.mem_cons] at h
    rcases h with h | h
    · exact ⟨i, t, List.mem_cons_self _ _, h⟩
    · obtain ⟨j, t', ht', e⟩ := ih _ h
      exact ⟨j, t', List.mem_cons_of_mem _ ht', e⟩

end Agriaffaires2

/-! ## The CSV writer: header, rows and dynamic columns -/

/-- C1: in `saveToCsv` of aggriafaires.go (7 fixed columns) and of agriaffaires1.2.go
(11 fixed columns), for every list of records and every iteration order of the maps, the
header starts with the fixed columns and the columns that follow are exactly the keys of
the records: a name is a dynamic column if and only if it is a key of the `Details` of at
least one record. -/
theorem saveToCsv_dynamic_columns_eq_union_of_keys :
    (∀ (sched : Aggriafaires.Schedule) (ts : List Aggriafaires.Tractor),
      (Aggriafaires.saveToCsv sched ts).header.take 7 =
        ["Title", "Price", "Location", "Dealer", "Image URL", "Detail URL", "Description"] ∧
      ∀ k, k ∈ (Aggriafaires.saveToCsv sched ts).header.drop 7 ↔
        ∃ t ∈ ts, (t.Details.get k).isSome = true) ∧
    (∀ (sched : Agriaffaires1_2.Schedule) (ts : List Agriaffaires1_2.Tractor),
      (Agriaffaires1_2.saveToCsv sched ts).header.take 11 =
        ["Title", "Price", "Reference Price", "Reference Currency", "Displayed Currency",
          "Price Type", "Location", "Dealer", "Image URL", "Detail URL", "Description"] ∧
      ∀ k, k ∈ (Agriaffaires1_2.saveToCsv sched ts).header.drop 11 ↔
        ∃ t ∈ ts, (t.Details.get k).isSome = true) := by
  refine ⟨fun sched ts => ⟨?_, fun k => ?_⟩, fun sched ts => ⟨?_, fun k => ?_⟩⟩
  · simp [Aggriafaires.saveToCsv, Aggriafaires.agg_buildHeader_eq]
  · simp [Aggriafaires.saveToCsv, Aggriafaires.agg_buildHeader_eq, RangeOrder.mem_visit,
      Aggriafaires.agg_mem_collectKeys, GoMap.mem_keys_iff]
  · simp [Agriaffaires1_2.saveToCsv, Agriaffaires1_2.a12_buildHeader_eq]
  · simp [Agriaffaires1_2.saveToCsv, Agriaffaires1_2.a12_buildHeader_eq, RangeOrder.mem_visit,
      Agriaffaires1_2.a12_mem_collectKeys, GoMap.mem_keys_iff]

/-- C2, the code at a failing input: one record with the details `Power` and `Year`, the
header loop visiting `detailKeys` as Power, Year and the row loop visiting it as Year,
Power.  The header puts `Power` at position 7, the row puts the value of `Year` there,
which is not the record's value for `Power`. -/
theorem saveToCsv_row_cells_not_in_header_order :
    (Aggriafaires.saveToCsv
        ⟨fun _ => RangeOrder.stored, RangeOrder.stored, fun _ => RangeOrder.reversed⟩
        [{ Title := "Fordson Major", Price := "", Location := "", Dealer := "", ImageURL := "",
           DetailURL := "", Description := "",
           Details := [("Power", "50 hp"), ("Year", "Year 1960")] }]) =
      { header := ["Title", "Price", "Location", "Dealer", "Image URL", "Detail URL",
          "Description", "Power", "Year"]
        rows := [["Fordson Major", "", "", "", "", "", "", "Year 1960", "50 hp"]] } ∧
    GoMap.index [("Power", "50 hp"), ("Year", "Year 1960")] "Power" = "50 hp" ∧
    "Year 1960" ≠ "50 hp" := by
  decide

/-- C3: for every list of records and every iteration order of the maps, every data row
has as many fields as the header: 7 + the number of distinct `Details` keys in
aggriafaires.go, 13 + the distinct `Equipment` keys + the distinct `Specifications` keys
in mainurls2.go, 18 + the same two numbers in agriaffaires2.go, and 22 in
agriaffaires1.13test.go. -/
theorem saveToCsv_rows_as_long_as_header :
    (∀ (sched : Aggriafaires.Schedule) (ts : List Aggriafaires.Tractor),
      (Aggriafaires.saveToCsv sched ts).header.length =
        7 + distinctKeys (ts.map (fun t => t.Details)) ∧
      ∀ row ∈ (Aggriafaires.saveToCsv sched ts).rows,
        row.length = (Aggriafaires.saveToCsv sched ts).header.length) ∧
    (∀ (sched : Mainurls2.Schedule) (ts : List Mainurls2.Tractor),
      (Mainurls2.saveToCsv sched ts).header.length =
        13 + distinctKeys (ts.map (fun t => t.Equipment)) +
          distinctKeys (ts.map (fun t => t.Specifications)) ∧
      ∀ row ∈ (Mainurls2.saveToCsv sched ts).rows,
        row.length = (Mainurls2.saveToCsv sched ts).header.length) ∧
    (∀ (sched : Agriaffaires2.Schedule) (ts : List Agriaffaires2.Tractor),
      (Agriaffaires2.saveToCsv sched ts).header.length =
        18 + distinctKeys (ts.map (fun t => t.Equipment)) +
          distinctKeys (ts.map (fun t => t.Specifications)) ∧
      ∀ row ∈ (Agriaffaires2.saveToCsv sched ts).rows,
        row.length = (Agriaffaires2.saveToCsv sched ts).header.length) ∧
    (∀ ts : List Agriaffaires1_13test.Tractor,
      (Agriaffaires1_13test.saveToCSV ts).header.length = 22 ∧
      ∀ row ∈ (Agriaffaires1_13test.saveToCSV ts).rows,
        row.length = (Agriaffaires1_13test.saveToCSV ts).header.length) := by
  refine ⟨fun sched ts => ⟨?_, fun row hrow => ?_⟩, fun sched ts => ⟨?_, fun row hrow => ?_⟩,
    fun sched ts => ⟨?_, fun row hrow => ?_⟩, fun ts => ⟨rfl, fun row hrow => ?_⟩⟩
  · simp only [Aggriafaires.saveToCsv, Aggriafaires.agg_buildHeader_eq, List.length_append,
      RangeOrder.length_visit, Aggriafaires.agg_length_collectKeys, List.length_cons,
      List.length_nil]
  · obtain ⟨o, t, -, rfl⟩ := Aggriafaires.agg_mem_buildRows _ _ _ _ _ hrow
    simp [Aggriafaires.saveToCsv, Aggriafaires.agg_buildHeader_eq,
      Aggriafaires.agg_buildRow_eq, RangeOrder.length_visit]
  · have h := Mainurls2.mu2_length_collectKeys sched ts
    simp only [Mainurls2.saveToCsv, Mainurls2.mu2_length_buildHeader, h.1, h.2]
  · obtain ⟨j, t, -, rfl⟩ := Mainurls2.mu2_mem_buildRows _ _ _ _ _ _ hrow
    simp only [Mainurls2.saveToCsv, Mainurls2.mu2_length_buildHeader,
      Mainurls2.mu2_length_buildRow]
  · have h := Agriaffaires2.a2_length_collectKeys sched ts
    simp only [Agriaffaires2.saveToCsv, Agriaffaires2.a2_length_buildColumns, h.1, h.2]
  · obtain ⟨j, t, -, rfl⟩ := Agriaffaires2.a2_mem_buildRows _ _ _ _ _ _ hrow
    simp only [Agriaffaires2.saveToCsv, Agriaffaires2.a2_length_buildColumns,
      Agriaffaires2.a2_length_buildRow]
  · simp only [Agriaffaires1_13test.saveToCSV, List.mem_map] at hrow
    obtain ⟨t, -, rfl⟩ := hrow
    rfl

theorem saveToCsv_rows_as_long_as_header_witness :
    (Mainurls2.saveToCsv
        ⟨fun _ => RangeOrder.stored, fun _ => RangeOrder.reversed, RangeOrder.reversed,
          RangeOrder.stored, fun _ => RangeOrder.stored, fun _ => RangeOrder.reversed⟩
        [{ Title := "McCormick", Price := "", OriginalPrice := "", PriceExclVAT := "", HP := "",
           Year := "", WorkingHours := "", Dealer := "", Location := "", ImageURL := "",
           Details := "", DetailURL := "", Description := "",
           Equipment := [("Cab", "Yes"), ("Front loader", "Yes")],
           Specifications := [("Hours", "1200")] }]).header.length =
      13 + distinctKeys [[("Cab", "Yes"), ("Front loader", "Yes")]] +
        distinctKeys [[("Hours", "1200")]] ∧
    ∀ row ∈ (Mainurls2.saveToCsv
        ⟨fun _ => RangeOrder.stored, fun _ => RangeOrder.reversed, RangeOrder.reversed,
          RangeOrder.stored, fun _ => RangeOrder.stored, fun _ => RangeOrder.reversed⟩
        [{ Title := "McCormick", Price := "", OriginalPrice := "", PriceExclVAT := "", HP := "",
           Year := "", WorkingHours := "", Dealer := "", Location := "", ImageURL := "",
           Details := "", DetailURL := "", Description := "",
           Equipment := [("Cab", "Yes"), ("Front loader", "Yes")],
           Specifications := [("Hours", "1200")] }]).rows,
      row.length = (Mainurls2.saveToCsv
        ⟨fun _ => RangeOrder.stored, fun _ => RangeOrder.reversed, RangeOrder.reversed,
          RangeOrder.stored, fun _ => RangeOrder.stored, fun _ => RangeOrder.reversed⟩
        [{ Title := "McCormick", Price := "", OriginalPrice := "", PriceExclVAT := "", HP := "",
           Year := "", WorkingHours := "", Dealer := "", Location := "", ImageURL := "",
           Details := "", DetailURL := "", Description := "",
           Equipment := [("Cab", "Yes"), ("Front loader", "Yes")],
           Specifications := [("Hours", "1200")] }]).header.length :=
  saveToCsv_rows_as_long_as_header.2.1 _ _

/-- C4: in `saveToCsv` of aggriafaires.go, for every list of records and every iteration
order of the maps, the row of a record whose `Details` map is empty has the empty string
in every dynamic column, that is at every position from 7 up to the length of the header. -/
theorem saveToCsv_empty_details_gives_empty_cells (sched : Aggriafaires.Schedule)
    (ts : List Aggriafaires.Tractor) (i : Nat) (t : Aggriafaires.Tractor)
    (hi : ts[i]? = some t) (hd : t.Details = []) :
    ∃ row, (Aggriafaires.saveToCsv sched ts).rows[i]? = some row ∧
      ∀ j, 7 ≤ j → j < (Aggriafaires.saveToCsv sched ts).header.length → row[j]? = some "" := by
  refine ⟨Aggriafaires.buildRow (sched.row (0 + i))
    (Aggriafaires.collectKeys sched 0 ts []) t, ?_, ?_⟩
  · simp only [Aggriafaires.saveToCsv, Aggriafaires.agg_getElem?_buildRows, hi, Option.map_some']
  · intro j h7 hj
    simp only [Aggriafaires.saveToCsv, Aggriafaires.agg_buildHeader_eq, List.length_append,
      List.length_cons, List.length_nil, RangeOrder.length_visit] at hj
    rw [Aggriafaires.agg_buildRow_eq, List.getElem?_append_right (by simpa using h7)]
    simp only [List.length_cons, List.length_nil, List.getElem?_map, hd]
    rw [List.getElem?_eq_getElem (by rw [RangeOrder.length_visit]; omega)]
    rfl

theorem saveToCsv_empty_details_gives_empty_cells_witness :
    ∃ row, (Aggriafaires.saveToCsv
        ⟨fun _ => RangeOrder.stored, RangeOrder.reversed, fun _ => RangeOrder.stored⟩
        [{ Title := "A", Price := "1", Location := "", Dealer := "", ImageURL := "",
           DetailURL := "u", Description := "", Details := [("Power", "50 hp")] },
         { Title := "B", Price := "2", Location := "", Dealer := "", ImageURL := "",
           DetailURL := "u", Description := "", Details := [] }]).rows[1]? = some row ∧
      ∀ j, 7 ≤ j → j < (Aggriafaires.saveToCsv
        ⟨fun _ => RangeOrder.stored, RangeOrder.reversed, fun _ => RangeOrder.stored⟩
        [{ Title := "A", Price := "1", Location := "", Dealer := "", ImageURL := "",
           DetailURL := "u", Description := "", Details := [("Power", "50 hp")] },
         { Title := "B", Price := "2", Location := "", Dealer := "", ImageURL := "",
           DetailURL := "u", Description := "", Details := [] }]).header.length →
        row[j]? = some "" :=
  saveToCsv_empty_details_gives_empty_cells _ _ 1
    { Title := "B", Price := "2", Location := "", Dealer := "", ImageURL := "",
      DetailURL := "u", Description := "", Details := [] } rfl rfl

/-- C5: in `saveToCsv` of aggriafaires.go, for every list of records and every iteration
order of the maps, there are as many data rows as records (nothing is dropped, whatever
the `DetailURL`s), and the `i`-th row starts with the `i`-th record's Title, Price,
Location, Dealer, ImageURL, DetailURL and Description, in that order. -/
theorem saveToCsv_one_row_per_record_in_order (sched : Aggriafaires.Schedule)
    (ts : List Aggriafaires.Tractor) :
    (Aggriafaires.saveToCsv sched ts).rows.length = ts.length ∧
    ∀ (i : Nat) (t : Aggriafaires.Tractor), ts[i]? = some t →
      ∃ row : List String, (Aggriafaires.saveToCsv sched ts).rows[i]? = some row ∧
        row.take 7 =
          [t.Title, t.Price, t.Location, t.Dealer, t.ImageURL, t.DetailURL, t.Description] := by
  refine ⟨Aggriafaires.agg_length_buildRows _ _ _ _, fun i t hi =>
    ⟨Aggriafaires.buildRow (sched.row (0 + i)) (Aggriafaires.collectKeys sched 0 ts []) t,
      ?_, ?_⟩⟩
  · simp only [Aggriafaires.saveToCsv, Aggriafaires.agg_getElem?_buildRows, hi, Option.map_some']
  · simp [Aggriafaires.agg_buildRow_eq]

theorem saveToCsv_one_row_per_record_in_order_witness :
    (Aggriafaires.saveToCsv
        ⟨fun _ => RangeOrder.stored, RangeOrder.stored, fun _ => RangeOrder.reversed⟩
        [{ Title := "A", Price := "1", Location := "x", Dealer := "d", ImageURL := "i",
           DetailURL := "u", Description := "", Details := [("Power", "50 hp")] },
         { Title := "B", Price := "2", Location := "y", Dealer := "e", ImageURL := "j",
           DetailURL := "u", Description := "", Details := [] }]).rows.length = 2 ∧
    ∃ row, (Aggriafaires.saveToCsv
        ⟨fun _ => RangeOrder.stored, RangeOrder.stored, fun _ => RangeOrder.reversed⟩
        [{ Title := "A", Price := "1", Location := "x", Dealer := "d", ImageURL := "i",
           DetailURL := "u", Description := "", Details := [("Power", "50 hp")] },
         { Title := "B", Price := "2", Location := "y", Dealer := "e", ImageURL := "j",
           DetailURL := "u", Description := "", Details := [] }]).rows[1]? = some row ∧
      row.take 7 = ["B", "2", "y", "e", "j", "u", ""] :=
  ⟨(saveToCsv_one_row_per_record_in_order _ _).1,
    (saveToCsv_one_row_per_record_in_order _ _).2 1
      { Title := "B", Price := "2", Location := "y", Dealer := "e", ImageURL := "j",
        DetailURL := "u", Description := "", Details := [] } rfl⟩

/-! ## The crawl loops -/

theorem wrapInt_of_bounds (n : Int) (h0 : 0 ≤ n) (h1 : n < 2 ^ 63) : wrapInt n = n := by
  unfold wrapInt
  rw [Int.emod_eq_of_lt (by omega) (by omega)]
  omega

theorem listingsOf_succ {α : Type} (scrapePage : Int → List α) (page : Int) (n : Nat) :
    listingsOf scrapePage page (n + 1) = scrapePage page ++ listingsOf scrapePage (page + 1) n := by
  unfold listingsOf
  rw [List.range_succ_eq_map]
  simp only [List.map_cons, List.map_map, List.flatten_cons, Nat.cast_zero, add_zero]
  congr 2
  apply List.map_congr_left
  intro i _
  show scrapePage (page + ((i + 1 : Nat) : Int)) = scrapePage (page + 1 + (i : Int))
  congr 1
  push_cast
  ring

theorem pagesFrom_succ (page : Int) (n : Nat) :
    pagesFrom page (n + 1) = page :: pagesFrom (page + 1) n := by
  unfold pagesFrom
  rw [List.range_succ_eq_map]
  simp only [List.map_cons, List.map_map, Nat.cast_zero, add_zero]
  congr 1
  apply List.map_congr_left
  intro i _
  show page + ((i + 1 : Nat) : Int) = page + 1 + (i : Int)
  push_cast
  ring

/-- From page `page`, with `n` non-empty pages ahead and then an empty one, the loop stops
after `n + 1` calls, provided it is given that many iterations. -/
theorem crawlUntilEmpty_run {α : Type} (scrapePage : Int → List α) (n : Nat) :
    ∀ (page : Int) (acc : List α) (fetched : List Int) (fuel : Nat),
      1 ≤ page → page + n < 2 ^ 63 →
      (∀ i : Nat, i < n → scrapePage (page + i) ≠ []) →
      scrapePage (page + n) = [] → n < fuel →
      crawlUntilEmpty scrapePage fuel page acc fetched =
        some { tractors := acc ++ listingsOf scrapePage page n
               fetched := fetched ++ pagesFrom page (n + 1) } := by
  induction n with
  | zero =>
    intro page acc fetched fuel _ _ _ hlast hfuel
    obtain ⟨f, rfl⟩ : ∃ f, fuel = f + 1 := ⟨fuel - 1, by omega⟩
    simp only [Nat.cast_zero, add_zero] at hlast
    simp [crawlUntilEmpty, hlast, listingsOf, pagesFrom, List.range_succ]
  | succ n ih =>
    intro page acc fetched fuel h1 hmax hne hlast hfuel
    obtain ⟨f, rfl⟩ : ∃ f, fuel = f + 1 := ⟨fuel - 1, by omega⟩
    have h0 : scrapePage page ≠ [] := by simpa using hne 0 (Nat.succ_pos n)
    have hlen : (scrapePage page).length ≠ 0 := fun h => h0 (List.length_eq_zero.1 h)
    have hcast : ((n + 1 : Nat) : Int) = (n : Int) + 1 := by push_cast; ring
    have hw : wrapInt (page + 1) = page + 1 := wrapInt_of_bounds _ (by omega) (by omega)
    simp only [crawlUntilEmpty, hlen, if_false, hw]
    rw [ih (page + 1) _ _ f (by omega) (by omega) ?_ ?_ (by omega)]
    · rw [listingsOf_succ, pagesFrom_succ page (n + 1)]
      simp
    · intro i hi
      have := hne (i + 1) (by omega)
      rw [show page + ((i + 1 : Nat) : Int) = page + 1 + (i : Int) by push_cast; ring] at this
      exact this
    · rw [show page + 1 + (n : Int) = page + ((n + 1 : Nat) : Int) by push_cast; ring]
      exact hlast

/-- From page `page`, with `n` pages ahead that have listings and a next-page control and
then one that lacks either, the loop stops after `n + 1` calls and keeps the listings of
all of them. -/
theorem crawlUntilLast_run {α : Type} (scrapePage : Int → Except String (List α × Bool))
    (pages : Int → List α × Bool) (n : Nat) :
    ∀ (page : Int) (acc : List α) (fetched : List Int) (fuel : Nat),
      1 ≤ page → page + n < 2 ^ 63 →
      (∀ i : Nat, i ≤ n → scrapePage (page + i) = Except.ok (pages (page + i))) →
      (∀ i : Nat, i < n → (pages (page + i)).1 ≠ [] ∧ (pages (page + i)).2 = true) →
      ((pages (page + n)).1 = [] ∨ (pages (page + n)).2 = false) → n < fuel →
      crawlUntilLast scrapePage fuel page acc fetched =
        some { tractors := acc ++ listingsOf (fun p => (pages p).1) page (n + 1)
               fetched := fetched ++ pagesFrom page (n + 1) } := by
  induction n with
  | zero =>
    intro page acc fetched fuel _ _ hok _ hlast hfuel
    obtain ⟨f, rfl⟩ : ∃ f, fuel = f + 1 := ⟨fuel - 1, by omega⟩
    have h0 : scrapePage page = Except.ok (pages page) := by simpa using hok 0 (Nat.le_refl 0)
    simp only [Nat.cast_zero, add_zero] at hlast
    have hstop : ((pages page).1.length = 0 || !(pages page).2) = true := by
      rcases hlast with h | h <;> simp [h]
    rcases hp : pages page with ⟨ts, b⟩
    rw [hp] at hstop h0
    simp only at hstop
    simp [crawlUntilLast, h0, hstop, listingsOf, pagesFrom, hp, List.range_succ]
  | succ n ih =>
    intro page acc fetched fuel h1 hmax hok hgo hlast hfuel
    obtain ⟨f, rfl⟩ : ∃ f, fuel = f + 1 := ⟨fuel - 1, by omega⟩
    have h0 : scrapePage page = Except.ok (pages page) := by simpa using hok 0 (Nat.zero_le _)
    have hg0 : (pages page).1 ≠ [] ∧ (pages page).2 = true := by
      simpa using hgo 0 (Nat.succ_pos n)
    have hcast : ((n + 1 : Nat) : Int) = (n : Int) + 1 := by push_cast; ring
    have hw : wrapInt (page + 1) = page + 1 := wrapInt_of_bounds _ (by omega) (by omega)
    rcases hp : pages page with ⟨ts, b⟩
    rw [hp] at h0 hg0
    simp only at hg0
    have hgo0 : (ts.length = 0 || !b) = false := by
      have : ts.length ≠ 0 := fun h => hg0.1 (List.length_eq_zero.1 h)
      simp [hg0.2, this]
    simp only [crawlUntilLast, h0, hgo0, hw]
    rw [ih (page + 1) _ _ f (by omega) (by omega) ?_ ?_ ?_ (by omega)]
    · rw [listingsOf_succ _ page (n + 1), pagesFrom_succ page (n + 1)]
      simp [hp]
    · intro i hi
      have := hok (i + 1) (by omega)
      rw [show page + ((i + 1 : Nat) : Int) = page + 1 + (i : Int) by push_cast; ring] at this
      exact this
    · intro i hi
      have := hgo (i + 1) (by omega)
      rw [show page + ((i + 1 : Nat) : Int) = page + 1 + (i : Int) by push_cast; ring] at this
      exact this
    · rw [show page + 1 + (n : Int) = page + ((n + 1 : Nat) : Int) by push_cast; ring]
      exact hlast

theorem crawlUntilEmpty_first_empty {α : Type} (scrapePage : Int → List α) (k fuel : Nat)
    (hk : 1 ≤ k) (hmax : (k : Int) < 2 ^ 63)
    (hne : ∀ p : Nat, 1 ≤ p → p < k → scrapePage p ≠ []) (hlast : scrapePage k = [])
    (hfuel : k ≤ fuel) :
    crawlUntilEmpty scrapePage fuel 1 [] [] =
      some { tractors := listingsOf scrapePage 1 (k - 1), fetched := pagesFrom 1 k } := by
  obtain ⟨n, rfl⟩ : ∃ n, k = n + 1 := ⟨k - 1, by omega⟩
  have h := crawlUntilEmpty_run scrapePage n 1 [] [] fuel (le_refl 1)
    (by push_cast at hmax; omega) ?_ ?_ (by omega)
  · simpa using h
  · intro i hi
    have := hne (i + 1) (by omega) (by omega)
    rw [show (1 : Int) + (i : Int) = ((i + 1 : Nat) : Int) by push_cast; ring]
    exact this
  · rw [show (1 : Int) + (n : Int) = ((n + 1 : Nat) : Int) by push_cast; ring]
    exact hlast

theorem crawlUntilLast_first_last {α : Type} (scrapePage : Int → Except String (List α × Bool))
    (pages : Int → List α × Bool) (k fuel : Nat) (hk : 1 ≤ k) (hmax : (k : Int) < 2 ^ 63)
    (hok : ∀ p : Nat, 1 ≤ p → p ≤ k → scrapePage p = Except.ok (pages p))
    (hgo : ∀ p : Nat, 1 ≤ p → p < k → (pages p).1 ≠ [] ∧ (pages p).2 = true)
    (hlast : (pages k).1 = [] ∨ (pages k).2 = false) (hfuel : k ≤ fuel) :
    crawlUntilLast scrapePage fuel 1 [] [] =
      some { tractors := listingsOf (fun p => (pages p).1) 1 k, fetched := pagesFrom 1 k } := by
  obtain ⟨n, rfl⟩ : ∃ n, k = n + 1 := ⟨k - 1, by omega⟩
  have h := crawlUntilLast_run scrapePage pages n 1 [] [] fuel (le_refl 1)
    (by push_cast at hmax; omega) ?_ ?_ ?_ (by omega)
  · simpa using h
  · intro i hi
    have := hok (i + 1) (by omega) (by omega)
    rw [show (1 : Int) + (i : Int) = ((i + 1 : Nat) : Int) by push_cast; ring]
    exact this
  · intro i hi
    have := hgo (i + 1) (by omega) (by omega)
    rw [show (1 : Int) + (i : Int) = ((i + 1 : Nat) : Int) by push_cast; ring]
    exact this
  · rw [show (1 : Int) + (n : Int) = ((n + 1 : Nat) : Int) by push_cast; ring]
    exact hlast

/-- C6: in the crawl loop of aggriafaires.go, main2.go, mainurls.go and mainurls2.go, for
every sequence of page results in which page `k` (`k ≥ 1`, a Go `int`) is the first page
with zero listings, the loop terminates once it is given `k` iterations: `scrapePage` has
been called for exactly the pages 1..k, and the accumulated list is the concatenation of
the listings of pages 1..k-1 in page order, nothing being appended for page `k`. -/
theorem crawl_stops_at_first_empty_page :
    (∀ (scrapePage : Int → List Aggriafaires.Tractor) (k fuel : Nat),
      1 ≤ k → (k : Int) < 2 ^ 63 →
      (∀ p : Nat, 1 ≤ p → p < k → scrapePage p ≠ []) → scrapePage k = [] → k ≤ fuel →
      Aggriafaires.crawl scrapePage fuel =
        some { tractors := listingsOf scrapePage 1 (k - 1), fetched := pagesFrom 1 k }) ∧
    (∀ (scrapePage : Int → List Main2.Tractor) (k fuel : Nat),
      1 ≤ k → (k : Int) < 2 ^ 63 →
      (∀ p : Nat, 1 ≤ p → p < k → scrapePage p ≠ []) → scrapePage k = [] → k ≤ fuel →
      Main2.crawl scrapePage fuel =
        some { tractors := listingsOf scrapePage 1 (k - 1), fetched := pagesFrom 1 k }) ∧
    (∀ (scrapePage : Int → List Mainurls.Tractor) (k fuel : Nat),
      1 ≤ k → (k : Int) < 2 ^ 63 →
      (∀ p : Nat, 1 ≤ p → p < k → scrapePage p ≠ []) → scrapePage k = [] → k ≤ fuel →
      Mainurls.crawl scrapePage fuel =
        some { tractors := listingsOf scrapePage 1 (k - 1), fetched := pagesFrom 1 k }) ∧
    (∀ (scrapePage : Int → List Mainurls2.Tractor) (k fuel : Nat),
      1 ≤ k → (k : Int) < 2 ^ 63 →
      (∀ p : Nat, 1 ≤ p → p < k → scrapePage p ≠ []) → scrapePage k = [] → k ≤ fuel →
      Mainurls2.crawl scrapePage fuel =
        some { tractors := listingsOf scrapePage 1 (k - 1), fetched := pagesFrom 1 k }) :=
  ⟨fun sp k fuel => crawlUntilEmpty_first_empty sp k fuel,
    fun sp k fuel => crawlUntilEmpty_first_empty sp k fuel,
    fun sp k fuel => crawlUntilEmpty_first_empty sp k fuel,
    fun sp k fuel => crawlUntilEmpty_first_empty sp k fuel⟩

theorem crawl_stops_at_first_empty_page_witness :
    Main2.crawl
        (fun p => if p < 3 then
          [{ Title := "T", Price := "", OriginalPrice := "", PriceExclVAT := "", HP := "",
             Year := "", WorkingHours := "", Dealer := "", Location := "", ImageURL := "",
             Details := "" }] else []) 5 =
      some { tractors := listingsOf
               (fun p => if p < 3 then
                 [{ Title := "T", Price := "", OriginalPrice := "", PriceExclVAT := "", HP := "",
                    Year := "", WorkingHours := "", Dealer := "", Location := "", ImageURL := "",
                    Details := "" }] else []) 1 (3 - 1)
             fetched := pagesFrom 1 3 } :=
  crawl_stops_at_first_empty_page.2.1 _ 3 5 (by decide) (by decide)
    (by intro p h1 h2; interval_cases p <;> simp) (by simp) (by decide)

/-- C7: in the crawl loop of agriaffaires1.2.go and agriaffaires2.go, when the pages 1..k
are fetched successfully and page `k` (`k ≥ 1`, a Go `int`) is the first one that has zero
listings or no next-page control, the loop terminates once it is given `k` iterations:
`scrapePage` has been called for exactly the pages 1..k, none later, and the accumulated
list is the concatenation of the listings of the pages 1..k, page `k` included. -/
theorem crawl_stops_at_first_page_without_next :
    (∀ (scrapePage : Int → Except String (List Agriaffaires1_2.Tractor × Bool))
        (pages : Int → List Agriaffaires1_2.Tractor × Bool) (k fuel : Nat),
      1 ≤ k → (k : Int) < 2 ^ 63 →
      (∀ p : Nat, 1 ≤ p → p ≤ k → scrapePage p = Except.ok (pages p)) →
      (∀ p : Nat, 1 ≤ p → p < k → (pages p).1 ≠ [] ∧ (pages p).2 = true) →
      ((pages k).1 = [] ∨ (pages k).2 = false) → k ≤ fuel →
      Agriaffaires1_2.crawl scrapePage fuel =
        some { tractors := listingsOf (fun p => (pages p).1) 1 k, fetched := pagesFrom 1 k }) ∧
    (∀ (scrapePage : Int → Except String (List Agriaffaires2.Tractor × Bool))
        (pages : Int → List Agriaffaires2.Tractor × Bool) (k fuel : Nat),
      1 ≤ k → (k : Int) < 2 ^ 63 →
      (∀ p : Nat, 1 ≤ p → p ≤ k → scrapePage p = Except.ok (pages p)) →
      (∀ p : Nat, 1 ≤ p → p < k → (pages p).1 ≠ [] ∧ (pages p).2 = true) →
      ((pages k).1 = [] ∨ (pages k).2 = false) → k ≤ fuel →
      Agriaffaires2.crawl scrapePage fuel =
        some { tractors := listingsOf (fun p => (pages p).1) 1 k, fetched := pagesFrom 1 k }) :=
  ⟨fun sp pages k fuel => crawlUntilLast_first_last sp pages k fuel,
    fun sp pages k fuel => crawlUntilLast_first_last sp pages k fuel⟩

theorem crawl_stops_at_first_page_without_next_witness :
    Agriaffaires1_2.crawl
        (fun p => Except.ok
          ([{ Title := "T", Price := "", ReferencePrice := "", ReferenceCurrency := "",
              DisplayedCurrency := "", PriceType := "", Location := "", Dealer := "",
              ImageURL := "", DetailURL := "", Description := "", Details := [] }],
            decide (p < 2))) 4 =
      some { tractors := listingsOf
               (fun _ : Int =>
                 [({ Title := "T", Price := "", ReferencePrice := "", ReferenceCurrency := "",
                     DisplayedCurrency := "", PriceType := "", Location := "", Dealer := "",
                     ImageURL := "", DetailURL := "", Description := "", Details := [] } :
                   Agriaffaires1_2.Tractor)]) 1 2
             fetched := pagesFrom 1 2 } :=
  crawl_stops_at_first_page_without_next.1 _
    (fun p =>
      ([{ Title := "T", Price := "", ReferencePrice := "", ReferenceCurrency := "",
          DisplayedCurrency := "", PriceType := "", Location := "", Dealer := "",
          ImageURL := "", DetailURL := "", Description := "", Details := [] }],
        decide (p < 2))) 2 4 (by decide) (by decide)
    (by intro p _ _; rfl)
    (by intro p h1 h2; interval_cases p; simp)
    (by simp) (by decide)

/-! ## Dynamic attribute parsing -/

theorem GoMap.get_set_self (m : GoMap) (k v : String) : (m.set k v).get k = some v := by
  induction m with
  | nil => simp [GoMap.set, GoMap.get]
  | cons p rest ih =>
    obtain ⟨k', v'⟩ := p
    by_cases h : k' = k
    · simp [GoMap.set, GoMap.get, h]
    · simp [GoMap.set, GoMap.get, h, ih]

theorem GoMap.get_set_of_ne (m : GoMap) (k v x : String) (hx : x ≠ k) :
    (m.set k v).get x = m.get x := by
  induction m with
  | nil =>
    have : ¬ k = x := fun e => hx e.symm
    simp [GoMap.set, GoMap.get, this]
  | cons p rest ih =>
    obtain ⟨k', v'⟩ := p
    by_cases h : k' = k
    · have : ¬ k = x := fun e => hx e.symm
      simp [GoMap.set, GoMap.get, h, this]
    · by_cases h' : k' = x
      · subst h'
        simp [GoMap.set, GoMap.get, h]
      · simp [GoMap.set, GoMap.get, h, h', ih]

theorem get_foldl_specRow (rows : List (String × String)) (d : GoMap) (k v : String)
    (h : (rows.foldl specRow d).get k = some v) :
    d.get k = some v ∨
      (k ≠ "" ∧ v ≠ "" ∧ ∃ row ∈ rows, TrimSpace row.1 = k ∧ TrimSpace row.2 = v) := by
  induction rows generalizing d with
  | nil => exact Or.inl h
  | cons row rest ih =>
    rcases ih (specRow d row) h with h1 | ⟨hk, hv, r, hr, e⟩
    · unfold specRow at h1
      by_cases hc : TrimSpace row.1 ≠ "" ∧ TrimSpace row.2 ≠ ""
      · simp only [hc, ne_eq, not_false_eq_true, and_self, if_true] at h1
        by_cases hx : k = TrimSpace row.1
        · subst hx
          rw [GoMap.get_set_self] at h1
          have hv : TrimSpace row.2 = v := Option.some.inj h1
          exact Or.inr ⟨hc.1, hv ▸ hc.2, row, List.mem_cons_self _ _, rfl, hv⟩
        · rw [GoMap.get_set_of_ne _ _ _ _ hx] at h1
          exact Or.inl h1
      · simp only [hc, if_false] at h1
        exact Or.inl h1
    · exact Or.inr ⟨hk, hv, r, List.mem_cons_of_mem _ hr, e⟩

/-! ## Trimming -/

theorem trimChars_eq_rdropWhile (l : List Char) :
    trimChars l = (l.dropWhile isSpace).rdropWhile isSpace := rfl

theorem dropWhile_head_not (p : Char → Bool) (l : List Char) (c : Char)
    (h : (l.dropWhile p).head? = some c) : p c = false := by
  have := List.head?_dropWhile_not p l
  rw [h] at this
  exact this

theorem trimChars_getLast (l : List Char) (c : Char) (h : (trimChars l).getLast? = some c) :
    isSpace c = false := by
  unfold trimChars at h
  rw [List.getLast?_reverse] at h
  exact dropWhile_head_not _ _ _ h

theorem trimChars_head (l : List Char) (c : Char) (h : (trimChars l).head? = some c) :
    isSpace c = false := by
  rw [trimChars_eq_rdropWhile] at h
  obtain ⟨t, ht⟩ := List.rdropWhile_prefix isSpace (l.dropWhile isSpace)
  apply dropWhile_head_not isSpace l c
  rw [← ht]
  cases hr : List.rdropWhile isSpace (List.dropWhile isSpace l) with
  | nil => rw [hr] at h; simp at h
  | cons a r => rw [hr] at h; simpa using h

theorem trimChars_sublist (l : List Char) : (trimChars l).Sublist l := by
  rw [trimChars_eq_rdropWhile]
  exact ((List.rdropWhile_prefix isSpace _).sublist).trans (List.dropWhile_suffix isSpace).sublist

theorem trimChars_of_trimmed (l : List Char)
    (hh : ∀ c, l.head? = some c → isSpace c = false)
    (hl : ∀ c, l.getLast? = some c → isSpace c = false) : trimChars l = l := by
  have h1 : l.dropWhile isSpace = l := by
    cases l with
    | nil => rfl
    | cons a r => simp [List.dropWhile, hh a rfl]
  rw [trimChars_eq_rdropWhile, h1, List.rdropWhile_eq_self_iff]
  intro hne
  have := hl (l.getLast hne) (List.getLast?_eq_getLast _ hne)
  simp [this]

theorem trimChars_idem (l : List Char) : trimChars (trimChars l) = trimChars l :=
  trimChars_of_trimmed _ (trimChars_head l) (trimChars_getLast l)

theorem noLeadingSpace_TrimSpace (s : String) : NoLeadingSpace (TrimSpace s) :=
  fun c h => trimChars_head s.data c h

theorem noTrailingSpace_TrimSpace (s : String) : NoTrailingSpace (TrimSpace s) :=
  fun c h => trimChars_getLast s.data c h

theorem getLast?_eq_some_iff_suffix (l : List Char) (c : Char) :
    l.getLast? = some c ↔ [c] <:+ l := by
  constructor
  · intro h
    obtain ⟨u, hu⟩ := List.getLast?_eq_some_iff.1 h
    exact ⟨u, hu.symm⟩
  · rintro ⟨u, hu⟩
    rw [← hu]
    simp

/-! ## The table parsers of the single-page scrapers -/

/-- The key computed by agriaffaires1.11test.go and agriaffaires1.13test.go, on code
points: trim, drop one trailing colon, trim again. -/
theorem rowKey_chars_not_endsWithColon (l : List Char) (hcount : l.count ':' ≤ 1) :
    (TrimSpace (TrimSuffix (TrimSpace ⟨l⟩) ":")).data.getLast? ≠ some ':' := by
  have hsub : (trimChars l).count ':' ≤ 1 :=
    le_trans ((trimChars_sublist l).count_le ':') hcount
  unfold TrimSuffix HasSuffix
  by_cases hs : (":" : String).data.isSuffixOf (TrimSpace ⟨l⟩).data = true
  · rw [if_pos hs]
    have hs' : [':'] <:+ trimChars l := by
      have := List.isSuffixOf_iff_suffix.1 hs
      exact this
    obtain ⟨u, hu⟩ := hs'
    have htake : (TrimSpace ⟨l⟩).data.take
        ((TrimSpace ⟨l⟩).data.length - (":" : String).data.length) = u := by
      show (trimChars l).take ((trimChars l).length - 1) = u
      rw [← hu]
      simp
    rw [htake]
    intro hlast
    have hmem : ':' ∈ trimChars u := List.mem_of_getLast?_eq_some hlast
    have hmemu : ':' ∈ u := (trimChars_sublist u).subset hmem
    have hc : 0 < u.count ':' := List.count_pos_iff.2 hmemu
    rw [← hu, List.count_append] at hsub
    simp at hsub
    omega
  · rw [if_neg hs]
    intro hlast
    apply hs
    have hidem : (TrimSpace (TrimSpace ⟨l⟩)).data = trimChars l := trimChars_idem l
    rw [hidem] at hlast
    exact List.isSuffixOf_iff_suffix.2 ((getLast?_eq_some_iff_suffix _ _).1 hlast)

theorem head?_dropWhile_eq_some_iff (p : Char → Bool) (m : List Char) (c : Char) :
    (m.dropWhile p).head? = some c ↔
      p c = false ∧ ∃ as bs, m = as ++ c :: bs ∧ ∀ a ∈ as, p a = true := by
  induction m with
  | nil => simp
  | cons x xs ih =>
    by_cases hx : p x = true
    · rw [List.dropWhile_cons_of_pos hx, ih]
      constructor
      · rintro ⟨hc, as, bs, rfl, has⟩
        refine ⟨hc, x :: as, bs, rfl, ?_⟩
        intro a ha
        rcases List.mem_cons.1 ha with rfl | ha
        · exact hx
        · exact has a ha
      · rintro ⟨hc, as, bs, h, has⟩
        cases as with
        | nil =>
          simp only [List.nil_append, List.cons.injEq] at h
          rw [← h.1, hx] at hc
          exact absurd hc (by simp)
        | cons a as' =>
          simp only [List.cons_append, List.cons.injEq] at h
          exact ⟨hc, as', bs, h.2, fun b hb => has b (List.mem_cons_of_mem _ hb)⟩
    · rw [List.dropWhile_cons_of_neg hx]
      simp only [List.head?_cons, Option.some.injEq]
      constructor
      · rintro rfl
        exact ⟨by simpa using hx, [], xs, rfl, by simp⟩
      · rintro ⟨-, as, bs, h, has⟩
        cases as with
        | nil =>
          simp only [List.nil_append, List.cons.injEq] at h
          exact h.1
        | cons a as' =>
          simp only [List.cons_append, List.cons.injEq] at h
          exact absurd (has a (List.mem_cons_self _ _)) (h.1 ▸ hx)

theorem dropWhile_append_cons_of_not (p : Char → Bool) (pre ws : List Char) (c : Char)
    (hc : p c = false) : ∃ rest, (pre ++ c :: ws).dropWhile p = rest ++ c :: ws := by
  induction pre with
  | nil => exact ⟨[], by simp [List.dropWhile, hc]⟩
  | cons x xs ih =>
    by_cases hx : p x = true
    · obtain ⟨rest, h⟩ := ih
      exact ⟨rest, by rw [List.cons_append, List.dropWhile_cons_of_pos hx, h]⟩
    · exact ⟨x :: xs, by rw [List.cons_append, List.dropWhile_cons_of_neg hx]⟩

/-- The trimmed text ends with the character `c`, not a space, exactly when the text is
`c` followed by white space only, after anything. -/
theorem trimChars_getLast?_eq_some_iff (u : List Char) (c : Char) (hc : isSpace c = false) :
    (trimChars u).getLast? = some c ↔
      ∃ pre ws, u = pre ++ c :: ws ∧ ∀ x ∈ ws, isSpace x = true := by
  unfold trimChars
  rw [List.getLast?_reverse, head?_dropWhile_eq_some_iff]
  constructor
  · rintro ⟨-, as, bs, h, has⟩
    have h' : u.dropWhile isSpace = bs.reverse ++ c :: as.reverse := by
      have := congrArg List.reverse h
      simpa using this
    refine ⟨u.takeWhile isSpace ++ bs.reverse, as.reverse, ?_, ?_⟩
    · rw [List.append_assoc, ← h', List.takeWhile_append_dropWhile]
    · intro x hx
      exact has x (List.mem_reverse.1 hx)
  · rintro ⟨pre, ws, rfl, hws⟩
    obtain ⟨rest, hrest⟩ := dropWhile_append_cons_of_not isSpace pre ws c hc
    refine ⟨hc, ws.reverse, rest.reverse, ?_, ?_⟩
    · rw [hrest]
      simp
    · intro x hx
      exact hws x (List.mem_reverse.1 hx)

/-- The key computed by agriaffaires1.11test.go and agriaffaires1.13test.go ends with a
colon exactly when the trimmed first cell ends with a colon, white space and a colon. -/
theorem rowKey_chars_endsWithColon_iff (l : List Char) :
    (TrimSpace (TrimSuffix (TrimSpace ⟨l⟩) ":")).data.getLast? = some ':' ↔
      ∃ pre ws, trimChars l = pre ++ ':' :: (ws ++ [':']) ∧ ∀ c ∈ ws, isSpace c = true := by
  unfold TrimSuffix HasSuffix
  by_cases hs : (":" : String).data.isSuffixOf (TrimSpace ⟨l⟩).data = true
  · rw [if_pos hs]
    have hs' : [':'] <:+ trimChars l := List.isSuffixOf_iff_suffix.1 hs
    obtain ⟨u, hu⟩ := hs'
    have htake : (TrimSpace ⟨l⟩).data.take
        ((TrimSpace ⟨l⟩).data.length - (":" : String).data.length) = u := by
      show (trimChars l).take ((trimChars l).length - 1) = u
      rw [← hu]
      simp
    rw [htake]
    show (trimChars u).getLast? = some ':' ↔ _
    rw [trimChars_getLast?_eq_some_iff u ':' (by decide), ← hu]
    constructor
    · rintro ⟨pre, ws, rfl, hws⟩
      exact ⟨pre, ws, by simp, hws⟩
    · rintro ⟨pre, ws, h, hws⟩
      refine ⟨pre, ws, ?_, hws⟩
      have h' : u ++ [':'] = (pre ++ ':' :: ws) ++ [':'] := by simpa using h
      exact List.append_cancel_right h'
  · rw [if_neg hs]
    constructor
    · intro hlast
      exfalso
      apply hs
      have hidem : (TrimSpace (TrimSpace ⟨l⟩)).data = trimChars l := trimChars_idem l
      rw [hidem] at hlast
      exact List.isSuffixOf_iff_suffix.2 ((getLast?_eq_some_iff_suffix _ _).1 hlast)
    · rintro ⟨pre, ws, h, -⟩
      exfalso
      apply hs
      apply List.isSuffixOf_iff_suffix.2
      show [':'] <:+ trimChars l
      rw [h]
      exact ⟨pre ++ ':' :: ws, by simp⟩

theorem t17_isSome_get_foldl_tableRow (rows : List (String × String)) (d : GoMap) (x : String)
    (h : (d.get x).isSome = true) : ((rows.foldl Agriaffaires1_7test.tableRow d).get x).isSome = true := by
  induction rows generalizing d with
  | nil => exact h
  | cons row rest ih =>
    apply ih
    unfold Agriaffaires1_7test.tableRow
    by_cases hx : x = TrimSuffix (TrimSpace row.1) ":"
    · rw [hx, GoMap.get_set_self]
      rfl
    · rw [GoMap.get_set_of_ne _ _ _ _ hx]
      exact h

theorem t17_isSome_get_scrapeTable (rows : List (String × String)) (d : GoMap)
    (row : String × String) (hrow : row ∈ rows) :
    ((rows.foldl Agriaffaires1_7test.tableRow d).get (TrimSuffix (TrimSpace row.1) ":")).isSome = true := by
  induction rows generalizing d with
  | nil => simp at hrow
  | cons r rest ih =>
    rcases List.mem_cons.1 hrow with e | hmem
    · subst e
      rw [List.foldl_cons]
      apply t17_isSome_get_foldl_tableRow
      unfold Agriaffaires1_7test.tableRow
      rw [GoMap.get_set_self]
      rfl
    · exact ih _ hmem

theorem t18_isSome_get_foldl_tableRow (rows : List (String × String)) (d : GoMap) (x : String)
    (h : (d.get x).isSome = true) : ((rows.foldl Agriaffaires1_8test.tableRow d).get x).isSome = true := by
  induction rows generalizing d with
  | nil => exact h
  | cons row rest ih =>
    apply ih
    unfold Agriaffaires1_8test.tableRow
    by_cases hx : x = TrimSuffix (TrimSpace row.1) ":"
    · rw [hx, GoMap.get_set_self]
      rfl
    · rw [GoMap.get_set_of_ne _ _ _ _ hx]
      exact h

theorem t18_isSome_get_scrapeTable (rows : List (String × String)) (d : GoMap)
    (row : String × String) (hrow : row ∈ rows) :
    ((rows.foldl Agriaffaires1_8test.tableRow d).get (TrimSuffix (TrimSpace row.1) ":")).isSome = true := by
  induction rows generalizing d with
  | nil => simp at hrow
  | cons r rest ih =>
    rcases List.mem_cons.1 hrow with e | hmem
    · subst e
      rw [List.foldl_cons]
      apply t18_isSome_get_foldl_tableRow
      unfold Agriaffaires1_8test.tableRow
      rw [GoMap.get_set_self]
      rfl
    · exact ih _ hmem

theorem t111_get_foldl_tableRow (rows : List (String × String)) (d : GoMap) (k v : String)
    (h : (rows.foldl Agriaffaires1_11test.tableRow d).get k = some v) :
    d.get k = some v ∨
      (k ≠ "" ∧ v ≠ "" ∧ ∃ row ∈ rows, Agriaffaires1_11test.rowKey row.1 = k ∧ TrimSpace row.2 = v) := by
  induction rows generalizing d with
  | nil => exact Or.inl h
  | cons row rest ih =>
    rcases ih (Agriaffaires1_11test.tableRow d row) h with h1 | ⟨hk, hv, r, hr, e⟩
    · unfold Agriaffaires1_11test.tableRow at h1
      by_cases hc : Agriaffaires1_11test.rowKey row.1 = "" ∨ TrimSpace row.2 = ""
      · simp only [hc, if_true] at h1
        exact Or.inl h1
      · simp only [hc, if_false] at h1
        have hc' := not_or.1 hc
        by_cases hx : k = Agriaffaires1_11test.rowKey row.1
        · subst hx
          rw [GoMap.get_set_self] at h1
          have hv : TrimSpace row.2 = v := Option.some.inj h1
          exact Or.inr ⟨hc'.1, hv ▸ hc'.2, row, List.mem_cons_self _ _, rfl, hv⟩
        · rw [GoMap.get_set_of_ne _ _ _ _ hx] at h1
          exact Or.inl h1
    · exact Or.inr ⟨hk, hv, r, List.mem_cons_of_mem _ hr, e⟩

theorem t113_get_foldl_tableRow (rows : List (String × String)) (d : GoMap) (k v : String)
    (h : (rows.foldl Agriaffaires1_13test.tableRow d).get k = some v) :
    d.get k = some v ∨
      (k ≠ "" ∧ v ≠ "" ∧ ∃ row ∈ rows, Agriaffaires1_13test.rowKey row.1 = k ∧ TrimSpace row.2 = v) := by
  induction rows generalizing d with
  | nil => exact Or.inl h
  | cons row rest ih =>
    rcases ih (Agriaffaires1_13test.tableRow d row) h with h1 | ⟨hk, hv, r, hr, e⟩
    · unfold Agriaffaires1_13test.tableRow at h1
      by_cases hc : Agriaffaires1_13test.rowKey row.1 = "" ∨ TrimSpace row.2 = ""
      · simp only [hc, if_true] at h1
        exact Or.inl h1
      · simp only [hc, if_false] at h1
        have hc' := not_or.1 hc
        by_cases hx : k = Agriaffaires1_13test.rowKey row.1
        · subst hx
          rw [GoMap.get_set_self] at h1
          have hv : TrimSpace row.2 = v := Option.some.inj h1
          exact Or.inr ⟨hc'.1, hv ▸ hc'.2, row, List.mem_cons_self _ _, rfl, hv⟩
        · rw [GoMap.get_set_of_ne _ _ _ _ hx] at h1
          exact Or.inl h1
    · exact Or.inr ⟨hk, hv, r, List.mem_cons_of_mem _ hr, e⟩

/-- C9 as stated fails: in agriaffaires1.7test.go and agriaffaires1.8test.go a row whose
key is empty after trimming, and a row whose value is empty after trimming, both add an
entry to `Details`. -/
theorem tableRow_stores_rows_with_empty_key_or_value :
    TrimSpace "  " = "" ∧
    Agriaffaires1_7test.scrapeTable [("  ", "x")] = [("", "x")] ∧
    Agriaffaires1_7test.scrapeTable [("Make:", "  ")] = [("Make", "")] ∧
    Agriaffaires1_8test.scrapeTable [("  ", "x")] = [("", "x")] ∧
    Agriaffaires1_8test.scrapeTable [("Make:", "  ")] = [("Make", "")] := by
  decide

/-- C9 amended: in the table parser of `scrapePage` in agriaffaires1.7test.go and
agriaffaires1.8test.go no row is skipped: every row, also one whose key or value is empty
after trimming, makes its key (the trimmed text of the first cell without one trailing
colon) map to the trimmed text of the last cell, and after the loop the key of every row
of the table is a key of `Details`. -/
theorem tableRow_stores_every_row :
    (∀ (d : GoMap) (row : String × String),
      (Agriaffaires1_7test.tableRow d row).get (TrimSuffix (TrimSpace row.1) ":") =
        some (TrimSpace row.2)) ∧
    (∀ (rows : List (String × String)) (row : String × String), row ∈ rows →
      ((Agriaffaires1_7test.scrapeTable rows).get
        (TrimSuffix (TrimSpace row.1) ":")).isSome = true) ∧
    (∀ (d : GoMap) (row : String × String),
      (Agriaffaires1_8test.tableRow d row).get (TrimSuffix (TrimSpace row.1) ":") =
        some (TrimSpace row.2)) ∧
    (∀ (rows : List (String × String)) (row : String × String), row ∈ rows →
      ((Agriaffaires1_8test.scrapeTable rows).get
        (TrimSuffix (TrimSpace row.1) ":")).isSome = true) :=
  ⟨fun _ _ => GoMap.get_set_self _ _ _,
    fun rows row h => t17_isSome_get_scrapeTable rows [] row h,
    fun _ _ => GoMap.get_set_self _ _ _,
    fun rows row h => t18_isSome_get_scrapeTable rows [] row h⟩

theorem tableRow_stores_every_row_witness :
    ((Agriaffaires1_7test.scrapeTable [("Make:", "Fordson"), ("  ", "")]).get
      (TrimSuffix (TrimSpace "  ") ":")).isSome = true :=
  tableRow_stores_every_row.2.1 [("Make:", "Fordson"), ("  ", "")] ("  ", "") (by decide)

/-- C10 as stated fails: in agriaffaires1.11test.go and agriaffaires1.13test.go the first
cell `Key::` is stored under the key `Key:`, which ends with a colon. -/
theorem rowKey_may_end_with_colon :
    Agriaffaires1_11test.scrapeTable [("Key::", "v")] = [("Key:", "v")] ∧
    Agriaffaires1_13test.scrapeTable [("Key::", "v")] = [("Key:", "v")] ∧
    EndsWithColon "Key:" := by
  refine ⟨by decide, by decide, ?_⟩
  unfold EndsWithColon
  decide

/-- C10 amended: in `scrapePage` of agriaffaires1.11test.go and agriaffaires1.13test.go,
every key stored in `Details` is the key computed from the first cell of one of the rows;
for every first-cell text that key has no leading and no trailing white space, and it ends
with a colon exactly when the trimmed text ends with a colon, white space (possibly none)
and a colon: one trailing colon is removed, not all of them. -/
theorem rowKey_trimmed_and_one_colon_removed :
    (∀ first : String,
      NoLeadingSpace (Agriaffaires1_11test.rowKey first) ∧
      NoTrailingSpace (Agriaffaires1_11test.rowKey first) ∧
      (EndsWithColon (Agriaffaires1_11test.rowKey first) ↔
        ∃ pre ws : List Char, (TrimSpace first).data = pre ++ ':' :: (ws ++ [':']) ∧
          ∀ c ∈ ws, isSpace c = true)) ∧
    (∀ (rows : List (String × String)) (k v : String),
      (Agriaffaires1_11test.scrapeTable rows).get k = some v →
      ∃ row ∈ rows, Agriaffaires1_11test.rowKey row.1 = k) ∧
    (∀ first : String,
      NoLeadingSpace (Agriaffaires1_13test.rowKey first) ∧
      NoTrailingSpace (Agriaffaires1_13test.rowKey first) ∧
      (EndsWithColon (Agriaffaires1_13test.rowKey first) ↔
        ∃ pre ws : List Char, (TrimSpace first).data = pre ++ ':' :: (ws ++ [':']) ∧
          ∀ c ∈ ws, isSpace c = true)) ∧
    (∀ (rows : List (String × String)) (k v : String),
      (Agriaffaires1_13test.scrapeTable rows).get k = some v →
      ∃ row ∈ rows, Agriaffaires1_13test.rowKey row.1 = k) := by
  refine ⟨fun first => ⟨noLeadingSpace_TrimSpace _, noTrailingSpace_TrimSpace _, ?_⟩,
    fun rows k v h => ?_,
    fun first => ⟨noLeadingSpace_TrimSpace _, noTrailingSpace_TrimSpace _, ?_⟩,
    fun rows k v h => ?_⟩
  · exact rowKey_chars_endsWithColon_iff first.data
  · rcases t111_get_foldl_tableRow rows [] k v h with h0 | ⟨-, -, row, hrow, e, -⟩
    · simp [GoMap.get] at h0
    · exact ⟨row, hrow, e⟩
  · exact rowKey_chars_endsWithColon_iff first.data
  · rcases t113_get_foldl_tableRow rows [] k v h with h0 | ⟨-, -, row, hrow, e, -⟩
    · simp [GoMap.get] at h0
    · exact ⟨row, hrow, e⟩

theorem rowKey_trimmed_and_one_colon_removed_witness :
    EndsWithColon (Agriaffaires1_11test.rowKey " Key: :  ") ∧
    ∃ row ∈ [("  Type of ad :  ", " Sale ")], Agriaffaires1_11test.rowKey row.1 = "Type of ad" :=
  ⟨(rowKey_trimmed_and_one_colon_removed.1 " Key: :  ").2.2.2
      ⟨['K', 'e', 'y'], [' '], by decide, by decide⟩,
    rowKey_trimmed_and_one_colon_removed.2.1 [("  Type of ad :  ", " Sale ")] "Type of ad"
      "Sale" (by decide)⟩

/-! ## aggriafaires.go: listing blocks, detail pages and `main` -/

theorem getElem?_detailLoop {α Doc : Type} (f : α → Option Doc → α) (detail : Nat → Option Doc)
    (start : Nat) (ts : List α) (n : Nat) :
    (detailLoop f detail start ts)[n]? = (ts[n]?).map (fun t => f t (detail (start + n))) := by
  induction ts generalizing start n with
  | nil => simp [detailLoop]
  | cons t rest ih =>
    cases n with
    | zero => simp [detailLoop]
    | succ n =>
      simp only [detailLoop, List.getElem?_cons_succ, ih]
      rw [show start + 1 + n = start + (n + 1) by omega]

theorem length_detailLoop {α Doc : Type} (f : α → Option Doc → α) (detail : Nat → Option Doc)
    (start : Nat) (ts : List α) : (detailLoop f detail start ts).length = ts.length := by
  induction ts generalizing start with
  | nil => rfl
  | cons t rest ih => simp [detailLoop, ih]

theorem agg_get_foldl_scrapeSpan (spans : List String) (d : GoMap) (k v : String)
    (h : (spans.foldl Aggriafaires.scrapeSpan d).get k = some v) :
    d.get k = some v ∨ ((k = "Power" ∨ k = "Year") ∧ v ∈ spans.map TrimSpace) := by
  induction spans generalizing d with
  | nil => exact Or.inl h
  | cons span rest ih =>
    rcases ih (Aggriafaires.scrapeSpan d span) h with h1 | ⟨hk, hv⟩
    · unfold Aggriafaires.scrapeSpan at h1
      by_cases hp : Contains (TrimSpace span) "hp" = true
      · rw [if_pos hp] at h1
        by_cases hx : k = "Power"
        · subst hx
          rw [GoMap.get_set_self] at h1
          exact Or.inr ⟨Or.inl rfl, by rw [← Option.some.inj h1]; simp⟩
        · rw [GoMap.get_set_of_ne _ _ _ _ hx] at h1
          exact Or.inl h1
      · rw [if_neg hp] at h1
        by_cases hy : Contains (TrimSpace span) "Year" = true
        · rw [if_pos hy] at h1
          by_cases hx : k = "Year"
          · subst hx
            rw [GoMap.get_set_self] at h1
            exact Or.inr ⟨Or.inr rfl, by rw [← Option.some.inj h1]; simp⟩
          · rw [GoMap.get_set_of_ne _ _ _ _ hx] at h1
            exact Or.inl h1
        · rw [if_neg hy] at h1
          exact Or.inl h1
    · exact Or.inr ⟨hk, by simp only [List.map_cons, List.mem_cons]; exact Or.inr hv⟩

/-- C11 as stated fails: for a listing block in which no selected element or attribute is
present, `DetailURL` is not the empty string but the site origin. -/
theorem scrapeBlock_missing_link_gives_origin :
    (Aggriafaires.scrapeBlock
      { title := none, price := none, localisation := none, category := none,
        pictureSrc := none, linkHref := none, descriptionSpans := [] }).DetailURL =
      "https://www.agriaffaires.co.uk" ∧
    "https://www.agriaffaires.co.uk" ≠ "" := by
  decide

/-- C11 amended: in `scrapePage` of aggriafaires.go, for every listing block in which none
of the selected elements or attributes is present, Title, Price, Location, Dealer and
ImageURL of the resulting record are the empty string and DetailURL is the site origin
`https://www.agriaffaires.co.uk`; no error is raised: every block of a parsed page yields
its record. -/
theorem scrapeBlock_missing_elements_give_empty_fields :
    (∀ s : Aggriafaires.ListingBlock,
      s.title = none → s.price = none → s.localisation = none → s.category = none →
      s.pictureSrc = none → s.linkHref = none →
      (Aggriafaires.scrapeBlock s).Title = "" ∧ (Aggriafaires.scrapeBlock s).Price = "" ∧
      (Aggriafaires.scrapeBlock s).Location = "" ∧ (Aggriafaires.scrapeBlock s).Dealer = "" ∧
      (Aggriafaires.scrapeBlock s).ImageURL = "" ∧
      (Aggriafaires.scrapeBlock s).DetailURL = "https://www.agriaffaires.co.uk") ∧
    (∀ (url : String) (doc : Aggriafaires.ListingDocument),
      Aggriafaires.scrapePage url (some doc) = doc.blocks.map Aggriafaires.scrapeBlock) := by
  refine ⟨fun s h1 h2 h3 h4 h5 h6 => ?_, fun _ _ => rfl⟩
  simp only [Aggriafaires.scrapeBlock, h1, h2, h3, h4, h5, h6]
  decide

theorem scrapeBlock_missing_elements_give_empty_fields_witness :
    (Aggriafaires.scrapeBlock
      { title := none, price := none, localisation := none, category := none,
        pictureSrc := none, linkHref := none, descriptionSpans := ["  "] }).Title = "" ∧
    (Aggriafaires.scrapeBlock
      { title := none, price := none, localisation := none, category := none,
        pictureSrc := none, linkHref := none, descriptionSpans := ["  "] }).DetailURL =
      "https://www.agriaffaires.co.uk" :=
  ⟨(scrapeBlock_missing_elements_give_empty_fields.1 _ rfl rfl rfl rfl rfl rfl).1,
    (scrapeBlock_missing_elements_give_empty_fields.1 _ rfl rfl rfl rfl rfl rfl).2.2.2.2.2⟩

/-- C12 as stated fails: a record whose listing block shows `50 hp` keeps the entry
`Power` in `Details` when its detail page cannot be fetched, so `Details` is not empty. -/
theorem scrapeDetailedPage_failure_keeps_summary_details :
    (Aggriafaires.scrapeDetailedPage
      (Aggriafaires.scrapeBlock
        { title := some "Fordson Major", price := some "1,500", localisation := none,
          category := none, pictureSrc := none, linkHref := some "/used/1.html",
          descriptionSpans := ["50 hp"] }) none).Details = [("Power", "50 hp")] ∧
    [("Power", "50 hp")] ≠ ([] : GoMap) := by
  decide

/-- C12 amended: in aggriafaires.go, when the fetch or the parse of a record's detail page
fails, `scrapeDetailedPage` leaves the record exactly as it was: the summary-page fields
are intact, `Description` is still the empty string `scrapePage` gave it, and `Details`
holds only what the summary page put there (entries `Power` and `Year` taken from the
description spans), nothing from the detail page.  `main` goes on: every record of the
crawl, before and after the failing one, passes through `scrapeDetailedPage` with its own
page, and `saveToCsv` is called on the resulting list. -/
theorem scrapeDetailedPage_failure_leaves_record :
    (∀ t : Aggriafaires.Tractor, Aggriafaires.scrapeDetailedPage t none = t) ∧
    (∀ s : Aggriafaires.ListingBlock,
      (Aggriafaires.scrapeBlock s).Description = "" ∧
      ∀ k v, (Aggriafaires.scrapeBlock s).Details.get k = some v →
        (k = "Power" ∨ k = "Year") ∧ v ∈ s.descriptionSpans.map TrimSpace) ∧
    (∀ (listing : Int → Option Aggriafaires.ListingDocument)
        (detail : Nat → Option DetailDocument) (sched : Aggriafaires.Schedule) (fuel : Nat)
        (r : CrawlResult Aggriafaires.Tractor),
      Aggriafaires.crawl
        (fun page => Aggriafaires.scrapePage (Aggriafaires.pageURL page) (listing page)) fuel =
          some r →
      ∃ ts : List Aggriafaires.Tractor,
        Aggriafaires.main listing detail sched fuel =
          some (ProcessOutcome.finished (Aggriafaires.saveToCsv sched ts)) ∧
        ts.length = r.tractors.length ∧
        ∀ (i : Nat) (t : Aggriafaires.Tractor), r.tractors[i]? = some t →
          ts[i]? = some (Aggriafaires.scrapeDetailedPage t (detail i)) ∧
          (detail i = none → ts[i]? = some t)) := by
  refine ⟨fun _ => rfl, fun s => ⟨rfl, fun k v h => ?_⟩, ?_⟩
  · rcases agg_get_foldl_scrapeSpan s.descriptionSpans [] k v h with h0 | h1
    · simp [GoMap.get] at h0
    · exact h1
  · intro listing detail sched fuel r hr
    refine ⟨detailLoop Aggriafaires.scrapeDetailedPage detail 0 r.tractors, ?_,
      length_detailLoop _ _ _ _, fun i t hi => ?_⟩
    · simp only [Aggriafaires.main, hr]
    · have h := getElem?_detailLoop Aggriafaires.scrapeDetailedPage detail 0 r.tractors i
      rw [hi] at h
      simp only [Option.map_some', Nat.zero_add] at h
      refine ⟨h, fun hd => ?_⟩
      rw [h, hd]
      rfl

theorem scrapeDetailedPage_failure_leaves_record_witness :
    (Aggriafaires.scrapeBlock
      { title := some "Fordson Major", price := none, localisation := none, category := none,
        pictureSrc := none, linkHref := none,
        descriptionSpans := ["50 hp", "Year 1960"] }).Details.get "Year" = some "Year 1960" ∧
    ("Year" = "Power" ∨ "Year" = "Year") ∧
    "Year 1960" ∈ ["50 hp", "Year 1960"].map TrimSpace :=
  ⟨by decide,
    (scrapeDetailedPage_failure_leaves_record.2.1
      { title := some "Fordson Major", price := none, localisation := none, category := none,
        pictureSrc := none, linkHref := none,
        descriptionSpans := ["50 hp", "Year 1960"] }).2 "Year" "Year 1960" (by decide)⟩

theorem get_foldl_specRow_of_no_kept_key (rows : List (String × String)) (d : GoMap) (k : String)
    (h : ∀ row ∈ rows, TrimSpace row.1 ≠ "" → TrimSpace row.2 ≠ "" → TrimSpace row.1 ≠ k) :
    (rows.foldl specRow d).get k = d.get k := by
  induction rows generalizing d with
  | nil => rfl
  | cons row rest ih =>
    rw [List.foldl_cons, ih _ (fun r hr => h r (List.mem_cons_of_mem _ hr))]
    unfold specRow
    by_cases hc : TrimSpace row.1 ≠ "" ∧ TrimSpace row.2 ≠ ""
    · rw [if_pos hc]
      exact GoMap.get_set_of_ne _ _ _ _
        (fun e => h row (List.mem_cons_self _ _) hc.1 hc.2 e.symm)
    · rw [if_neg hc]

theorem get_foldl_specRow_last_kept (pre post : List (String × String)) (row : String × String)
    (d : GoMap) (hk : TrimSpace row.1 ≠ "") (hv : TrimSpace row.2 ≠ "")
    (hpost : ∀ r ∈ post, TrimSpace r.1 ≠ "" → TrimSpace r.2 ≠ "" →
      TrimSpace r.1 ≠ TrimSpace row.1) :
    ((pre ++ row :: post).foldl specRow d).get (TrimSpace row.1) = some (TrimSpace row.2) := by
  rw [List.foldl_append, List.foldl_cons, get_foldl_specRow_of_no_kept_key post _ _ hpost]
  unfold specRow
  rw [if_pos ⟨hk, hv⟩]
  exact GoMap.get_set_self _ _ _

/-- C14: in `scrapeDetailedPage` of aggriafaires.go, for every record and every
successfully parsed detail page, Title, Price, Location, Dealer, ImageURL and DetailURL
are unchanged and Description becomes the trimmed description text; in `Details`, a key
that is not the key of a kept row (a row whose trimmed key and trimmed value are both
non-empty) keeps what it had, value or absence, and the key of a kept row maps to the
trimmed value of the last kept row with that key, whatever the summary page had set. -/
theorem scrapeDetailedPage_success_frame (t : Aggriafaires.Tractor) (doc : DetailDocument) :
    (Aggriafaires.scrapeDetailedPage t (some doc)).Title = t.Title ∧
    (Aggriafaires.scrapeDetailedPage t (some doc)).Price = t.Price ∧
    (Aggriafaires.scrapeDetailedPage t (some doc)).Location = t.Location ∧
    (Aggriafaires.scrapeDetailedPage t (some doc)).Dealer = t.Dealer ∧
    (Aggriafaires.scrapeDetailedPage t (some doc)).ImageURL = t.ImageURL ∧
    (Aggriafaires.scrapeDetailedPage t (some doc)).DetailURL = t.DetailURL ∧
    (Aggriafaires.scrapeDetailedPage t (some doc)).Description = TrimSpace doc.description ∧
    (∀ k : String,
      (∀ row ∈ doc.specRows, TrimSpace row.1 ≠ "" → TrimSpace row.2 ≠ "" →
        TrimSpace row.1 ≠ k) →
      (Aggriafaires.scrapeDetailedPage t (some doc)).Details.get k = t.Details.get k) ∧
    (∀ (pre post : List (String × String)) (row : String × String),
      doc.specRows = pre ++ row :: post →
      TrimSpace row.1 ≠ "" → TrimSpace row.2 ≠ "" →
      (∀ r ∈ post, TrimSpace r.1 ≠ "" → TrimSpace r.2 ≠ "" →
        TrimSpace r.1 ≠ TrimSpace row.1) →
      (Aggriafaires.scrapeDetailedPage t (some doc)).Details.get (TrimSpace row.1) =
        some (TrimSpace row.2)) := by
  refine ⟨rfl, rfl, rfl, rfl, rfl, rfl, rfl, fun k h => ?_, fun pre post row e hk hv hpost => ?_⟩
  · exact get_foldl_specRow_of_no_kept_key _ _ _ h
  · show (doc.specRows.foldl specRow t.Details).get (TrimSpace row.1) = some (TrimSpace row.2)
    rw [e]
    exact get_foldl_specRow_last_kept pre post row _ hk hv hpost

theorem scrapeDetailedPage_success_frame_witness :
    (Aggriafaires.scrapeDetailedPage
      { Title := "Fordson Major", Price := "1,500", Location := "UK", Dealer := "Smith",
        ImageURL := "i.jpg", DetailURL := "https://www.agriaffaires.co.uk/used/1.html",
        Description := "", Details := [("Power", "50 hp"), ("Year", "Year 1960")] }
      (some { description := " Good runner ",
              specRows := [("Power", "48 hp"), (" ", "x"), ("Power", " 52 hp "),
                ("Make", "Fordson"), ("Power", "")] })).Details.get (TrimSpace "Power") =
      some (TrimSpace " 52 hp ") :=
  (scrapeDetailedPage_success_frame _
    { description := " Good runner ",
      specRows := [("Power", "48 hp"), (" ", "x"), ("Power", " 52 hp "),
        ("Make", "Fordson"), ("Power", "")] }).2.2.2.2.2.2.2.2
    [("Power", "48 hp"), (" ", "x")] [("Make", "Fordson"), ("Power", "")] ("Power", " 52 hp ")
    rfl (by decide) (by decide) (by decide)

/-! ## Errors while crawling -/

/-- The loop ends within `n + 1` calls when the page `n` steps ahead comes back empty,
whatever the pages before it hold. -/
theorem crawlUntilEmpty_terminates {α : Type} (scrapePage : Int → List α) (n : Nat) :
    ∀ (page : Int) (acc : List α) (fetched : List Int) (fuel : Nat),
      1 ≤ page → page + n < 2 ^ 63 → scrapePage (page + n) = [] → n < fuel →
      ∃ r, crawlUntilEmpty scrapePage fuel page acc fetched = some r := by
  induction n with
  | zero =>
    intro page acc fetched fuel _ _ hlast hfuel
    obtain ⟨f, rfl⟩ : ∃ f, fuel = f + 1 := ⟨fuel - 1, by omega⟩
    simp only [Nat.cast_zero, add_zero] at hlast
    exact ⟨_, by simp only [crawlUntilEmpty, hlast, List.length_nil, if_true]; rfl⟩
  | succ n ih =>
    intro page acc fetched fuel h1 hmax hlast hfuel
    obtain ⟨f, rfl⟩ : ∃ f, fuel = f + 1 := ⟨fuel - 1, by omega⟩
    have hcast : ((n + 1 : Nat) : Int) = (n : Int) + 1 := by push_cast; ring
    by_cases h0 : (scrapePage page).length = 0
    · exact ⟨_, by simp only [crawlUntilEmpty, h0, if_true]; rfl⟩
    · have hw : wrapInt (page + 1) = page + 1 := wrapInt_of_bounds _ (by omega) (by omega)
      simp only [crawlUntilEmpty, h0, if_false, hw]
      apply ih (page + 1) _ _ f (by omega) (by omega) _ (by omega)
      rw [show page + 1 + (n : Int) = page + ((n + 1 : Nat) : Int) by push_cast; ring]
      exact hlast

/-- The loop ends within `n + 1` calls when the page `n` steps ahead comes back with an
error, whatever the pages before it hold. -/
theorem crawlUntilLast_terminates {α : Type} (scrapePage : Int → Except String (List α × Bool))
    (n : Nat) :
    ∀ (page : Int) (acc : List α) (fetched : List Int) (fuel : Nat),
      1 ≤ page → page + n < 2 ^ 63 → (∃ e, scrapePage (page + n) = Except.error e) →
      n < fuel → ∃ r, crawlUntilLast scrapePage fuel page acc fetched = some r := by
  induction n with
  | zero =>
    intro page acc fetched fuel _ _ hlast hfuel
    obtain ⟨f, rfl⟩ : ∃ f, fuel = f + 1 := ⟨fuel - 1, by omega⟩
    obtain ⟨e, he⟩ := hlast
    simp only [Nat.cast_zero, add_zero] at he
    exact ⟨_, by simp only [crawlUntilLast, he]; rfl⟩
  | succ n ih =>
    intro page acc fetched fuel h1 hmax hlast hfuel
    obtain ⟨f, rfl⟩ : ∃ f, fuel = f + 1 := ⟨fuel - 1, by omega⟩
    have hcast : ((n + 1 : Nat) : Int) = (n : Int) + 1 := by push_cast; ring
    have hw : wrapInt (page + 1) = page + 1 := wrapInt_of_bounds _ (by omega) (by omega)
    rcases hp : scrapePage page with e | ⟨ts, b⟩
    · exact ⟨_, by simp only [crawlUntilLast, hp]; rfl⟩
    · by_cases hstop : (ts.length = 0 || !b) = true
      · exact ⟨_, by simp only [crawlUntilLast, hp, hstop, if_true]; rfl⟩
      · simp only [crawlUntilLast, hp, hstop, hw]
        apply ih (page + 1) _ _ f (by omega) (by omega) _ (by omega)
        rw [show page + 1 + (n : Int) = page + ((n + 1 : Nat) : Int) by push_cast; ring]
        exact hlast

theorem crawlUntilEmpty_terminates_at {α : Type} (scrapePage : Int → List α) (k fuel : Nat)
    (hk : 1 ≤ k) (hmax : (k : Int) < 2 ^ 63) (hlast : scrapePage k = []) (hfuel : k ≤ fuel) :
    ∃ r, crawlUntilEmpty scrapePage fuel 1 [] [] = some r := by
  obtain ⟨n, rfl⟩ : ∃ n, k = n + 1 := ⟨k - 1, by omega⟩
  apply crawlUntilEmpty_terminates scrapePage n 1 [] [] fuel (le_refl 1)
    (by push_cast at hmax; omega) _ (by omega)
  rw [show (1 : Int) + (n : Int) = ((n + 1 : Nat) : Int) by push_cast; ring]
  exact hlast

theorem crawlUntilLast_terminates_at {α : Type}
    (scrapePage : Int → Except String (List α × Bool)) (k fuel : Nat)
    (hk : 1 ≤ k) (hmax : (k : Int) < 2 ^ 63) (hlast : ∃ e, scrapePage k = Except.error e)
    (hfuel : k ≤ fuel) :
    ∃ r, crawlUntilLast scrapePage fuel 1 [] [] = some r := by
  obtain ⟨n, rfl⟩ : ∃ n, k = n + 1 := ⟨k - 1, by omega⟩
  apply crawlUntilLast_terminates scrapePage n 1 [] [] fuel (le_refl 1)
    (by push_cast at hmax; omega) _ (by omega)
  rw [show (1 : Int) + (n : Int) = ((n + 1 : Nat) : Int) by push_cast; ring]
  exact hlast

/-- C13 as stated fails: in main.go, main1.go, agriaffaires1.2test.go and the single-page
scrapers agriaffaires1.5test.go, 1.7test.go, 1.8test.go and 1.11test.go a failed request
for the page ends the process through `log.Fatal`; nothing is output. -/
theorem main_fatal_when_page_fetch_fails :
    Main.main (fun _ : Unit => []) none = ProcessOutcome.fatal ∧
    Main1.main (fun _ : Unit => ([] : List Main2.Tractor)) none = ProcessOutcome.fatal ∧
    Agriaffaires1_2test.main (none : Option Unit) = ProcessOutcome.fatal ∧
    Agriaffaires1_5test.main (fun _ : Unit => ()) (Fetch.requestFailed "timeout") =
      ProcessOutcome.fatal ∧
    Agriaffaires1_7test.main (fun _ : Unit => ()) (Fetch.requestFailed "timeout") =
      ProcessOutcome.fatal ∧
    Agriaffaires1_8test.main (fun _ : Unit => ()) (Fetch.parseFailed "EOF") =
      ProcessOutcome.fatal ∧
    Agriaffaires1_11test.main (fun _ : Unit => ()) (Fetch.requestFailed "timeout") =
      ProcessOutcome.fatal :=
  ⟨rfl, rfl, rfl, rfl, rfl, rfl, rfl⟩

/-! ## Delays -/

/-- Rounding to a double moves a number by at most half a unit in the last place. -/
theorem roundFloat64_le (n : Nat) :
    roundFloat64 n ≤ n + 2 ^ (Nat.size n - 54) ∧ (Nat.size n ≤ 53 → roundFloat64 n = n) := by
  unfold roundFloat64
  by_cases hs : Nat.size n ≤ 53
  · simp only [hs, if_true, implies_true, and_true]
    exact Nat.le_add_right _ _
  · simp only [hs, if_false, false_implies, and_true]
    have hpow : 2 ^ (Nat.size n - 53) = 2 * 2 ^ (Nat.size n - 53 - 1) := by
      rw [← pow_succ']
      congr 1
      omega
    have hidx : Nat.size n - 54 = Nat.size n - 53 - 1 := by omega
    have hdm := Nat.div_add_mod n (2 ^ (Nat.size n - 53))
    rw [hidx]
    generalize 2 ^ (Nat.size n - 53 - 1) = P at *
    generalize 2 ^ (Nat.size n - 53) = S at *
    have hq : (n / S + 1) * S = S * (n / S) + S := by ring
    have hq' : n / S * S = S * (n / S) := by ring
    rw [hq, hq']
    generalize S * (n / S) = A at *
    generalize n % S = R at *
    split_ifs <;> omega

theorem delayNanos_bounds (baseDelay m e : Nat) (hm : m < 2 ^ 53) (hr : m < 2 ^ e) :
    baseDelay ≤ delayNanos baseDelay 2000000000 m e ∧
    delayNanos baseDelay 2000000000 m e < baseDelay + 2000000000 := by
  unfold delayNanos
  refine ⟨Nat.le_add_right _ _, ?_⟩
  apply Nat.add_lt_add_left
  rw [Nat.div_lt_iff_lt_mul (by positivity)]
  have hN : 2000000000 * m + 2000000000 ≤ 2000000000 * 2 ^ e := by
    have : m + 1 ≤ 2 ^ e := hr
    calc 2000000000 * m + 2000000000 = 2000000000 * (m + 1) := by ring
      _ ≤ 2000000000 * 2 ^ e := Nat.mul_le_mul_left _ this
  obtain ⟨hle, hexact⟩ := roundFloat64_le (2000000000 * m)
  by_cases hs : Nat.size (2000000000 * m) ≤ 53
  · rw [hexact hs]
    omega
  · have hsize : Nat.size (2000000000 * m) ≤ 84 := Nat.size_le.2 (by omega)
    have hp : 2 ^ (Nat.size (2000000000 * m) - 54) ≤ 2 ^ 30 :=
      Nat.pow_le_pow_right (by decide) (by omega)
    omega

/-- C15: for every random draw `r = m / 2 ^ e` of `rand.Float64()`, a double with
`0 ≤ r < 1`, the duration `delay()` sleeps is at least `baseDelay` and less than
`baseDelay + jitter`: from 2 s to under 4 s in aggriafaires.go and mainurls2.go, from 3 s
to under 5 s in mainurls.go (durations in nanoseconds). -/
theorem delay_at_least_base_below_base_plus_jitter (m e : Nat) (hm : m < 2 ^ 53)
    (hr : m < 2 ^ e) :
    (Aggriafaires.baseDelay ≤ Aggriafaires.delay m e ∧
      Aggriafaires.delay m e < Aggriafaires.baseDelay + Aggriafaires.jitter ∧
      2000000000 ≤ Aggriafaires.delay m e ∧ Aggriafaires.delay m e < 4000000000) ∧
    (Mainurls2.baseDelay ≤ Mainurls2.delay m e ∧
      Mainurls2.delay m e < Mainurls2.baseDelay + Mainurls2.jitter ∧
      2000000000 ≤ Mainurls2.delay m e ∧ Mainurls2.delay m e < 4000000000) ∧
    (Mainurls.baseDelay ≤ Mainurls.delay m e ∧
      Mainurls.delay m e < Mainurls.baseDelay + Mainurls.jitter ∧
      3000000000 ≤ Mainurls.delay m e ∧ Mainurls.delay m e < 5000000000) := by
  have h2 := delayNanos_bounds 2000000000 m e hm hr
  have h3 := delayNanos_bounds 3000000000 m e hm hr
  exact ⟨⟨h2.1, h2.2, h2.1, h2.2⟩, ⟨h2.1, h2.2, h2.1, h2.2⟩, ⟨h3.1, h3.2, h3.1, h3.2⟩⟩

theorem delay_at_least_base_below_base_plus_jitter_witness :
    (Aggriafaires.baseDelay ≤ Aggriafaires.delay (2 ^ 53 - 1) 53 ∧
      Aggriafaires.delay (2 ^ 53 - 1) 53 < Aggriafaires.baseDelay + Aggriafaires.jitter ∧
      2000000000 ≤ Aggriafaires.delay (2 ^ 53 - 1) 53 ∧
      Aggriafaires.delay (2 ^ 53 - 1) 53 < 4000000000) ∧
    (Mainurls2.baseDelay ≤ Mainurls2.delay (2 ^ 53 - 1) 53 ∧
      Mainurls2.delay (2 ^ 53 - 1) 53 < Mainurls2.baseDelay + Mainurls2.jitter ∧
      2000000000 ≤ Mainurls2.delay (2 ^ 53 - 1) 53 ∧
      Mainurls2.delay (2 ^ 53 - 1) 53 < 4000000000) ∧
    (Mainurls.baseDelay ≤ Mainurls.delay (2 ^ 53 - 1) 53 ∧
      Mainurls.delay (2 ^ 53 - 1) 53 < Mainurls.baseDelay + Mainurls.jitter ∧
      3000000000 ≤ Mainurls.delay (2 ^ 53 - 1) 53 ∧
      Mainurls.delay (2 ^ 53 - 1) 53 < 5000000000) :=
  delay_at_least_base_below_base_plus_jitter (2 ^ 53 - 1) 53 (by decide) (by decide)

/-- C16, the code on every draw: `rng.Intn(2)` is 0 or 1, so `randomDelay` sleeps 2 or 3
whole seconds and never 4. -/
theorem randomDelay_two_or_three_seconds :
    ∀ draw : Fin 2,
      (Agriaffaires1_13test.randomDelaySeconds draw = 2 ∨
        Agriaffaires1_13test.randomDelaySeconds draw = 3) ∧
      Agriaffaires1_13test.randomDelaySeconds draw ≠ 4 ∧
      Agriaffaires1_13test.randomDelay draw ≠ 4 * 1000000000 := by
  decide

/-! ## URLs -/

theorem offset_in_range (N : Nat) (h : N * 20 < 2 ^ 63) :
    wrapInt (wrapInt (((N : Int) + 1) - 1) * 20) = ((N * 20 : Nat) : Int) := by
  have h1 : wrapInt (((N : Int) + 1) - 1) = (N : Int) :=
    by rw [show ((N : Int) + 1) - 1 = (N : Int) by ring]
       exact wrapInt_of_bounds _ (by omega) (by omega)
  rw [h1, wrapInt_of_bounds _ (by omega) (by omega)]
  push_cast
  ring

/-- C17: the crawl loop requests, for page number `p`, the base URL followed by `?page=`
and the decimal `p` in aggriafaires.go; in main2.go, mainurls.go and mainurls2.go, for
every page `p ≥ 1` (a Go `int`), the base URL followed by `?offset=` and the decimal of
the `int` value `(p-1)*20`, so that the first request has offset 0 and the `N`-th page
after it has offset `N * 20`, as long as `N * 20` fits an `int`. -/
theorem crawl_requests_page_and_offset_urls :
    (∀ p : Nat, Aggriafaires.pageURL (p : Int) = Aggriafaires.baseURL ++ "?page=" ++ Nat.repr p) ∧
    (∀ p : Int, 1 ≤ p → p < 2 ^ 63 →
      Main2.pageURL p = Main2.baseURL ++ "?offset=" ++ formatInt (wrapInt ((p - 1) * 20))) ∧
    (∀ N : Nat, N * 20 < 2 ^ 63 →
      Main2.pageURL ((N : Int) + 1) = Main2.baseURL ++ "?offset=" ++ Nat.repr (N * 20)) ∧
    (∀ p : Int, 1 ≤ p → p < 2 ^ 63 →
      Mainurls.pageURL p = Mainurls.baseURL ++ "?offset=" ++ formatInt (wrapInt ((p - 1) * 20))) ∧
    (∀ N : Nat, N * 20 < 2 ^ 63 →
      Mainurls.pageURL ((N : Int) + 1) = Mainurls.baseURL ++ "?offset=" ++ Nat.repr (N * 20)) ∧
    (∀ p : Int, 1 ≤ p → p < 2 ^ 63 →
      Mainurls2.pageURL p =
        Mainurls2.baseURL ++ "?offset=" ++ formatInt (wrapInt ((p - 1) * 20))) ∧
    (∀ N : Nat, N * 20 < 2 ^ 63 →
      Mainurls2.pageURL ((N : Int) + 1) =
        Mainurls2.baseURL ++ "?offset=" ++ Nat.repr (N * 20)) := by
  refine ⟨fun p => rfl, fun p h1 h2 => ?_, fun N h => ?_, fun p h1 h2 => ?_, fun N h => ?_,
    fun p h1 h2 => ?_, fun N h => ?_⟩
  · unfold Main2.pageURL
    rw [wrapInt_of_bounds (p - 1) (by omega) (by omega)]
  · unfold Main2.pageURL
    rw [offset_in_range N h]
    rfl
  · unfold Mainurls.pageURL
    rw [wrapInt_of_bounds (p - 1) (by omega) (by omega)]
  · unfold Mainurls.pageURL
    rw [offset_in_range N h]
    rfl
  · unfold Mainurls2.pageURL
    rw [wrapInt_of_bounds (p - 1) (by omega) (by omega)]
  · unfold Mainurls2.pageURL
    rw [offset_in_range N h]
    rfl

theorem crawl_requests_page_and_offset_urls_witness :
    Main2.pageURL ((0 : Nat) + 1) =
      "https://www.landwirt.com/en/used-farm-machinery/tractors.html?offset=0" ∧
    Main2.pageURL ((3 : Nat) + 1) = Main2.baseURL ++ "?offset=" ++ Nat.repr (3 * 20) ∧
    Nat.repr (3 * 20) = "60" :=
  ⟨crawl_requests_page_and_offset_urls.2.2.1 0 (by decide),
    crawl_requests_page_and_offset_urls.2.2.1 3 (by decide), by decide⟩

/-! ## Determinism of `scrapePage` -/

/-- C18: for a fixed listing-page document, `scrapePage` of aggriafaires.go and of
agriaffaires2.go returns the same records with the same field values on every run.  Two
runs may differ in the URL requested, in the server that answers and (agriaffaires2.go) in
the user agent drawn at random; whenever both parse the same document they return equal
lists of records (and the same next-page flag): one record for each listing block, in
document order, each computed from its own block. -/
theorem scrapePage_same_document_same_records :
    (∀ (url₁ url₂ : String) (get₁ get₂ : String → Option Aggriafaires.ListingDocument)
        (doc : Aggriafaires.ListingDocument),
      get₁ url₁ = some doc → get₂ url₂ = some doc →
      Aggriafaires.scrapePage url₁ (get₁ url₁) = Aggriafaires.scrapePage url₂ (get₂ url₂) ∧
      Aggriafaires.scrapePage url₁ (get₁ url₁) = doc.blocks.map Aggriafaires.scrapeBlock ∧
      (Aggriafaires.scrapePage url₁ (get₁ url₁)).length = doc.blocks.length ∧
      ∀ i : Nat, (Aggriafaires.scrapePage url₁ (get₁ url₁))[i]? =
        (doc.blocks[i]?).map Aggriafaires.scrapeBlock) ∧
    (∀ (url₁ url₂ : String) (draw₁ draw₂ : Fin 3)
        (serve₁ serve₂ : Agriaffaires2.Request → Fetch Agriaffaires2.ListingDocument)
        (doc : Agriaffaires2.ListingDocument),
      serve₁ { url := url₁, userAgent := Agriaffaires2.getRandomUserAgent draw₁ } =
        Fetch.parsed doc →
      serve₂ { url := url₂, userAgent := Agriaffaires2.getRandomUserAgent draw₂ } =
        Fetch.parsed doc →
      Agriaffaires2.scrapePage url₁ draw₁ serve₁ = Agriaffaires2.scrapePage url₂ draw₂ serve₂ ∧
      Agriaffaires2.scrapePage url₁ draw₁ serve₁ =
        Except.ok (doc.blocks.map Agriaffaires2.scrapeBlock, Agriaffaires2.hasNextPage doc) ∧
      (doc.blocks.map Agriaffaires2.scrapeBlock).length = doc.blocks.length ∧
      ∀ i : Nat, (doc.blocks.map Agriaffaires2.scrapeBlock)[i]? =
        (doc.blocks[i]?).map Agriaffaires2.scrapeBlock) := by
  refine ⟨fun url₁ url₂ get₁ get₂ doc h₁ h₂ => ?_,
    fun url₁ url₂ draw₁ draw₂ serve₁ serve₂ doc h₁ h₂ => ?_⟩
  · rw [h₁, h₂]
    exact ⟨rfl, rfl, List.length_map _ _, fun i => List.getElem?_map _ _ _⟩
  · refine ⟨?_, ?_, List.length_map _ _, fun i => List.getElem?_map _ _ _⟩
    · simp only [Agriaffaires2.scrapePage, h₁, h₂]
    · simp only [Agriaffaires2.scrapePage, h₁]

theorem scrapePage_same_document_same_records_witness :
    Agriaffaires2.scrapePage "https://www.agriaffaires.co.uk/a.html?page=1" 0
        (fun request =>
          if request.userAgent = Agriaffaires2.getRandomUserAgent 0 then
            Fetch.parsed
              { blocks :=
                  [{ title := some " Fordson Major ", listingPrice := some "1,500 €",
                     localisation := some "Leeds", category := some "Farm tractor",
                     pictureSrc := some "/img/1.jpg", linkHref := some "/used/1.html",
                     priceToChange := some " 1,500 ", referencePrice := some "1500",
                     referenceCurrency := some "EUR", currencyToChange := some "€",
                     vatText := some "excl. VAT",
                     descriptionSpans := [" 52 hp ", "Year 1960", "4,000 h"],
                     dealerName := some " Smith Ltd ", dealerLocation := some "Leeds",
                     phones := [" 0113 496 0000 ", "07700 900000"] },
                   { title := none, listingPrice := none, localisation := none,
                     category := none, pictureSrc := none,
                     linkHref := some "https://example.org/2.html", priceToChange := none,
                     referencePrice := none, referenceCurrency := none,
                     currencyToChange := none, vatText := none, descriptionSpans := [],
                     dealerName := none, dealerLocation := none, phones := [] }]
                paginationLinks := ["1", " Next "] }
          else Fetch.requestFailed "403") =
      Agriaffaires2.scrapePage "https://www.agriaffaires.co.uk/a.html?page=7" 2
        (fun _ =>
          Fetch.parsed
            { blocks :=
                [{ title := some " Fordson Major ", listingPrice := some "1,500 €",
                   localisation := some "Leeds", category := some "Farm tractor",
                   pictureSrc := some "/img/1.jpg", linkHref := some "/used/1.html",
                   priceToChange := some " 1,500 ", referencePrice := some "1500",
                   referenceCurrency := some "EUR", currencyToChange := some "€",
                   vatText := some "excl. VAT",
                   descriptionSpans := [" 52 hp ", "Year 1960", "4,000 h"],
                   dealerName := some " Smith Ltd ", dealerLocation := some "Leeds",
                   phones := [" 0113 496 0000 ", "07700 900000"] },
                 { title := none, listingPrice := none, localisation := none,
                   category := none, pictureSrc := none,
                   linkHref := some "https://example.org/2.html", priceToChange := none,
                   referencePrice := none, referenceCurrency := none,
                   currencyToChange := none, vatText := none, descriptionSpans := [],
                   dealerName := none, dealerLocation := none, phones := [] }]
              paginationLinks := ["1", " Next "] }) ∧
    Agriaffaires2.scrapePage "https://www.agriaffaires.co.uk/a.html?page=7" 2
        (fun _ =>
          Fetch.parsed
            { blocks :=
                [{ title := some " Fordson Major ", listingPrice := some "1,500 €",
                   localisation := some "Leeds", category := some "Farm tractor",
                   pictureSrc := some "/img/1.jpg", linkHref := some "/used/1.html",
                   priceToChange := some " 1,500 ", referencePrice := some "1500",
                   referenceCurrency := some "EUR", currencyToChange := some "€",
                   vatText := some "excl. VAT",
                   descriptionSpans := [" 52 hp ", "Year 1960", "4,000 h"],
                   dealerName := some " Smith Ltd ", dealerLocation := some "Leeds",
                   phones := [" 0113 496 0000 ", "07700 900000"] },
                 { title := none, listingPrice := none, localisation := none,
                   category := none, pictureSrc := none,
                   linkHref := some "https://example.org/2.html", priceToChange := none,
                   referencePrice := none, referenceCurrency := none,
                   currencyToChange := none, vatText := none, descriptionSpans := [],
                   dealerName := none, dealerLocation := none, phones := [] }]
              paginationLinks := ["1", " Next "] }) =
      Except.ok
        ([{ Title := "Fordson Major", Price := "1,500", OriginalPrice := "",
            PriceExclVAT := "", ReferencePrice := "1500", ReferenceCurrency := "EUR",
            DisplayedCurrency := "€", PriceType := "excl. VAT", HP := "52 hp",
            Year := "Year 1960", WorkingHours := "4,000 h", Location := "Leeds",
            Dealer := "Smith Ltd", PhoneNumbers := "0113 496 0000; 07700 900000;",
            ImageURL := "/img/1.jpg",
            DetailURL := "https://www.agriaffaires.co.uk/used/1.html", Description := "",
            Details := [], Equipment := [], Specifications := [] },
          { Title := "", Price := "", OriginalPrice := "", PriceExclVAT := "",
            ReferencePrice := "", ReferenceCurrency := "", DisplayedCurrency := "",
            PriceType := "", HP := "", Year := "", WorkingHours := "", Location := "",
            Dealer := "", PhoneNumbers := "", ImageURL := "",
            DetailURL := "https://example.org/2.html", Description := "", Details := [],
            Equipment := [], Specifications := [] }], true) :=
  ⟨(scrapePage_same_document_same_records.2 _ _ 0 2 _ _ _ rfl rfl).1,
    (scrapePage_same_document_same_records.2 _ "" 2 2 _ (fun _ => Fetch.parsed _) _
      rfl rfl).2.1.trans (congrArg Except.ok (by decide))⟩

/-! ## Base64 and `decodePhoneNumber` -/

theorem decodeMap_encodeSextet_fin :
    ∀ v : Fin 64, decodeMap (encodeSextet v.val) = some v.val := by
  decide

theorem decodeMap_encodeSextet (v : Nat) (hv : v < 64) :
    decodeMap (encodeSextet v) = some v :=
  decodeMap_encodeSextet_fin ⟨v, hv⟩

theorem decodeMap_padChar : decodeMap padChar = none := by decide

theorem isNewline_padChar : isNewline padChar = false := by decide

theorem decodeFrom_sextet (v : Nat) (hv : v < 64) (src : List Byte) (dbuf : List Nat) :
    decodeFrom (encodeSextet v :: src) dbuf =
      if (dbuf ++ [v]).length = 4 then
        match decodeFrom src [] with
        | some decoded => some (quantumBytes (dbuf ++ [v]) ++ decoded)
        | none => none
      else decodeFrom src (dbuf ++ [v]) := by
  rw [decodeFrom]
  simp only [decodeMap_encodeSextet v hv]

theorem byte_ofNat_val (a : Byte) : (Fin.ofNat a.val : Byte) = a := by
  apply Fin.ext
  simp [Fin.ofNat, Nat.mod_eq_of_lt a.isLt]

theorem quantumBytes_three (a b c : Byte) :
    quantumBytes
      [(a.val * 65536 + b.val * 256 + c.val) / 262144 % 64,
        (a.val * 65536 + b.val * 256 + c.val) / 4096 % 64,
        (a.val * 65536 + b.val * 256 + c.val) / 64 % 64,
        (a.val * 65536 + b.val * 256 + c.val) % 64] = [a, b, c] := by
  have ha := a.isLt
  have hb := b.isLt
  have hc := c.isLt
  simp only [quantumBytes, List.getD_cons_zero, List.getD_cons_succ, List.length_cons,
    List.length_nil, List.map_cons, List.map_nil]
  have h0 : ((a.val * 65536 + b.val * 256 + c.val) / 262144 % 64 * 262144 +
      (a.val * 65536 + b.val * 256 + c.val) / 4096 % 64 * 4096 +
      (a.val * 65536 + b.val * 256 + c.val) / 64 % 64 * 64 +
      (a.val * 65536 + b.val * 256 + c.val) % 64) = a.val * 65536 + b.val * 256 + c.val := by
    omega
  rw [h0]
  have h1 : (a.val * 65536 + b.val * 256 + c.val) / 65536 % 256 = a.val := by omega
  have h2 : (a.val * 65536 + b.val * 256 + c.val) / 256 % 256 = b.val := by omega
  have h3 : (a.val * 65536 + b.val * 256 + c.val) % 256 = c.val := by omega
  rw [h1, h2, h3, byte_ofNat_val, byte_ofNat_val, byte_ofNat_val]
  rfl

theorem quantumBytes_two (a b : Byte) :
    quantumBytes
      [(a.val * 65536 + b.val * 256) / 262144 % 64,
        (a.val * 65536 + b.val * 256) / 4096 % 64,
        (a.val * 65536 + b.val * 256) / 64 % 64] = [a, b] := by
  have ha := a.isLt
  have hb := b.isLt
  simp only [quantumBytes, List.getD_cons_zero, List.getD_cons_succ, List.length_cons,
    List.length_nil, List.map_cons, List.map_nil, List.getD_nil]
  have h0 : ((a.val * 65536 + b.val * 256) / 262144 % 64 * 262144 +
      (a.val * 65536 + b.val * 256) / 4096 % 64 * 4096 +
      (a.val * 65536 + b.val * 256) / 64 % 64 * 64 + 0) =
      a.val * 65536 + b.val * 256 - (b.val * 256) % 64 := by
    omega
  rw [h0]
  have h1 : (a.val * 65536 + b.val * 256 - (b.val * 256) % 64) / 65536 % 256 = a.val := by omega
  have h2 : (a.val * 65536 + b.val * 256 - (b.val * 256) % 64) / 256 % 256 = b.val := by omega
  rw [h1, h2, byte_ofNat_val, byte_ofNat_val]
  rfl

theorem quantumBytes_one (a : Byte) :
    quantumBytes [a.val * 65536 / 262144 % 64, a.val * 65536 / 4096 % 64] = [a] := by
  have ha := a.isLt
  simp only [quantumBytes, List.getD_cons_zero, List.getD_cons_succ, List.length_cons,
    List.length_nil, List.map_cons, List.map_nil, List.getD_nil]
  have h1 : (a.val * 65536 / 262144 % 64 * 262144 + a.val * 65536 / 4096 % 64 * 4096 +
      0 * 64 + 0) / 65536 % 256 = a.val := by omega
  rw [h1, byte_ofNat_val]
  rfl

/-- Decoding inverts encoding: `DecodeString(EncodeToString(data))` gives `data` back,
without error. -/
theorem decodeFrom_EncodeToString : ∀ data : List Byte,
    decodeFrom (EncodeToString data) [] = some data
  | [] => by simp [EncodeToString, decodeFrom]
  | [a] => by
    rw [EncodeToString]
    rw [decodeFrom_sextet _ (Nat.mod_lt _ (by decide)),
      if_neg (by simp), decodeFrom_sextet _ (Nat.mod_lt _ (by decide)), if_neg (by simp)]
    rw [decodeFrom]
    simp only [decodeMap_padChar, isNewline_padChar, List.nil_append, List.cons_append,
      List.length_cons, List.length_nil, List.dropWhile_cons, List.dropWhile_nil]
    simp only [Bool.false_eq_true, if_false, ne_eq, not_true_eq_false, List.isEmpty_nil,
      if_true, Nat.reduceAdd]
    rw [quantumBytes_one]
    rfl
  | [a, b] => by
    rw [EncodeToString]
    rw [decodeFrom_sextet _ (Nat.mod_lt _ (by decide)),
      if_neg (by simp), decodeFrom_sextet _ (Nat.mod_lt _ (by decide)), if_neg (by simp),
      decodeFrom_sextet _ (Nat.mod_lt _ (by decide)), if_neg (by simp)]
    rw [decodeFrom]
    simp only [decodeMap_padChar, isNewline_padChar, List.nil_append, List.cons_append,
      List.length_cons, List.length_nil, List.dropWhile_nil]
    simp only [Bool.false_eq_true, if_false, ne_eq, not_true_eq_false, List.isEmpty_nil,
      if_true, Nat.reduceAdd, Nat.reduceEqDiff]
    rw [quantumBytes_two]
  | a :: b :: c :: rest => by
    have ih := decodeFrom_EncodeToString rest
    rw [EncodeToString]
    simp only [List.cons_append, List.nil_append]
    rw [decodeFrom_sextet _ (Nat.mod_lt _ (by decide)),
      if_neg (by simp), decodeFrom_sextet _ (Nat.mod_lt _ (by decide)), if_neg (by simp),
      decodeFrom_sextet _ (Nat.mod_lt _ (by decide)), if_neg (by simp),
      decodeFrom_sextet _ (Nat.mod_lt _ (by decide)), if_pos (by simp)]
    rw [ih]
    simp only [List.nil_append, List.cons_append]
    rw [quantumBytes_three]
    rfl
theorem length_EncodeToString_mod_four : ∀ data : List Byte,
    (EncodeToString data).length % 4 = 0
  | [] => by simp [EncodeToString]
  | [_] => by simp [EncodeToString]
  | [_, _] => by simp [EncodeToString]
  | _ :: _ :: _ :: rest => by
    have ih := length_EncodeToString_mod_four rest
    rw [EncodeToString]
    simp only [List.length_append, List.length_cons, List.length_nil]
    omega

theorem mem_dropWhile_of_false {α : Type} (p : α → Bool) (x : α) (hx : p x = false) :
    ∀ l : List α, x ∈ l → x ∈ l.dropWhile p
  | [], h => h
  | y :: l, h => by
    rw [List.dropWhile_cons]
    by_cases hy : p y = true
    · rw [if_pos hy]
      rcases List.mem_cons.1 h with e | hm
      · rw [e, hy] at hx
        exact absurd hx (by simp)
      · exact mem_dropWhile_of_false p x hx l hm
    · rw [if_neg hy]
      exact h

/-- A byte that is neither an alphabet character, nor `=`, nor `\r` or `\n` makes the
decoder fail wherever it stands. -/
theorem decodeFrom_none_of_foreign_byte (x : Byte) (hmap : decodeMap x = none)
    (hnl : isNewline x = false) (hpad : x ≠ padChar) :
    ∀ (src : List Byte) (dbuf : List Nat), x ∈ src → decodeFrom src dbuf = none
  | [], _, h => by simp at h
  | c :: src, dbuf, h => by
    rw [decodeFrom]
    by_cases hxc : x = c
    · subst hxc
      simp only [hmap, hnl, Bool.false_eq_true, if_false, ne_eq, hpad, not_false_eq_true, if_true]
    · have hmem : x ∈ src := by
        rcases List.mem_cons.1 h with e | hm
        · exact absurd e hxc
        · exact hm
      have hdrop : x ∈ src.dropWhile isNewline := mem_dropWhile_of_false _ x hnl src hmem
      cases hc : decodeMap c with
      | some out =>
        simp only
        split_ifs
        · rw [decodeFrom_none_of_foreign_byte x hmap hnl hpad src [] hmem]
        · exact decodeFrom_none_of_foreign_byte x hmap hnl hpad src _ hmem
      | none =>
        simp only
        by_cases hcn : isNewline c = true
        · rw [if_pos hcn]
          exact decodeFrom_none_of_foreign_byte x hmap hnl hpad src _ hmem
        · rw [if_neg hcn]
          by_cases hcp : c ≠ padChar
          · rw [if_pos hcp]
          · rw [if_neg hcp]
            by_cases h2 : dbuf.length = 2
            · rw [if_pos h2]
              cases hd : src.dropWhile isNewline with
              | nil => rfl
              | cons c2 src2 =>
                simp only
                by_cases hc2 : c2 ≠ padChar
                · rw [if_pos hc2]
                · rw [if_neg hc2]
                  rw [hd] at hdrop
                  have hx2 : x ∈ src2 := by
                    rcases List.mem_cons.1 hdrop with e | hm
                    · exact absurd (e.trans (not_not.1 hc2)) hpad
                    · exact hm
                  have hne : (src2.dropWhile isNewline).isEmpty = false := by
                    have := mem_dropWhile_of_false _ x hnl src2 hx2
                    cases hl : src2.dropWhile isNewline with
                    | nil => rw [hl] at this; simp at this
                    | cons _ _ => rfl
                  rw [hne]
                  rfl
            · rw [if_neg h2]
              by_cases h3 : dbuf.length = 3
              · rw [if_pos h3]
                have hne : (src.dropWhile isNewline).isEmpty = false := by
                  cases hl : src.dropWhile isNewline with
                  | nil => rw [hl] at hdrop; simp at hdrop
                  | cons _ _ => rfl
                rw [hne]
                rfl
              · rw [if_neg h3]

theorem span_not_space_append (pre post : List Byte) (h : (32 : Byte) ∉ pre) :
    (pre ++ 32 :: post).span (fun c => c ≠ 32) = (pre, 32 :: post) := by
  rw [List.span_eq_take_drop]
  induction pre with
  | nil => simp
  | cons a pre ih =>
    have ha : a ≠ 32 := fun e => h (e ▸ List.mem_cons_self _ _)
    have ih' := ih (fun hm => h (List.mem_cons_of_mem _ hm))
    simp only [List.cons_append, List.takeWhile_cons, List.dropWhile_cons, ne_eq, ha,
      not_false_eq_true, decide_True, if_true]
    simp only [Prod.mk.injEq] at ih' ⊢
    exact ⟨by rw [ih'.1], ih'.2⟩

theorem span_not_space_of_not_mem (s : List Byte) (h : (32 : Byte) ∉ s) :
    s.span (fun c => c ≠ 32) = (s, []) := by
  rw [List.span_eq_take_drop]
  induction s with
  | nil => simp
  | cons a s ih =>
    have ha : a ≠ 32 := fun e => h (e ▸ List.mem_cons_self _ _)
    have ih' := ih (fun hm => h (List.mem_cons_of_mem _ hm))
    simp only [List.takeWhile_cons, List.dropWhile_cons, ne_eq, ha,
      not_false_eq_true, decide_True, if_true]
    simp only [Prod.mk.injEq] at ih' ⊢
    exact ⟨by rw [ih'.1], ih'.2⟩

/-- C19 as stated fails: `QSBC` followed by a line feed is not valid base64 (the line
feed is not in the alphabet, and no encoding has a length of 5), yet the decoder skips the
line feed and `decodePhoneNumber` returns `B`, the part after the space of `A B`. -/
theorem decodePhoneNumber_decodes_past_line_feed :
    ¬ IsStdBase64 (asciiBytes "QSBC" ++ [10]) ∧
    decodeMap 10 = none ∧
    Agriaffaires1_5test.decodePhoneNumber (asciiBytes "QSBC" ++ [10]) = asciiBytes "B" ∧
    asciiBytes "B" ≠ asciiBytes "QSBC" ++ [10] := by
  refine ⟨?_, by decide, by decide, by decide⟩
  rintro ⟨data, h⟩
  have hlen := length_EncodeToString_mod_four data
  rw [← h] at hlen
  revert hlen
  decide

/-- C19 amended: `decodePhoneNumber` returns its argument unchanged for every string that
`base64.StdEncoding.DecodeString` rejects, and that is the case for every string holding a
byte other than the 64 alphabet characters, `=`, `\r` and `\n`.  (`\r` and `\n` are skipped
by the decoder, so a string that is base64 only once they are removed is decoded.) -/
theorem decodePhoneNumber_unchanged_when_decoding_fails :
    (∀ s : List Byte, DecodeString s = none → Agriaffaires1_5test.decodePhoneNumber s = s) ∧
    (∀ (s : List Byte) (x : Byte), x ∈ s → decodeMap x = none → isNewline x = false →
      x ≠ padChar →
      DecodeString s = none ∧ Agriaffaires1_5test.decodePhoneNumber s = s) := by
  have h1 : ∀ s : List Byte, DecodeString s = none →
      Agriaffaires1_5test.decodePhoneNumber s = s := by
    intro s h
    simp only [Agriaffaires1_5test.decodePhoneNumber, h]
  refine ⟨h1, fun s x hx hmap hnl hpad => ?_⟩
  have hnone : DecodeString s = none :=
    decodeFrom_none_of_foreign_byte x hmap hnl hpad s [] hx
  exact ⟨hnone, h1 s hnone⟩

theorem decodePhoneNumber_unchanged_when_decoding_fails_witness :
    DecodeString (asciiBytes "+45 12345678") = none ∧
    Agriaffaires1_5test.decodePhoneNumber (asciiBytes "+45 12345678") =
      asciiBytes "+45 12345678" :=
  decodePhoneNumber_unchanged_when_decoding_fails.2 (asciiBytes "+45 12345678") 32
    (by decide) (by decide) (by decide) (by decide)

/-- C20: for every byte string `s`, `decodePhoneNumber` applied to the standard base64
encoding of `s` returns the part of `s` after its first space when `s` contains a space,
and `s` itself when it contains none; `(+45) 12345678` gives `12345678`. -/
theorem decodePhoneNumber_of_encoding :
    (∀ before after : List Byte, (32 : Byte) ∉ before →
      Agriaffaires1_5test.decodePhoneNumber (EncodeToString (before ++ 32 :: after)) = after) ∧
    (∀ s : List Byte, (32 : Byte) ∉ s →
      Agriaffaires1_5test.decodePhoneNumber (EncodeToString s) = s) ∧
    Agriaffaires1_5test.decodePhoneNumber (EncodeToString (asciiBytes "(+45) 12345678")) =
      asciiBytes "12345678" := by
  refine ⟨fun before after h => ?_, fun s h => ?_, by decide⟩
  · simp only [Agriaffaires1_5test.decodePhoneNumber, DecodeString, decodeFrom_EncodeToString,
      SplitN2, span_not_space_append before after h]
    rfl
  · simp only [Agriaffaires1_5test.decodePhoneNumber, DecodeString, decodeFrom_EncodeToString,
      SplitN2, span_not_space_of_not_mem s h]
    rfl

theorem decodePhoneNumber_of_encoding_witness :
    Agriaffaires1_5test.decodePhoneNumber
        (EncodeToString (asciiBytes "(+44)" ++ 32 :: asciiBytes "1234 567")) =
      asciiBytes "1234 567" :=
  decodePhoneNumber_of_encoding.1 (asciiBytes "(+44)") (asciiBytes "1234 567") (by decide)

/-! ## The crawl of aggriafaires.go on a failed listing page; detail URLs -/

theorem hasPrefix_http_of_origin (origin href : String)
    (h : HasPrefix origin "http" = true) : HasPrefix (origin ++ href) "http" = true := by
  unfold HasPrefix at *
  rw [List.isPrefixOf_iff_prefix] at *
  rw [String.data_append]
  exact h.trans (List.prefix_append _ _)

theorem mu_detailURL_scrapeItem (t : Mainurls.Tractor) (li : String) :
    (Mainurls.scrapeItem t li).DetailURL = t.DetailURL := by
  unfold Mainurls.scrapeItem
  simp only
  split_ifs <;> rfl

theorem mu_detailURL_foldl_scrapeItem (items : List String) (t : Mainurls.Tractor) :
    (items.foldl Mainurls.scrapeItem t).DetailURL = t.DetailURL := by
  induction items generalizing t with
  | nil => rfl
  | cons li rest ih => rw [List.foldl_cons, ih, mu_detailURL_scrapeItem]

theorem mu_detailURL_scrapeAddress (t : Mainurls.Tractor) (dealerInfo : String) :
    (Mainurls.scrapeAddress t dealerInfo).DetailURL = t.DetailURL := by
  unfold Mainurls.scrapeAddress
  split <;> rfl

theorem mu_detailURL_scrapeBlock (s : Mainurls.ListingBlock) :
    (Mainurls.scrapeBlock s).DetailURL =
      if HasPrefix (attrOf s.linkHref) "http" = true then attrOf s.linkHref
      else "https://www.landwirt.com" ++ attrOf s.linkHref := by
  unfold Mainurls.scrapeBlock
  simp only [mu_detailURL_scrapeAddress, mu_detailURL_foldl_scrapeItem]
  cases HasPrefix (attrOf s.linkHref) "http" <;> simp

theorem agg_detailURL_scrapeBlock (s : Aggriafaires.ListingBlock) :
    (Aggriafaires.scrapeBlock s).DetailURL =
      if HasPrefix (attrOf s.linkHref) "http" = true then attrOf s.linkHref
      else "https://www.agriaffaires.co.uk" ++ attrOf s.linkHref := by
  unfold Aggriafaires.scrapeBlock
  simp only
  cases HasPrefix (attrOf s.linkHref) "http" <;> simp

/-- C25: in aggriafaires.go, when the pages 1..k-1 each gave at least one record and the
fetch or the parse of listing page `k` fails (`k ≥ 1`, a Go `int`), `scrapePage` returns
no records for page `k`, the crawl loop ends there once it is given `k` iterations, having
requested exactly the pages 1..k, and `main` hands the records of the pages 1..k-1, in
page order, to the detail step and its result to `saveToCsv`. -/
theorem main_keeps_records_before_failed_listing_page
    (listing : Int → Option Aggriafaires.ListingDocument)
    (detail : Nat → Option DetailDocument) (sched : Aggriafaires.Schedule) (k fuel : Nat)
    (hk : 1 ≤ k) (hmax : (k : Int) < 2 ^ 63)
    (hne : ∀ p : Nat, 1 ≤ p → p < k →
      Aggriafaires.scrapePage (Aggriafaires.pageURL p) (listing p) ≠ [])
    (hfail : listing k = none) (hfuel : k ≤ fuel) :
    Aggriafaires.scrapePage (Aggriafaires.pageURL k) (listing k) = [] ∧
    Aggriafaires.crawl (fun page => Aggriafaires.scrapePage (Aggriafaires.pageURL page)
        (listing page)) fuel =
      some { tractors := listingsOf (fun page =>
               Aggriafaires.scrapePage (Aggriafaires.pageURL page) (listing page)) 1 (k - 1)
             fetched := pagesFrom 1 k } ∧
    Aggriafaires.main listing detail sched fuel =
      some (ProcessOutcome.finished (Aggriafaires.saveToCsv sched
        (detailLoop Aggriafaires.scrapeDetailedPage detail 0
          (listingsOf (fun page =>
            Aggriafaires.scrapePage (Aggriafaires.pageURL page) (listing page)) 1 (k - 1))))) := by
  have hlast : Aggriafaires.scrapePage (Aggriafaires.pageURL k) (listing k) = [] := by
    rw [hfail]; rfl
  have hcrawl := crawlUntilEmpty_first_empty
    (fun page => Aggriafaires.scrapePage (Aggriafaires.pageURL page) (listing page))
    k fuel hk hmax hne hlast hfuel
  refine ⟨hlast, hcrawl, ?_⟩
  unfold Aggriafaires.main Aggriafaires.crawl
  rw [hcrawl]

theorem main_keeps_records_before_failed_listing_page_witness :
    Aggriafaires.crawl
        (fun page => Aggriafaires.scrapePage (Aggriafaires.pageURL page)
          ((fun p : Int => if p = 1 then
            some ({ blocks := [{ title := some "Fordson Major", price := none,
                                 localisation := none, category := none, pictureSrc := none,
                                 linkHref := some "/used/1.html", descriptionSpans := [] }] } :
              Aggriafaires.ListingDocument)
            else none) page)) 2 =
      some { tractors := listingsOf
               (fun page => Aggriafaires.scrapePage (Aggriafaires.pageURL page)
                 ((fun p : Int => if p = 1 then
                   some ({ blocks := [{ title := some "Fordson Major", price := none,
                                        localisation := none, category := none,
                                        pictureSrc := none, linkHref := some "/used/1.html",
                                        descriptionSpans := [] }] } :
                     Aggriafaires.ListingDocument)
                   else none) page)) 1 (2 - 1)
             fetched := pagesFrom 1 2 } :=
  (main_keeps_records_before_failed_listing_page _ (fun _ => none)
    ⟨fun _ => RangeOrder.stored, RangeOrder.stored, fun _ => RangeOrder.stored⟩ 2 2
    (by decide) (by decide)
    (by intro p h1 h2; interval_cases p; simp [Aggriafaires.scrapePage])
    (by simp) (by decide)).2.1

/-- C26: after `scrapePage` of aggriafaires.go and of mainurls.go, every record's
`DetailURL` starts with `http`: for every listing element it is the `href` of the link
unchanged when that starts with `http`, and the site origin (`https://www.agriaffaires.co.uk`,
`https://www.landwirt.com`) followed by the `href` otherwise, so that an element with no
link gets the bare origin. -/
theorem scrapePage_detailURL_starts_with_http :
    (∀ (url : String) (page : Option Aggriafaires.ListingDocument) (t : Aggriafaires.Tractor),
      t ∈ Aggriafaires.scrapePage url page → HasPrefix t.DetailURL "http" = true) ∧
    (∀ s : Aggriafaires.ListingBlock,
      (Aggriafaires.scrapeBlock s).DetailURL =
        if HasPrefix (attrOf s.linkHref) "http" = true then attrOf s.linkHref
        else "https://www.agriaffaires.co.uk" ++ attrOf s.linkHref) ∧
    (∀ s : Aggriafaires.ListingBlock, s.linkHref = none →
      (Aggriafaires.scrapeBlock s).DetailURL = "https://www.agriaffaires.co.uk") ∧
    (∀ (url : String) (page : Option Mainurls.ListingDocument) (t : Mainurls.Tractor),
      t ∈ Mainurls.scrapePage url page → HasPrefix t.DetailURL "http" = true) ∧
    (∀ s : Mainurls.ListingBlock,
      (Mainurls.scrapeBlock s).DetailURL =
        if HasPrefix (attrOf s.linkHref) "http" = true then attrOf s.linkHref
        else "https://www.landwirt.com" ++ attrOf s.linkHref) ∧
    (∀ s : Mainurls.ListingBlock, s.linkHref = none →
      (Mainurls.scrapeBlock s).DetailURL = "https://www.landwirt.com") := by
  refine ⟨?_, agg_detailURL_scrapeBlock, ?_, ?_, mu_detailURL_scrapeBlock, ?_⟩
  · intro url page t ht
    cases page with
    | none => simp [Aggriafaires.scrapePage] at ht
    | some doc =>
      simp only [Aggriafaires.scrapePage, List.mem_map] at ht
      obtain ⟨s, -, rfl⟩ := ht
      rw [agg_detailURL_scrapeBlock]
      split_ifs with h
      · exact h
      · exact hasPrefix_http_of_origin _ _ (by decide)
  · intro s hs
    rw [agg_detailURL_scrapeBlock, hs]
    decide
  · intro url page t ht
    cases page with
    | none => simp [Mainurls.scrapePage, scrapePageOrNil] at ht
    | some doc =>
      simp only [Mainurls.scrapePage, scrapePageOrNil, Mainurls.scrapeListing,
        List.mem_map] at ht
      obtain ⟨s, -, rfl⟩ := ht
      rw [mu_detailURL_scrapeBlock]
      split_ifs with h
      · exact h
      · exact hasPrefix_http_of_origin _ _ (by decide)
  · intro s hs
    rw [mu_detailURL_scrapeBlock, hs]
    decide

theorem scrapePage_detailURL_starts_with_http_witness :
    HasPrefix
      (Mainurls.scrapeBlock
        { title := some "McCormick MC 115", linkHref := some "/en/used/1.html", price := none,
          originalPrice := none, priceExclVAT := none, imageSrc := none, details := none,
          items := ["hp/kW: 115/85"], address := some "Dealer - Wien" }).DetailURL
      "http" = true ∧
    (Aggriafaires.scrapeBlock
        { title := some "Fordson Major", price := none, localisation := none,
          category := none, pictureSrc := none, linkHref := none,
          descriptionSpans := [] }).DetailURL = "https://www.agriaffaires.co.uk" :=
  ⟨scrapePage_detailURL_starts_with_http.2.2.2.1 "u"
      (some { blocks := [{ title := some "McCormick MC 115",
                           linkHref := some "/en/used/1.html", price := none,
                           originalPrice := none, priceExclVAT := none, imageSrc := none,
                           details := none, items := ["hp/kW: 115/85"],
                           address := some "Dealer - Wien" }] }) _
      (by simp [Mainurls.scrapePage, scrapePageOrNil, Mainurls.scrapeListing]),
    scrapePage_detailURL_starts_with_http.2.2.1 _ rfl⟩

/-! ## Displayed prices -/

theorem length_space : " ".length = 1 := rfl

theorem append_space_ne_empty (a b : String) : a ++ " " ++ b ≠ "" := by
  intro h
  have := congrArg String.length h
  simp only [String.length_append, length_space] at this
  have h0 : "".length = 0 := rfl
  omega

theorem append_space_ne_self (a b : String) : a ++ " " ++ b ≠ a := by
  intro h
  have := congrArg String.length h
  simp only [String.length_append, length_space] at this
  omega

theorem t15_foldl_firstNonEmpty (texts : List String) (d : String) (hd : d ≠ "") :
    texts.foldl Agriaffaires1_5test.firstNonEmpty d = d := by
  induction texts with
  | nil => rfl
  | cons t rest ih =>
    rw [List.foldl_cons, show Agriaffaires1_5test.firstNonEmpty d t = d by
      unfold Agriaffaires1_5test.firstNonEmpty; rw [if_neg hd]]
    exact ih

/-- C21: in `scrapePage` of agriaffaires1.5test.go, for every page and whatever the
number parsing does, `DisplayedPrice` is the normalised price text and one space followed
by the currency symbol twice, with one space between, when the currency symbol is not
empty (by nothing when it is empty): lines 116-118 append the currency to a text that
line 104 already ended with it.  A page with the price `1,736` and the currency `€` gets
`1736 € €`. -/
theorem displayedPrice_appends_currency_twice :
    (∀ (F : Type) (ops : FloatOps F) (page : Agriaffaires1_5test.PriceElements),
      Agriaffaires1_5test.displayedPrice ops page =
        if TrimSpace (textOf page.currencyText) = "" then
          Agriaffaires1_5test.normalisePrice ops (TrimSpace (textOf page.priceTexts.head?))
            ++ " "
        else
          Agriaffaires1_5test.normalisePrice ops (TrimSpace (textOf page.priceTexts.head?))
            ++ " " ++ TrimSpace (textOf page.currencyText)
            ++ " " ++ TrimSpace (textOf page.currencyText)) ∧
    (∀ (F : Type) (ops : FloatOps F) (page : Agriaffaires1_5test.PriceElements),
      Agriaffaires1_5test.displayedPrice ops page =
          Agriaffaires1_5test.normalisePrice ops (TrimSpace (textOf page.priceTexts.head?))
            ++ " " ++ TrimSpace (textOf page.currencyText) ↔
        TrimSpace (textOf page.currencyText) = "") ∧
    Agriaffaires1_5test.displayedPrice wholeNumbers
      { priceTexts := ["1,736"], currencyText := some "€" } = "1736 € €" := by
  have key : ∀ (F : Type) (ops : FloatOps F) (page : Agriaffaires1_5test.PriceElements),
      Agriaffaires1_5test.displayedPrice ops page =
        if TrimSpace (textOf page.currencyText) = "" then
          Agriaffaires1_5test.normalisePrice ops (TrimSpace (textOf page.priceTexts.head?))
            ++ " "
        else
          Agriaffaires1_5test.normalisePrice ops (TrimSpace (textOf page.priceTexts.head?))
            ++ " " ++ TrimSpace (textOf page.currencyText)
            ++ " " ++ TrimSpace (textOf page.currencyText) := by
    intro F ops page
    unfold Agriaffaires1_5test.displayedPrice
    simp only
    rw [t15_foldl_firstNonEmpty _ _ (append_space_ne_empty _ _)]
    by_cases hc : TrimSpace (textOf page.currencyText) = ""
    · rw [if_pos hc, if_neg (by simp [hc]), hc]
      simp
    · rw [if_neg hc, if_pos ⟨append_space_ne_empty _ _, hc⟩]
  refine ⟨key, ?_, by decide⟩
  intro F ops page
  rw [key]
  by_cases hc : TrimSpace (textOf page.currencyText) = ""
  · rw [if_pos hc, hc]
    simp
  · rw [if_neg hc]
    simp only [hc, iff_false]
    exact append_space_ne_self _ _

/-- C22: in `scrapePage` of agriaffaires1.11test.go, for every page, `DisplayedPrice` is
the price text, one space, the currency symbol, one space and the VAT info text, followed
by one more space and the VAT info text again when the VAT info is not empty (lines
172-174 repeat what line 165 did); in agriaffaires1.13test.go the VAT info comes once.  A
page with the price `1,500`, the currency `€` and the VAT info `excl. VAT` gets
`1,500 € excl. VAT excl. VAT` from agriaffaires1.11test.go. -/
theorem displayedPrice_appends_vat_info_twice :
    (∀ page : Agriaffaires1_11test.PriceElements,
      Agriaffaires1_11test.displayedPrice page =
        if TrimSpace (textOf page.vatText) = "" then
          TrimSpace (textOf page.priceText) ++ " " ++ TrimSpace (textOf page.currencyText)
            ++ " " ++ TrimSpace (textOf page.vatText)
        else
          TrimSpace (textOf page.priceText) ++ " " ++ TrimSpace (textOf page.currencyText)
            ++ " " ++ TrimSpace (textOf page.vatText)
            ++ " " ++ TrimSpace (textOf page.vatText)) ∧
    (∀ page : Agriaffaires1_11test.PriceElements,
      Agriaffaires1_11test.displayedPrice page =
          TrimSpace (textOf page.priceText) ++ " " ++ TrimSpace (textOf page.currencyText)
            ++ " " ++ TrimSpace (textOf page.vatText) ↔
        TrimSpace (textOf page.vatText) = "") ∧
    (∀ page : Agriaffaires1_13test.PriceElements,
      Agriaffaires1_13test.displayedPrice page =
        TrimSpace (textOf page.priceText) ++ " " ++ TrimSpace (textOf page.currencyText)
          ++ " " ++ TrimSpace (textOf page.vatText)) ∧
    Agriaffaires1_11test.displayedPrice
      { priceText := some "1,500", currencyText := some "€", vatText := some "excl. VAT" } =
        "1,500 € excl. VAT excl. VAT" := by
  have key : ∀ page : Agriaffaires1_11test.PriceElements,
      Agriaffaires1_11test.displayedPrice page =
        if TrimSpace (textOf page.vatText) = "" then
          TrimSpace (textOf page.priceText) ++ " " ++ TrimSpace (textOf page.currencyText)
            ++ " " ++ TrimSpace (textOf page.vatText)
        else
          TrimSpace (textOf page.priceText) ++ " " ++ TrimSpace (textOf page.currencyText)
            ++ " " ++ TrimSpace (textOf page.vatText)
            ++ " " ++ TrimSpace (textOf page.vatText) := by
    intro page
    unfold Agriaffaires1_11test.displayedPrice
    simp only [String.append_assoc]
    by_cases hv : TrimSpace (textOf page.vatText) = ""
    · rw [if_pos hv, if_neg (by simp [hv])]
    · rw [if_neg hv, if_pos hv]
  refine ⟨key, ?_, ?_, by decide⟩
  · intro page
    rw [key]
    by_cases hv : TrimSpace (textOf page.vatText) = ""
    · simp [hv]
    · rw [if_neg hv]
      simp only [hv, iff_false]
      exact append_space_ne_self _ _
  · intro page
    unfold Agriaffaires1_13test.displayedPrice
    simp only [String.append_assoc]

/-- C24: in `scrapePage` of agriaffaires1.7test.go, for every page whose displayed price
text is empty, `DisplayedPrice` is `ReferencePrice`, one space and `ReferenceCurrency`
when the VAT info is empty, and one space followed by the VAT info, without the reference
price, when the VAT info is not empty: lines 171-173 have made the field non-empty before
the test of line 176. -/
theorem displayedPrice_of_empty_price_text (page : Agriaffaires1_7test.PriceElements)
    (hempty : TrimSpace (textOf page.priceText) = "") :
    Agriaffaires1_7test.displayedPrice page =
      if TrimSpace (textOf page.vatText) = "" then
        attrOf page.referencePrice ++ " " ++ attrOf page.referenceCurrency
      else " " ++ TrimSpace (textOf page.vatText) := by
  unfold Agriaffaires1_7test.displayedPrice
  simp only [hempty]
  by_cases hv : TrimSpace (textOf page.vatText) = ""
  · simp [hv]
  · have hne : " " ++ TrimSpace (textOf page.vatText) ≠ "" := by
      have := append_space_ne_empty "" (TrimSpace (textOf page.vatText))
      simpa using this
    simp [hv, hne]

theorem displayedPrice_of_empty_price_text_witness :
    Agriaffaires1_7test.displayedPrice
      { priceText := some "", currencyText := some "€", referencePrice := some "1500",
        referenceCurrency := some "EUR", vatText := some "excl. VAT" } = " excl. VAT" :=
  displayedPrice_of_empty_price_text _ (by decide)

/-! ## agriaffaires1.8test.go: the row `Price excl. VAT` -/

theorem t18_details_scrapeRow (t : Agriaffaires1_8test.Tractor) (row : String × String) :
    (Agriaffaires1_8test.scrapeRow t row).Details =
      Agriaffaires1_8test.tableRow t.Details row := by
  unfold Agriaffaires1_8test.scrapeRow Agriaffaires1_8test.tableRow
  simp only [apply_ite Agriaffaires1_8test.Tractor.Details, ite_self]

theorem t18_details_foldl_scrapeRow (rows : List (String × String))
    (t : Agriaffaires1_8test.Tractor) :
    (rows.foldl Agriaffaires1_8test.scrapeRow t).Details =
      rows.foldl Agriaffaires1_8test.tableRow t.Details := by
  induction rows generalizing t with
  | nil => rfl
  | cons row rest ih => rw [List.foldl_cons, List.foldl_cons, ih, t18_details_scrapeRow]

theorem t18_priceExclVAT_foldl_scrapeRow (rows : List (String × String))
    (t : Agriaffaires1_8test.Tractor) :
    (rows.foldl Agriaffaires1_8test.scrapeRow t).PriceExclVAT = t.PriceExclVAT := by
  induction rows generalizing t with
  | nil => rfl
  | cons row rest ih =>
    rw [List.foldl_cons, ih]
    unfold Agriaffaires1_8test.scrapeRow
    simp only [apply_ite Agriaffaires1_8test.Tractor.PriceExclVAT, ite_self]

theorem t18_namedFields_scrapeRow_self (t : Agriaffaires1_8test.Tractor)
    (row : String × String) :
    Agriaffaires1_8test.namedFields (Agriaffaires1_8test.scrapeRow t row) =
      Agriaffaires1_8test.namedFields
        (Agriaffaires1_8test.scrapeRow (Agriaffaires1_8test.namedFields t) row) := by
  unfold Agriaffaires1_8test.scrapeRow
  simp only [apply_ite Agriaffaires1_8test.namedFields]
  rfl

theorem t18_namedFields_scrapeRow (t1 t2 : Agriaffaires1_8test.Tractor) (row : String × String)
    (h : Agriaffaires1_8test.namedFields t1 = Agriaffaires1_8test.namedFields t2) :
    Agriaffaires1_8test.namedFields (Agriaffaires1_8test.scrapeRow t1 row) =
      Agriaffaires1_8test.namedFields (Agriaffaires1_8test.scrapeRow t2 row) := by
  rw [t18_namedFields_scrapeRow_self t1, t18_namedFields_scrapeRow_self t2, h]

theorem t18_namedFields_scrapeRow_skipped (t : Agriaffaires1_8test.Tractor)
    (row : String × String)
    (hrow : Agriaffaires1_8test.rowKey row.1 = "Price excl. VAT") :
    Agriaffaires1_8test.namedFields (Agriaffaires1_8test.scrapeRow t row) =
      Agriaffaires1_8test.namedFields t := by
  unfold Agriaffaires1_8test.rowKey at hrow
  unfold Agriaffaires1_8test.scrapeRow
  simp only [hrow, if_true]
  rfl

theorem t18_namedFields_foldl_scrapeRow (rows : List (String × String))
    (t1 t2 : Agriaffaires1_8test.Tractor)
    (h : Agriaffaires1_8test.namedFields t1 = Agriaffaires1_8test.namedFields t2) :
    Agriaffaires1_8test.namedFields (rows.foldl Agriaffaires1_8test.scrapeRow t1) =
      Agriaffaires1_8test.namedFields
        ((rows.filter (fun row => Agriaffaires1_8test.rowKey row.1 ≠ "Price excl. VAT")).foldl
          Agriaffaires1_8test.scrapeRow t2) := by
  induction rows generalizing t1 t2 with
  | nil => exact h
  | cons row rest ih =>
    by_cases hrow : Agriaffaires1_8test.rowKey row.1 = "Price excl. VAT"
    · rw [List.filter_cons_of_neg (by simpa using hrow), List.foldl_cons]
      exact ih _ _ ((t18_namedFields_scrapeRow_skipped t1 row hrow).trans h)
    · rw [List.filter_cons_of_pos (by simpa using hrow), List.foldl_cons, List.foldl_cons]
      exact ih _ _ (t18_namedFields_scrapeRow t1 t2 row h)

theorem t18_get_foldl_tableRow_filter (rows : List (String × String)) (d1 d2 : GoMap)
    (k : String) (hk : k ≠ "Price excl. VAT") (h : d1.get k = d2.get k) :
    (rows.foldl Agriaffaires1_8test.tableRow d1).get k =
      ((rows.filter (fun row => Agriaffaires1_8test.rowKey row.1 ≠ "Price excl. VAT")).foldl
        Agriaffaires1_8test.tableRow d2).get k := by
  induction rows generalizing d1 d2 with
  | nil => exact h
  | cons row rest ih =>
    have hstep : ∀ d1 d2 : GoMap, d1.get k = d2.get k →
        (Agriaffaires1_8test.tableRow d1 row).get k =
          (Agriaffaires1_8test.tableRow d2 row).get k := by
      intro d1 d2 hd
      unfold Agriaffaires1_8test.tableRow
      by_cases hx : k = TrimSuffix (TrimSpace row.1) ":"
      · rw [hx, GoMap.get_set_self, GoMap.get_set_self]
      · rw [GoMap.get_set_of_ne _ _ _ _ hx, GoMap.get_set_of_ne _ _ _ _ hx, hd]
    by_cases hrow : Agriaffaires1_8test.rowKey row.1 = "Price excl. VAT"
    · rw [List.filter_cons_of_neg (by simpa using hrow), List.foldl_cons]
      apply ih
      rw [← h]
      unfold Agriaffaires1_8test.tableRow
      unfold Agriaffaires1_8test.rowKey at hrow
      simp only [hrow]
      exact GoMap.get_set_of_ne _ _ _ _ hk
    · rw [List.filter_cons_of_pos (by simpa using hrow), List.foldl_cons, List.foldl_cons]
      exact ih _ _ (hstep _ _ h)

theorem t18_get_foldl_tableRow_absent (rows : List (String × String)) (d : GoMap) (k : String)
    (h : ∀ row ∈ rows, Agriaffaires1_8test.rowKey row.1 ≠ k) :
    (rows.foldl Agriaffaires1_8test.tableRow d).get k = d.get k := by
  induction rows generalizing d with
  | nil => rfl
  | cons row rest ih =>
    rw [List.foldl_cons, ih _ (fun r hr => h r (List.mem_cons_of_mem _ hr))]
    unfold Agriaffaires1_8test.tableRow
    have := h row (List.mem_cons_self _ _)
    unfold Agriaffaires1_8test.rowKey at this
    exact GoMap.get_set_of_ne _ _ _ _ (fun e => this e.symm)

theorem t18_namedFields_scrapeContact (t1 t2 : Agriaffaires1_8test.Tractor)
    (page : Agriaffaires1_8test.DetailPage) (rows : List (String × String))
    (h : Agriaffaires1_8test.namedFields t1 = Agriaffaires1_8test.namedFields t2) :
    Agriaffaires1_8test.scrapeContact t1 page =
      { Agriaffaires1_8test.scrapeContact t2 { page with rows := rows } with
        Details := t1.Details } := by
  have h1 : Agriaffaires1_8test.scrapeContact t1 page =
      { Agriaffaires1_8test.scrapeContact (Agriaffaires1_8test.namedFields t1)
          { page with rows := rows } with Details := t1.Details } := rfl
  have h2 : ({ Agriaffaires1_8test.scrapeContact (Agriaffaires1_8test.namedFields t2)
          { page with rows := rows } with Details := t1.Details } :
        Agriaffaires1_8test.Tractor) =
      { Agriaffaires1_8test.scrapeContact t2 { page with rows := rows } with
        Details := t1.Details } := rfl
  rw [h1, h, h2]

theorem t18_details_scrapeDocument (p : Agriaffaires1_8test.DetailPage) :
    (Agriaffaires1_8test.scrapeDocument p).Details =
      p.rows.foldl Agriaffaires1_8test.tableRow [] :=
  t18_details_foldl_scrapeRow p.rows Agriaffaires1_8test.emptyTractor

theorem t18_scrapeDocument_named_fields (page : Agriaffaires1_8test.DetailPage) :
    Agriaffaires1_8test.scrapeDocument page =
      { Agriaffaires1_8test.scrapeDocument (Agriaffaires1_8test.withoutPriceExclVAT page) with
        Details := (Agriaffaires1_8test.scrapeDocument page).Details } := by
  have e3 : (Agriaffaires1_8test.scrapeDocument page).Details =
      (page.rows.foldl Agriaffaires1_8test.scrapeRow Agriaffaires1_8test.emptyTractor).Details :=
    rfl
  have e2 : Agriaffaires1_8test.scrapeDocument (Agriaffaires1_8test.withoutPriceExclVAT page) =
      Agriaffaires1_8test.scrapeContact
        ((page.rows.filter
          (fun row => Agriaffaires1_8test.rowKey row.1 ≠ "Price excl. VAT")).foldl
            Agriaffaires1_8test.scrapeRow Agriaffaires1_8test.emptyTractor)
        { page with
          rows := (page.rows.filter
            (fun row => Agriaffaires1_8test.rowKey row.1 ≠ "Price excl. VAT")) } := rfl
  have e1 : Agriaffaires1_8test.scrapeDocument page =
      Agriaffaires1_8test.scrapeContact
        (page.rows.foldl Agriaffaires1_8test.scrapeRow Agriaffaires1_8test.emptyTractor)
        page := rfl
  rw [e3, e2, e1]
  exact t18_namedFields_scrapeContact _ _ page _
    (t18_namedFields_foldl_scrapeRow page.rows _ _ rfl)

theorem t18_priceExclVAT_scrapeDocument (page : Agriaffaires1_8test.DetailPage) :
    (Agriaffaires1_8test.scrapeDocument page).PriceExclVAT = "" :=
  t18_priceExclVAT_foldl_scrapeRow page.rows Agriaffaires1_8test.emptyTractor

/-- C23 amended: in `scrapePage` of agriaffaires1.8test.go a table row whose
key is `Price excl. VAT` is skipped only after it has been stored in `Details`.  For every
parsed page, every field of the record other than `Details` is the same as if those rows
were not in the table, and `PriceExclVAT` stays empty; `Details` agrees at every other key
with that of the table without those rows, which has no entry `Price excl. VAT`, while the
record's `Details` holds under `Price excl. VAT` the trimmed value of the last such row. -/
theorem scrapePage_skips_price_excl_vat_after_details
    (page : Agriaffaires1_8test.DetailPage) :
    Agriaffaires1_8test.scrapePage (Fetch.parsed page) =
      Except.ok (Agriaffaires1_8test.scrapeDocument page) ∧
    Agriaffaires1_8test.scrapeDocument page =
      { Agriaffaires1_8test.scrapeDocument (Agriaffaires1_8test.withoutPriceExclVAT page) with
        Details := (Agriaffaires1_8test.scrapeDocument page).Details } ∧
    (Agriaffaires1_8test.scrapeDocument page).PriceExclVAT = "" ∧
    (∀ k : String, k ≠ "Price excl. VAT" →
      (Agriaffaires1_8test.scrapeDocument page).Details.get k =
        (Agriaffaires1_8test.scrapeDocument
          (Agriaffaires1_8test.withoutPriceExclVAT page)).Details.get k) ∧
    (Agriaffaires1_8test.scrapeDocument
      (Agriaffaires1_8test.withoutPriceExclVAT page)).Details.get "Price excl. VAT" = none ∧
    (∀ (before after : List (String × String)) (row : String × String),
      page.rows = before ++ row :: after →
      Agriaffaires1_8test.rowKey row.1 = "Price excl. VAT" →
      (∀ r ∈ after, Agriaffaires1_8test.rowKey r.1 ≠ "Price excl. VAT") →
      (Agriaffaires1_8test.scrapeDocument page).Details.get "Price excl. VAT" =
        some (TrimSpace row.2)) := by
  refine ⟨rfl, t18_scrapeDocument_named_fields page, t18_priceExclVAT_scrapeDocument page,
    ?_, ?_, ?_⟩
  · intro k hk
    rw [t18_details_scrapeDocument, t18_details_scrapeDocument]
    exact t18_get_foldl_tableRow_filter page.rows [] [] k hk rfl
  · rw [t18_details_scrapeDocument, t18_get_foldl_tableRow_absent]
    · rfl
    · intro row hrow
      simp only [Agriaffaires1_8test.withoutPriceExclVAT, List.mem_filter,
        decide_eq_true_eq] at hrow
      exact hrow.2
  · intro before after row hrows hrow hafter
    rw [t18_details_scrapeDocument, hrows, List.foldl_append, List.foldl_cons,
      t18_get_foldl_tableRow_absent after _ _ hafter]
    unfold Agriaffaires1_8test.rowKey at hrow
    unfold Agriaffaires1_8test.tableRow
    simp only [hrow]
    exact GoMap.get_set_self _ _ _

theorem scrapePage_skips_price_excl_vat_after_details_witness :
    (Agriaffaires1_8test.scrapeDocument
      { rows := [("Make:", "Fordson"), ("Price excl. VAT:", " 1,500 € ")],
        priceText := some "1,736", currencyText := some "€", referencePrice := none,
        referenceCurrency := none, vatText := none, dealerText := none, locationText := none,
        phoneDisplay := none }).Details.get "Price excl. VAT" = some (TrimSpace " 1,500 € ") :=
  (scrapePage_skips_price_excl_vat_after_details _).2.2.2.2.2
    [("Make:", "Fordson")] [] ("Price excl. VAT:", " 1,500 € ") rfl (by decide) (by simp)

/-- C23 as stated fails: for the page whose table has the rows `Make` and
`Price excl. VAT`, the record `scrapePage` returns holds the entry `Price excl. VAT` in
`Details`, and is not the record of the page without that row. -/
theorem scrapePage_stores_price_excl_vat_in_details :
    (Agriaffaires1_8test.scrapeDocument
      { rows := [("Make:", "Fordson"), ("Price excl. VAT:", "1,500 €")],
        priceText := some "1,736", currencyText := some "€", referencePrice := none,
        referenceCurrency := none, vatText := none, dealerText := none, locationText := none,
        phoneDisplay := none }).Details =
      [("Make", "Fordson"), ("Price excl. VAT", "1,500 €")] ∧
    (Agriaffaires1_8test.scrapeDocument
      { rows := [("Make:", "Fordson")],
        priceText := some "1,736", currencyText := some "€", referencePrice := none,
        referenceCurrency := none, vatText := none, dealerText := none, locationText := none,
        phoneDisplay := none }).Details = [("Make", "Fordson")] ∧
    Agriaffaires1_8test.scrapePage (Fetch.parsed
      { rows := [("Make:", "Fordson"), ("Price excl. VAT:", "1,500 €")],
        priceText := some "1,736", currencyText := some "€", referencePrice := none,
        referenceCurrency := none, vatText := none, dealerText := none, locationText := none,
        phoneDisplay := none }) ≠
    Agriaffaires1_8test.scrapePage (Fetch.parsed
      { rows := [("Make:", "Fordson")],
        priceText := some "1,736", currencyText := some "€", referencePrice := none,
        referenceCurrency := none, vatText := none, dealerText := none, locationText := none,
        phoneDisplay := none }) := by
  refine ⟨by decide, by decide, fun h => absurd (Except.ok.inj h) (by decide)⟩

/-! ## The table rows of `scrapeDetailedPage` -/

theorem foldl_specRow_skip (before after : List (String × String)) (row : String × String)
    (d : GoMap) (h : TrimSpace row.1 = "" ∨ TrimSpace row.2 = "") :
    (before ++ row :: after).foldl specRow d = (before ++ after).foldl specRow d := by
  have hrow : ∀ m : GoMap, specRow m row = m := by
    intro m
    unfold specRow
    have : ¬ (TrimSpace row.1 ≠ "" ∧ TrimSpace row.2 ≠ "") := by
      rintro ⟨h1, h2⟩
      rcases h with h | h
      · exact h1 h
      · exact h2 h
    simp only [this, if_false]
  rw [List.foldl_append, List.foldl_cons, hrow, List.foldl_append]

theorem isSome_get_foldl_specRow (rows : List (String × String)) (d : GoMap) (x : String)
    (h : (d.get x).isSome = true) : ((rows.foldl specRow d).get x).isSome = true := by
  induction rows generalizing d with
  | nil => exact h
  | cons row rest ih =>
    apply ih
    unfold specRow
    by_cases hc : TrimSpace row.1 ≠ "" ∧ TrimSpace row.2 ≠ ""
    · rw [if_pos hc]
      by_cases hx : x = TrimSpace row.1
      · rw [hx, GoMap.get_set_self]
        rfl
      · rw [GoMap.get_set_of_ne _ _ _ _ hx]
        exact h
    · rw [if_neg hc]
      exact h

theorem isSome_get_foldl_specRow_of_mem (rows : List (String × String)) (d : GoMap)
    (row : String × String) (hrow : row ∈ rows) (hk : TrimSpace row.1 ≠ "")
    (hv : TrimSpace row.2 ≠ "") :
    ((rows.foldl specRow d).get (TrimSpace row.1)).isSome = true := by
  induction rows generalizing d with
  | nil => simp at hrow
  | cons r rest ih =>
    rcases List.mem_cons.1 hrow with e | hmem
    · subst e
      rw [List.foldl_cons]
      apply isSome_get_foldl_specRow
      unfold specRow
      rw [if_pos ⟨hk, hv⟩, GoMap.get_set_self]
      rfl
    · rw [List.foldl_cons]
      exact ih _ hmem

/-- C8: in `scrapeDetailedPage` of aggriafaires.go and agriaffaires1.2.go the `Details` of
the result are those of the record after the row callback has run over the table rows in
order.  A row whose trimmed key or trimmed value is empty adds no entry: the result is the
same as for the table without that row.  Every other row stores trimmed key -> trimmed
value: its trimmed key is a key of the result, and maps to its trimmed value unless a
later such row has the same trimmed key.  Hence an entry of the resulting `Details` is
either an entry the record already had or has a non-empty key and a non-empty value, the
trimmed cells of one of the rows. -/
theorem scrapeDetailedPage_rows_skip_empty_store_trimmed :
    (∀ (d : GoMap) (row : String × String),
      (TrimSpace row.1 = "" ∨ TrimSpace row.2 = "") → specRow d row = d) ∧
    (∀ (d : GoMap) (row : String × String),
      TrimSpace row.1 ≠ "" → TrimSpace row.2 ≠ "" →
      (specRow d row).get (TrimSpace row.1) = some (TrimSpace row.2) ∧
      ∀ x, x ≠ TrimSpace row.1 → (specRow d row).get x = d.get x) ∧
    (∀ (t : Aggriafaires.Tractor) (doc : DetailDocument),
      (Aggriafaires.scrapeDetailedPage t (some doc)).Details =
        doc.specRows.foldl specRow t.Details) ∧
    (∀ (t : Aggriafaires.Tractor) (description : String)
        (before after : List (String × String)) (row : String × String),
      (TrimSpace row.1 = "" ∨ TrimSpace row.2 = "") →
      (Aggriafaires.scrapeDetailedPage t
        (some { description := description, specRows := before ++ row :: after })).Details =
      (Aggriafaires.scrapeDetailedPage t
        (some { description := description, specRows := before ++ after })).Details) ∧
    (∀ (t : Aggriafaires.Tractor) (description : String)
        (before after : List (String × String)) (row : String × String),
      TrimSpace row.1 ≠ "" → TrimSpace row.2 ≠ "" →
      (∀ r ∈ after, TrimSpace r.1 ≠ "" → TrimSpace r.2 ≠ "" →
        TrimSpace r.1 ≠ TrimSpace row.1) →
      (Aggriafaires.scrapeDetailedPage t
        (some { description := description, specRows := before ++ row :: after })).Details.get
          (TrimSpace row.1) = some (TrimSpace row.2)) ∧
    (∀ (t : Aggriafaires.Tractor) (doc : DetailDocument) (row : String × String),
      row ∈ doc.specRows → TrimSpace row.1 ≠ "" → TrimSpace row.2 ≠ "" →
      ((Aggriafaires.scrapeDetailedPage t (some doc)).Details.get
        (TrimSpace row.1)).isSome = true) ∧
    (∀ (t : Aggriafaires.Tractor) (doc : DetailDocument) (k v : String),
      (Aggriafaires.scrapeDetailedPage t (some doc)).Details.get k = some v →
      t.Details.get k = some v ∨
        (k ≠ "" ∧ v ≠ "" ∧ ∃ row ∈ doc.specRows, TrimSpace row.1 = k ∧ TrimSpace row.2 = v)) ∧
    (∀ (t : Agriaffaires1_2.Tractor) (doc : DetailDocument),
      (Agriaffaires1_2.scrapeDetailedPage t (some doc)).Details =
        doc.specRows.foldl specRow t.Details) ∧
    (∀ (t : Agriaffaires1_2.Tractor) (description : String)
        (before after : List (String × String)) (row : String × String),
      (TrimSpace row.1 = "" ∨ TrimSpace row.2 = "") →
      (Agriaffaires1_2.scrapeDetailedPage t
        (some { description := description, specRows := before ++ row :: after })).Details =
      (Agriaffaires1_2.scrapeDetailedPage t
        (some { description := description, specRows := before ++ after })).Details) ∧
    (∀ (t : Agriaffaires1_2.Tractor) (description : String)
        (before after : List (String × String)) (row : String × String),
      TrimSpace row.1 ≠ "" → TrimSpace row.2 ≠ "" →
      (∀ r ∈ after, TrimSpace r.1 ≠ "" → TrimSpace r.2 ≠ "" →
        TrimSpace r.1 ≠ TrimSpace row.1) →
      (Agriaffaires1_2.scrapeDetailedPage t
        (some { description := description, specRows := before ++ row :: after })).Details.get
          (TrimSpace row.1) = some (TrimSpace row.2)) ∧
    (∀ (t : Agriaffaires1_2.Tractor) (doc : DetailDocument) (row : String × String),
      row ∈ doc.specRows → TrimSpace row.1 ≠ "" → TrimSpace row.2 ≠ "" →
      ((Agriaffaires1_2.scrapeDetailedPage t (some doc)).Details.get
        (TrimSpace row.1)).isSome = true) ∧
    (∀ (t : Agriaffaires1_2.Tractor) (doc : DetailDocument) (k v : String),
      (Agriaffaires1_2.scrapeDetailedPage t (some doc)).Details.get k = some v →
      t.Details.get k = some v ∨
        (k ≠ "" ∧ v ≠ "" ∧ ∃ row ∈ doc.specRows, TrimSpace row.1 = k ∧ TrimSpace row.2 = v)) := by
  refine ⟨fun d row h => ?_, fun d row hk hv => ?_, fun _ _ => rfl,
    fun t _ before after row h => foldl_specRow_skip before after row t.Details h,
    fun t _ before after row hk hv hafter =>
      get_foldl_specRow_last_kept before after row t.Details hk hv hafter,
    fun t doc row hrow hk hv =>
      isSome_get_foldl_specRow_of_mem doc.specRows t.Details row hrow hk hv,
    fun t doc k v h => get_foldl_specRow _ _ _ _ h, fun _ _ => rfl,
    fun t _ before after row h => foldl_specRow_skip before after row t.Details h,
    fun t _ before after row hk hv hafter =>
      get_foldl_specRow_last_kept before after row t.Details hk hv hafter,
    fun t doc row hrow hk hv =>
      isSome_get_foldl_specRow_of_mem doc.specRows t.Details row hrow hk hv,
    fun t doc k v h => get_foldl_specRow _ _ _ _ h⟩
  · unfold specRow
    have : ¬ (TrimSpace row.1 ≠ "" ∧ TrimSpace row.2 ≠ "") := by
      rintro ⟨h1, h2⟩
      rcases h with h | h
      · exact h1 h
      · exact h2 h
    simp only [this, if_false]
  · have hs : specRow d row = d.set (TrimSpace row.1) (TrimSpace row.2) := by
      unfold specRow
      simp only [hk, hv, ne_eq, not_false_eq_true, and_self, if_true]
    rw [hs]
    exact ⟨GoMap.get_set_self _ _ _, fun x hx => GoMap.get_set_of_ne _ _ _ _ hx⟩

theorem scrapeDetailedPage_rows_skip_empty_store_trimmed_witness :
    (Aggriafaires.scrapeDetailedPage
        { Title := "Fordson Major", Price := "", Location := "", Dealer := "", ImageURL := "",
          DetailURL := "https://www.agriaffaires.co.uk/used/1.html", Description := "",
          Details := [("Power", "50 hp")] }
        (some { description := " Runs well. ",
                specRows := [(" Make ", "Fordson")] ++
                  (" Make ", " Fordson Major ") :: [("  ", "x"), ("Year", " ")] })).Details.get
      (TrimSpace " Make ") = some (TrimSpace " Fordson Major ") ∧
    (Agriaffaires1_2.scrapeDetailedPage
        { Title := "Fordson Major", Price := "", ReferencePrice := "", ReferenceCurrency := "",
          DisplayedCurrency := "", PriceType := "", Location := "", Dealer := "",
          ImageURL := "", DetailURL := "", Description := "",
          Details := [("Power", "50 hp")] }
        (some { description := "", specRows := [("Make", "Fordson")] ++
                  ("  ", "x") :: [("Model", "Major")] })).Details =
      (Agriaffaires1_2.scrapeDetailedPage
        { Title := "Fordson Major", Price := "", ReferencePrice := "", ReferenceCurrency := "",
          DisplayedCurrency := "", PriceType := "", Location := "", Dealer := "",
          ImageURL := "", DetailURL := "", Description := "",
          Details := [("Power", "50 hp")] }
        (some { description := "", specRows := [("Make", "Fordson")] ++
                  [("Model", "Major")] })).Details :=
  ⟨scrapeDetailedPage_rows_skip_empty_store_trimmed.2.2.2.2.1 _ _ _ _ (" Make ", " Fordson Major ")
      (by decide) (by decide) (by decide),
    scrapeDetailedPage_rows_skip_empty_store_trimmed.2.2.2.2.2.2.2.2.1 _ _ _ _ ("  ", "x")
      (Or.inl (by decide))⟩

/-! ## Failed requests in every `main` -/

theorem detailLoop_keeps_failed {α Doc : Type} (f : α → Option Doc → α)
    (hf : ∀ t, f t none = t) (detail : Nat → Option Doc) (ts : List α) :
    (detailLoop f detail 0 ts).length = ts.length ∧
    ∀ (i : Nat) (t : α), ts[i]? = some t → detail i = none →
      (detailLoop f detail 0 ts)[i]? = some t := by
  refine ⟨length_detailLoop f detail 0 ts, fun i t ht hd => ?_⟩
  rw [getElem?_detailLoop, ht, Nat.zero_add, hd]
  simp [hf]

theorem t113_mem_sentRecords {Doc : Type} (extract : String → Doc → Agriaffaires1_13test.Tractor)
    (detail : Nat → Fetch Doc) (urls : List String) (t : Agriaffaires1_13test.Tractor) :
    t ∈ Agriaffaires1_13test.sentRecords extract detail urls ↔
      ∃ (i : Nat) (url : String) (doc : Doc),
        urls[i]? = some url ∧ detail i = Fetch.parsed doc ∧ t = extract url doc := by
  unfold Agriaffaires1_13test.sentRecords
  rw [List.mem_filterMap]
  constructor
  · rintro ⟨⟨i, url⟩, hmem, h⟩
    have hi : urls[i]? = some url := List.mk_mem_enum_iff_getElem?.1 hmem
    cases hd : detail i with
    | requestFailed err => simp [scrapePageOrError, hd] at h
    | parseFailed err => simp [scrapePageOrError, hd] at h
    | parsed doc =>
      simp only [scrapePageOrError, hd, Option.some.injEq] at h
      exact ⟨i, url, doc, hi, hd, h.symm⟩
  · rintro ⟨i, url, doc, hi, hd, rfl⟩
    exact ⟨(i, url), List.mk_mem_enum_iff_getElem?.2 hi, by simp [scrapePageOrError, hd]⟩

theorem t113_length_sentRecords {Doc : Type}
    (extract : String → Doc → Agriaffaires1_13test.Tractor) (detail : Nat → Fetch Doc)
    (urls : List String) :
    (Agriaffaires1_13test.sentRecords extract detail urls).length ≤ urls.length := by
  unfold Agriaffaires1_13test.sentRecords
  exact (List.length_filterMap_le _ _).trans (by simp)

theorem test_main_panics (s : Test.Session)
    (h : s.runErr.isSome = true ∨ s.launchErr.isSome = true ∨ s.newPageErr.isSome = true ∨
      s.gotoErr.isSome = true ∨ s.waitErr.isSome = true ∨ s.queryErr.isSome = true) :
    Test.main s = MainEnd.panicked := by
  unfold Test.main
  split_ifs with h1 h2 h3 h4 h5 h6
  · rfl
  · rfl
  · rfl
  · rfl
  · rfl
  · rfl
  · simp_all

/-- C13 amended: in the crawlers aggriafaires.go, main2.go, mainurls.go, mainurls2.go,
agriaffaires1.2.go and agriaffaires2.go a network or parse error while fetching a listing
page or a detail page is not fatal.  For each of them: when the request for listing page
`k` (`k ≥ 1`, a Go `int`) or its parse fails, the crawl loop has ended by its `k`-th
iteration and `main` hands the records it collected to the detail step and to
`saveToCsv`; and whenever the crawl loop has ended, `main` reaches `saveToCsv` with as many
records as the crawl collected, a record whose detail page failed being left as it was.
In agriaffaires1.13test.go a failed listing page makes `main` return before `saveToCSV`,
and a failed detail page drops its record: `saveToCSV` gets exactly the records of the
pages that were parsed.  In main.go, main1.go, agriaffaires1.2test.go and the single-page
scrapers agriaffaires1.5test.go, 1.7test.go, 1.8test.go and 1.11test.go every failed
request or parse ends the process through `log.Fatal`, and in test.go every failed call
ends it in a `panic`. -/
theorem crawler_main_reaches_output_after_errors :
    (∀ (listing : Int → Option Aggriafaires.ListingDocument)
        (detail : Nat → Option DetailDocument) (sched : Aggriafaires.Schedule) (k fuel : Nat),
      1 ≤ k → (k : Int) < 2 ^ 63 → listing k = none → k ≤ fuel →
      ∃ r, Aggriafaires.crawl
          (fun page => Aggriafaires.scrapePage (Aggriafaires.pageURL page) (listing page))
          fuel = some r ∧
        Aggriafaires.main listing detail sched fuel =
          some (ProcessOutcome.finished (Aggriafaires.saveToCsv sched
            (detailLoop Aggriafaires.scrapeDetailedPage detail 0 r.tractors)))) ∧
    (∀ (listing : Int → Option Aggriafaires.ListingDocument)
        (detail : Nat → Option DetailDocument) (sched : Aggriafaires.Schedule) (fuel : Nat)
        (r : CrawlResult Aggriafaires.Tractor),
      Aggriafaires.crawl
        (fun page => Aggriafaires.scrapePage (Aggriafaires.pageURL page) (listing page)) fuel =
          some r →
      Aggriafaires.main listing detail sched fuel =
        some (ProcessOutcome.finished (Aggriafaires.saveToCsv sched
          (detailLoop Aggriafaires.scrapeDetailedPage detail 0 r.tractors))) ∧
      (detailLoop Aggriafaires.scrapeDetailedPage detail 0 r.tractors).length =
        r.tractors.length ∧
      ∀ (i : Nat) (t : Aggriafaires.Tractor), r.tractors[i]? = some t → detail i = none →
        (detailLoop Aggriafaires.scrapeDetailedPage detail 0 r.tractors)[i]? = some t) ∧
    (∀ (Doc : Type) (extract : Doc → List Main2.Tractor) (listing : Int → Option Doc)
        (k fuel : Nat),
      1 ≤ k → (k : Int) < 2 ^ 63 → listing k = none → k ≤ fuel →
      ∃ r, Main2.crawl
          (fun page => scrapePageOrNil extract (Main2.pageURL page) (listing page)) fuel =
            some r ∧
        Main2.main extract listing fuel = some (ProcessOutcome.finished r.tractors)) ∧
    (∀ (Doc Det : Type) (extract : Doc → List Mainurls.Tractor)
        (enrich : Mainurls.Tractor → Det → Mainurls.Tractor) (listing : Int → Option Doc)
        (detail : Nat → Option Det) (k fuel : Nat),
      1 ≤ k → (k : Int) < 2 ^ 63 → listing k = none → k ≤ fuel →
      ∃ r, Mainurls.crawl
          (fun page => scrapePageOrNil extract (Mainurls.pageURL page) (listing page)) fuel =
            some r ∧
        Mainurls.main extract enrich listing detail fuel =
          some (ProcessOutcome.finished
            (detailLoop (scrapeDetailedPageOrSkip enrich) detail 0 r.tractors))) ∧
    (∀ (Doc Det : Type) (extract : Doc → List Mainurls.Tractor)
        (enrich : Mainurls.Tractor → Det → Mainurls.Tractor) (listing : Int → Option Doc)
        (detail : Nat → Option Det) (fuel : Nat) (r : CrawlResult Mainurls.Tractor),
      Mainurls.crawl
        (fun page => scrapePageOrNil extract (Mainurls.pageURL page) (listing page)) fuel =
          some r →
      Mainurls.main extract enrich listing detail fuel =
        some (ProcessOutcome.finished
          (detailLoop (scrapeDetailedPageOrSkip enrich) detail 0 r.tractors)) ∧
      (detailLoop (scrapeDetailedPageOrSkip enrich) detail 0 r.tractors).length =
        r.tractors.length ∧
      ∀ (i : Nat) (t : Mainurls.Tractor), r.tractors[i]? = some t → detail i = none →
        (detailLoop (scrapeDetailedPageOrSkip enrich) detail 0 r.tractors)[i]? = some t) ∧
    (∀ (Doc Det : Type) (extract : Doc → List Mainurls2.Tractor)
        (enrich : Mainurls2.Tractor → Det → Mainurls2.Tractor) (listing : Int → Option Doc)
        (detail : Nat → Option Det) (sched : Mainurls2.Schedule) (k fuel : Nat),
      1 ≤ k → (k : Int) < 2 ^ 63 → listing k = none → k ≤ fuel →
      ∃ r, Mainurls2.crawl
          (fun page => scrapePageOrNil extract (Mainurls2.pageURL page) (listing page)) fuel =
            some r ∧
        Mainurls2.main extract enrich listing detail sched fuel =
          some (ProcessOutcome.finished (Mainurls2.saveToCsv sched
            (detailLoop (scrapeDetailedPageOrSkip enrich) detail 0 r.tractors)))) ∧
    (∀ (Doc Det : Type) (extract : Doc → List Mainurls2.Tractor)
        (enrich : Mainurls2.Tractor → Det → Mainurls2.Tractor) (listing : Int → Option Doc)
        (detail : Nat → Option Det) (sched : Mainurls2.Schedule) (fuel : Nat)
        (r : CrawlResult Mainurls2.Tractor),
      Mainurls2.crawl
        (fun page => scrapePageOrNil extract (Mainurls2.pageURL page) (listing page)) fuel =
          some r →
      Mainurls2.main extract enrich listing detail sched fuel =
        some (ProcessOutcome.finished (Mainurls2.saveToCsv sched
          (detailLoop (scrapeDetailedPageOrSkip enrich) detail 0 r.tractors))) ∧
      (detailLoop (scrapeDetailedPageOrSkip enrich) detail 0 r.tractors).length =
        r.tractors.length ∧
      ∀ (i : Nat) (t : Mainurls2.Tractor), r.tractors[i]? = some t → detail i = none →
        (detailLoop (scrapeDetailedPageOrSkip enrich) detail 0 r.tractors)[i]? = some t) ∧
    (∀ (Doc : Type) (extract : Doc → List Agriaffaires1_2.Tractor × Bool)
        (listing : Int → Fetch Doc) (detail : Nat → Option DetailDocument)
        (sched : Agriaffaires1_2.Schedule) (k fuel : Nat) (err : String),
      1 ≤ k → (k : Int) < 2 ^ 63 →
      (listing k = Fetch.requestFailed err ∨ listing k = Fetch.parseFailed err) → k ≤ fuel →
      ∃ r, Agriaffaires1_2.crawl
          (fun page => Agriaffaires1_2.scrapePage extract (Agriaffaires1_2.pageURL page)
            (listing page)) fuel = some r ∧
        Agriaffaires1_2.main extract listing detail sched fuel =
          some (ProcessOutcome.finished (Agriaffaires1_2.saveToCsv sched
            (detailLoop Agriaffaires1_2.scrapeDetailedPage detail 0 r.tractors)))) ∧
    (∀ (Doc : Type) (extract : Doc → List Agriaffaires1_2.Tractor × Bool)
        (listing : Int → Fetch Doc) (detail : Nat → Option DetailDocument)
        (sched : Agriaffaires1_2.Schedule) (fuel : Nat)
        (r : CrawlResult Agriaffaires1_2.Tractor),
      Agriaffaires1_2.crawl
        (fun page => Agriaffaires1_2.scrapePage extract (Agriaffaires1_2.pageURL page)
          (listing page)) fuel = some r →
      Agriaffaires1_2.main extract listing detail sched fuel =
        some (ProcessOutcome.finished (Agriaffaires1_2.saveToCsv sched
          (detailLoop Agriaffaires1_2.scrapeDetailedPage detail 0 r.tractors))) ∧
      (detailLoop Agriaffaires1_2.scrapeDetailedPage detail 0 r.tractors).length =
        r.tractors.length ∧
      ∀ (i : Nat) (t : Agriaffaires1_2.Tractor), r.tractors[i]? = some t → detail i = none →
        (detailLoop Agriaffaires1_2.scrapeDetailedPage detail 0 r.tractors)[i]? = some t) ∧
    (∀ (Det : Type) (enrich : Agriaffaires2.Tractor → Det → Agriaffaires2.Tractor)
        (draws : Int → Fin 3)
        (serve : Int → Agriaffaires2.Request → Fetch Agriaffaires2.ListingDocument)
        (detail : Nat → Option Det) (sched : Agriaffaires2.Schedule)
        (k fuel : Nat) (err : String),
      1 ≤ k → (k : Int) < 2 ^ 63 →
      (serve k { url := Agriaffaires2.pageURL k,
                 userAgent := Agriaffaires2.getRandomUserAgent (draws k) } =
          Fetch.requestFailed err ∨
        serve k { url := Agriaffaires2.pageURL k,
                  userAgent := Agriaffaires2.getRandomUserAgent (draws k) } =
          Fetch.parseFailed err) → k ≤ fuel →
      ∃ r, Agriaffaires2.crawl
          (fun page => Agriaffaires2.scrapePage (Agriaffaires2.pageURL page) (draws page)
            (serve page)) fuel = some r ∧
        Agriaffaires2.main enrich draws serve detail sched fuel =
          some (ProcessOutcome.finished (Agriaffaires2.saveToCsv sched
            (detailLoop (scrapeDetailedPageOrSkip enrich) detail 0 r.tractors)))) ∧
    (∀ (Det : Type) (enrich : Agriaffaires2.Tractor → Det → Agriaffaires2.Tractor)
        (draws : Int → Fin 3)
        (serve : Int → Agriaffaires2.Request → Fetch Agriaffaires2.ListingDocument)
        (detail : Nat → Option Det) (sched : Agriaffaires2.Schedule) (fuel : Nat)
        (r : CrawlResult Agriaffaires2.Tractor),
      Agriaffaires2.crawl
        (fun page => Agriaffaires2.scrapePage (Agriaffaires2.pageURL page) (draws page)
          (serve page)) fuel = some r →
      Agriaffaires2.main enrich draws serve detail sched fuel =
        some (ProcessOutcome.finished (Agriaffaires2.saveToCsv sched
          (detailLoop (scrapeDetailedPageOrSkip enrich) detail 0 r.tractors))) ∧
      (detailLoop (scrapeDetailedPageOrSkip enrich) detail 0 r.tractors).length =
        r.tractors.length ∧
      ∀ (i : Nat) (t : Agriaffaires2.Tractor), r.tractors[i]? = some t → detail i = none →
        (detailLoop (scrapeDetailedPageOrSkip enrich) detail 0 r.tractors)[i]? = some t) ∧
    (∀ (Doc : Type) (extract : String → Doc → Agriaffaires1_13test.Tractor)
        (detail : Nat → Fetch Doc) (arrival : Agriaffaires1_13test.Arrival) (err : String),
      Agriaffaires1_13test.main extract (Fetch.requestFailed err) detail arrival =
        MainEnd.returned ∧
      Agriaffaires1_13test.main extract (Fetch.parseFailed err) detail arrival =
        MainEnd.returned) ∧
    (∀ (Doc : Type) (extract : String → Doc → Agriaffaires1_13test.Tractor)
        (links : List (Option String)) (detail : Nat → Fetch Doc)
        (arrival : Agriaffaires1_13test.Arrival) (urls : List String),
      Agriaffaires1_13test.scrapeListing (Fetch.parsed links) = Except.ok urls →
      Agriaffaires1_13test.main extract (Fetch.parsed links) detail arrival =
        MainEnd.output (Agriaffaires1_13test.saveToCSV
          (arrival.order (Agriaffaires1_13test.sentRecords extract detail urls))) ∧
      (arrival.order (Agriaffaires1_13test.sentRecords extract detail urls)).length ≤
        urls.length ∧
      ∀ t : Agriaffaires1_13test.Tractor,
        t ∈ arrival.order (Agriaffaires1_13test.sentRecords extract detail urls) ↔
          ∃ (i : Nat) (url : String) (doc : Doc),
            urls[i]? = some url ∧ detail i = Fetch.parsed doc ∧ t = extract url doc) ∧
    (∀ (Doc : Type) (extract : Doc → List Main.Tractor),
      Main.main extract none = ProcessOutcome.fatal) ∧
    (∀ (Doc α : Type) (extract : Doc → List α),
      Main1.main extract none = ProcessOutcome.fatal) ∧
    (∀ Doc : Type, Agriaffaires1_2test.main (none : Option Doc) = ProcessOutcome.fatal) ∧
    (∀ (Doc α : Type) (extract : Doc → α) (err : String),
      (Agriaffaires1_5test.main extract (Fetch.requestFailed err) = ProcessOutcome.fatal ∧
        Agriaffaires1_5test.main extract (Fetch.parseFailed err) = ProcessOutcome.fatal) ∧
      (Agriaffaires1_7test.main extract (Fetch.requestFailed err) = ProcessOutcome.fatal ∧
        Agriaffaires1_7test.main extract (Fetch.parseFailed err) = ProcessOutcome.fatal) ∧
      (Agriaffaires1_8test.main extract (Fetch.requestFailed err) = ProcessOutcome.fatal ∧
        Agriaffaires1_8test.main extract (Fetch.parseFailed err) = ProcessOutcome.fatal) ∧
      (Agriaffaires1_11test.main extract (Fetch.requestFailed err) = ProcessOutcome.fatal ∧
        Agriaffaires1_11test.main extract (Fetch.parseFailed err) = ProcessOutcome.fatal)) ∧
    (∀ s : Test.Session,
      (s.runErr.isSome = true ∨ s.launchErr.isSome = true ∨ s.newPageErr.isSome = true ∨
        s.gotoErr.isSome = true ∨ s.waitErr.isSome = true ∨ s.queryErr.isSome = true) →
      Test.main s = MainEnd.panicked) := by
  refine ⟨?_, ?_, ?_, ?_, ?_, ?_, ?_, ?_, ?_, ?_, ?_, ?_, ?_, ?_, ?_, ?_, ?_, ?_⟩
  · intro listing detail sched k fuel hk hmax hfail hfuel
    obtain ⟨r, hr⟩ := crawlUntilEmpty_terminates_at
      (fun page => Aggriafaires.scrapePage (Aggriafaires.pageURL page) (listing page)) k fuel
      hk hmax (by simp only [hfail]; rfl) hfuel
    exact ⟨r, hr, by simp only [Aggriafaires.main, Aggriafaires.crawl, hr]⟩
  · intro listing detail sched fuel r hr
    exact ⟨by simp only [Aggriafaires.main, hr],
      detailLoop_keeps_failed _ (fun _ => rfl) detail r.tractors⟩
  · intro Doc extract listing k fuel hk hmax hfail hfuel
    obtain ⟨r, hr⟩ := crawlUntilEmpty_terminates_at
      (fun page => scrapePageOrNil extract (Main2.pageURL page) (listing page)) k fuel
      hk hmax (by simp only [hfail]; rfl) hfuel
    exact ⟨r, hr, by simp only [Main2.main, Main2.crawl, hr]⟩
  · intro Doc Det extract enrich listing detail k fuel hk hmax hfail hfuel
    obtain ⟨r, hr⟩ := crawlUntilEmpty_terminates_at
      (fun page => scrapePageOrNil extract (Mainurls.pageURL page) (listing page)) k fuel
      hk hmax (by simp only [hfail]; rfl) hfuel
    exact ⟨r, hr, by simp only [Mainurls.main, Mainurls.crawl, hr]⟩
  · intro Doc Det extract enrich listing detail fuel r hr
    exact ⟨by simp only [Mainurls.main, hr],
      detailLoop_keeps_failed _ (fun _ => rfl) detail r.tractors⟩
  · intro Doc Det extract enrich listing detail sched k fuel hk hmax hfail hfuel
    obtain ⟨r, hr⟩ := crawlUntilEmpty_terminates_at
      (fun page => scrapePageOrNil extract (Mainurls2.pageURL page) (listing page)) k fuel
      hk hmax (by simp only [hfail]; rfl) hfuel
    exact ⟨r, hr, by simp only [Mainurls2.main, Mainurls2.crawl, hr]⟩
  · intro Doc Det extract enrich listing detail sched fuel r hr
    exact ⟨by simp only [Mainurls2.main, hr],
      detailLoop_keeps_failed _ (fun _ => rfl) detail r.tractors⟩
  · intro Doc extract listing detail sched k fuel err hk hmax hfail hfuel
    obtain ⟨r, hr⟩ := crawlUntilLast_terminates_at
      (fun page => Agriaffaires1_2.scrapePage extract (Agriaffaires1_2.pageURL page)
        (listing page)) k fuel hk hmax
      (by rcases hfail with h | h <;> simp only [h, Agriaffaires1_2.scrapePage] <;>
            exact ⟨_, rfl⟩) hfuel
    exact ⟨r, hr, by simp only [Agriaffaires1_2.main, Agriaffaires1_2.crawl, hr]⟩
  · intro Doc extract listing detail sched fuel r hr
    exact ⟨by simp only [Agriaffaires1_2.main, hr],
      detailLoop_keeps_failed _ (fun _ => rfl) detail r.tractors⟩
  · intro Det enrich draws serve detail sched k fuel err hk hmax hfail hfuel
    obtain ⟨r, hr⟩ := crawlUntilLast_terminates_at
      (fun page => Agriaffaires2.scrapePage (Agriaffaires2.pageURL page) (draws page)
        (serve page)) k fuel hk hmax
      (by rcases hfail with h | h <;> simp only [h, Agriaffaires2.scrapePage] <;>
            exact ⟨_, rfl⟩) hfuel
    exact ⟨r, hr, by simp only [Agriaffaires2.main, Agriaffaires2.crawl, hr]⟩
  · intro Det enrich draws serve detail sched fuel r hr
    exact ⟨by simp only [Agriaffaires2.main, hr],
      detailLoop_keeps_failed _ (fun _ => rfl) detail r.tractors⟩
  · intro Doc extract detail arrival err
    exact ⟨rfl, rfl⟩
  · intro Doc extract links detail arrival urls hurls
    refine ⟨by simp only [Agriaffaires1_13test.main, hurls], ?_, fun t => ?_⟩
    · rw [(arrival.perm _).length_eq]
      exact t113_length_sentRecords extract detail urls
    · rw [(arrival.perm _).mem_iff]
      exact t113_mem_sentRecords extract detail urls t
  · intro Doc extract
    rfl
  · intro Doc α extract
    rfl
  · intro Doc
    rfl
  · intro Doc α extract err
    exact ⟨⟨rfl, rfl⟩, ⟨rfl, rfl⟩, ⟨rfl, rfl⟩, ⟨rfl, rfl⟩⟩
  · exact test_main_panics

theorem crawler_main_reaches_output_after_errors_witness :
    (∃ r, Aggriafaires.crawl
        (fun page => Aggriafaires.scrapePage (Aggriafaires.pageURL page)
          ((fun p : Int => if p = 1 then
            some ({ blocks := [{ title := some "Fordson Major", price := none,
                                 localisation := none, category := none, pictureSrc := none,
                                 linkHref := some "/used/1.html", descriptionSpans := [] }] } :
              Aggriafaires.ListingDocument)
            else none) page)) 2 = some r ∧
      Aggriafaires.main
        (fun p : Int => if p = 1 then
          some ({ blocks := [{ title := some "Fordson Major", price := none,
                               localisation := none, category := none, pictureSrc := none,
                               linkHref := some "/used/1.html", descriptionSpans := [] }] } :
            Aggriafaires.ListingDocument)
          else none)
        (fun _ => none)
        ⟨fun _ => RangeOrder.stored, RangeOrder.stored, fun _ => RangeOrder.stored⟩ 2 =
        some (ProcessOutcome.finished (Aggriafaires.saveToCsv
          ⟨fun _ => RangeOrder.stored, RangeOrder.stored, fun _ => RangeOrder.stored⟩
          (detailLoop Aggriafaires.scrapeDetailedPage (fun _ => none) 0 r.tractors)))) ∧
    Test.main
      { runErr := none, launchErr := none, newPageErr := none,
        gotoErr := some "net::ERR_NAME_NOT_RESOLVED", waitErr := none, queryErr := none,
        priceElement := none } = MainEnd.panicked :=
  ⟨crawler_main_reaches_output_after_errors.1 _ (fun _ => none)
      ⟨fun _ => RangeOrder.stored, RangeOrder.stored, fun _ => RangeOrder.stored⟩ 2 2
      (by decide) (by decide) (by decide) (by decide),
    crawler_main_reaches_output_after_errors.2.2.2.2.2.2.2.2.2.2.2.2.2.2.2.2.2 _
      (Or.inr (Or.inr (Or.inr (Or.inl rfl))))⟩

end GoFind
